import Mathlib

/-!
# Cedrus VP8 decoder control path

A shallow embedding of `drivers/staging/media/sunxi/cedrus/cedrus_vp8.c`:
the probability table (`cedrus_vp8_start`, `cedrus_vp8_update_probs`), the
header replay (`read_bits`, `cedrus_read_header` and its helpers), the
register programming of `cedrus_vp8_setup`, and the interrupt entry points.

Conventions.

* C integers are `Nat` (unsigned) or `Int` (signed); truncation to a machine
  width is written out (`u32`, `u8`, `to_ulong`).
* Fixed-size C arrays are functions on `Fin n`.
* The probability table is a `List Nat`; every access is index checked and an
  out-of-range access yields `none`.
* Stateful code passes the device state explicitly.  The engine's answers
  (register reads, wait outcomes) come from an `Engine` oracle.
* Constants and macros that the driver takes from other headers
  (`cedrus_regs.h`, `v4l2-controls.h`) are the fields of one structure,
  `cedrus_hdr`, over which every function is parametrised; `sample_hdr` is
  one concrete assignment.
-/

namespace Cedrus

/-! ## Machine arithmetic -/

/-- Truncation to a 32-bit word (`u32`). -/
def u32 (x : Nat) : Nat := x % 2 ^ 32

/-- Truncation to a byte (`u8`, `uint8_t`). -/
def u8 (x : Nat) : Nat := x % 2 ^ 8

/-- Width of `unsigned long`. -/
def BITS_PER_LONG : Nat := 64

/-- Conversion of a C integer, possibly negative, to `unsigned long`. -/
def to_ulong (v : Int) : Nat := (v % 2 ^ BITS_PER_LONG).toNat

/-- Modelled from the spec: `GENMASK(h, l)` of `linux/bits.h`, the word whose
bits `l..h` are set ("field masks/shifts defined per register"). -/
def GENMASK (h l : Nat) : Nat := (2 ^ (h + 1 - l) - 1) <<< l

/-- Modelled from the spec: `SHIFT_AND_MASK_BITS(v, h, l)` of `cedrus_regs.h`,
`((unsigned long)(v) << l) & GENMASK(h, l)`: the value `v` placed in the field
occupying bits `l..h`. -/
def SHIFT_AND_MASK_BITS (v : Int) (h l : Nat) : Nat :=
  ((to_ulong v <<< l) % 2 ^ BITS_PER_LONG) &&& GENMASK h l

/-- The C statement `reg |= x` on a `u32` variable. -/
def or32 (reg x : Nat) : Nat := u32 (reg ||| x)

/-- Integer logarithm `ilog2` of `linux/log2.h` on a 32-bit argument
(`fls(n) - 1`, hence `-1` at `0`). -/
def ilog2 (n : Nat) : Int := if n = 0 then -1 else (Nat.log2 n : Int)

/-- Errno value `ENOMEM`. -/
def ENOMEM : Int := 12

/-! ## Loops -/

/-- The loop `for (i = 0; i < n; i++) body(i)` on an explicit state. -/
def forLoop {σ : Type} (n : Nat) (body : Nat → σ → σ) (s : σ) : σ :=
  match n with
  | 0 => s
  | n + 1 => body n (forLoop n body s)

/-- The same loop for a body that can fail. -/
def forLoopM {σ : Type} (n : Nat) (body : Nat → σ → Option σ) (s : σ) : Option σ :=
  match n with
  | 0 => some s
  | n + 1 => (forLoopM n body s).bind (body n)

/-! ## Frame parameters (`struct v4l2_ctrl_vp8_frame`) -/

/-- Number of motion-vector probabilities per direction. -/
def V4L2_VP8_MV_PROB_CNT : Nat := 19

/-- Number of coefficient probabilities per row. -/
def V4L2_VP8_COEFF_PROB_CNT : Nat := 11

/-- Segmentation parameters (`struct v4l2_vp8_segment`). -/
structure v4l2_vp8_segment where
  quant_update : Fin 4 → Int
  lf_update : Fin 4 → Int
  segment_probs : Fin 3 → Nat
  flags : Nat

/-- Loop-filter parameters (`struct v4l2_vp8_loop_filter`). -/
structure v4l2_vp8_loop_filter where
  ref_frm_delta : Fin 4 → Int
  mb_mode_delta : Fin 4 → Int
  sharpness_level : Nat
  level : Nat
  flags : Nat

/-- Quantizer parameters (`struct v4l2_vp8_quantization`). -/
structure v4l2_vp8_quantization where
  y_ac_qi : Nat
  y_dc_delta : Int
  y2_dc_delta : Int
  y2_ac_delta : Int
  uv_dc_delta : Int
  uv_ac_delta : Int

/-- Entropy probabilities (`struct v4l2_vp8_entropy`). -/
structure v4l2_vp8_entropy where
  coeff_probs : Fin 4 → Fin 8 → Fin 3 → Fin 11 → Nat
  y_mode_probs : Fin 4 → Nat
  uv_mode_probs : Fin 3 → Nat
  mv_probs : Fin 2 → Fin 19 → Nat

/-- Frame parameters (`struct v4l2_ctrl_vp8_frame`), the fields the decoder
reads. -/
structure v4l2_ctrl_vp8_frame where
  segment : v4l2_vp8_segment
  lf : v4l2_vp8_loop_filter
  quant : v4l2_vp8_quantization
  entropy : v4l2_vp8_entropy
  width : Nat
  height : Nat
  version : Nat
  prob_skip_false : Nat
  prob_intra : Nat
  prob_last : Nat
  prob_gf : Nat
  num_dct_parts : Nat
  first_part_size : Nat
  last_frame_ts : Nat
  golden_frame_ts : Nat
  alt_frame_ts : Nat
  flags : Nat

/-! ## Header constants -/

/-- A register field occupying bits `lo..hi`. -/
structure Field where
  hi : Nat
  lo : Nat
deriving DecidableEq, Repr

/-- Constants and macros of `v4l2-controls.h` and `cedrus_regs.h` used by the
decoder.  Flag macros are masks; field macros of the picture-parameter and
quantizer registers are `SHIFT_AND_MASK_BITS` over a `Field`; the remaining
function-like macros are arbitrary functions. -/
structure cedrus_hdr where
  V4L2_VP8_FRAME_FLAG_KEY_FRAME : Nat
  V4L2_VP8_FRAME_FLAG_MB_NO_SKIP_COEFF : Nat
  V4L2_VP8_FRAME_FLAG_SIGN_BIAS_GOLDEN : Nat
  V4L2_VP8_FRAME_FLAG_SIGN_BIAS_ALT : Nat
  V4L2_VP8_SEGMENT_FLAG_ENABLED : Nat
  V4L2_VP8_SEGMENT_FLAG_UPDATE_MAP : Nat
  V4L2_VP8_SEGMENT_FLAG_DELTA_VALUE_MODE : Nat
  V4L2_VP8_LF_ADJ_ENABLE : Nat
  V4L2_VP8_LF_DELTA_UPDATE : Nat
  V4L2_VP8_LF_FILTER_TYPE_SIMPLE : Nat
  VE_H264_CTRL_VP8 : Nat
  VE_H264_CTRL_DECODE_ERR_INT : Nat
  VE_H264_CTRL_SLICE_DECODE_INT : Nat
  VE_H264_CTRL_INT_MASK : Nat
  VE_H264_STATUS_DECODE_ERR_INT : Nat
  VE_H264_STATUS_VLD_DATA_REQ_INT : Nat
  VE_H264_STATUS_VLD_BUSY : Nat
  VE_H264_STATUS_VP8_UPPROB_BUSY : Nat
  VE_H264_STATUS_INT_MASK : Nat
  VE_H264_TRIGGER_TYPE_VP8_GET_BITS : Nat
  VE_H264_TRIGGER_TYPE_VP8_UPDATE_COEF : Nat
  VE_H264_TRIGGER_TYPE_VP8_SLICE_DECODE : Nat
  VE_H264_TRIGGER_TYPE_INIT_SWDEC : Nat
  VE_H264_TRIGGER_TYPE_BIN_LENS : Nat → Nat
  VE_H264_TRIGGER_TYPE_PROBABILITY : Nat → Nat
  VE_H264_VLD_ADDR_VAL : Nat → Nat
  VE_H264_VLD_ADDR_FIRST : Nat
  VE_H264_VLD_ADDR_VALID : Nat
  VE_H264_VLD_ADDR_LAST : Nat
  VE_VP8_PPS_PIC_TYPE_P_FRAME : Nat
  VE_VP8_PPS_LAST_SHARPNESS_LEVEL : Field
  VE_VP8_PPS_LAST_PIC_TYPE_P_FRAME : Nat
  VE_VP8_PPS_ALTREF_SIGN_BIAS : Nat
  VE_VP8_PPS_GOLDEN_SIGN_BIAS : Nat
  VE_VP8_PPS_RELOAD_ENTROPY_PROBS : Nat
  VE_VP8_PPS_MB_NO_COEFF_SKIP : Nat
  VE_VP8_PPS_TOKEN_PARTITION : Field
  VE_VP8_PPS_MODE_REF_LF_DELTA_UPDATE : Nat
  VE_VP8_PPS_MODE_REF_LF_DELTA_ENABLE : Nat
  VE_VP8_PPS_LOOP_FILTER_LEVEL : Field
  VE_VP8_PPS_LOOP_FILTER_SIMPLE : Nat
  VE_VP8_PPS_SHARPNESS_LEVEL : Field
  VE_VP8_PPS_LAST_LOOP_FILTER_SIMPLE : Nat
  VE_VP8_PPS_SEGMENTATION_ENABLE : Nat
  VE_VP8_PPS_MB_SEGMENT_ABS_DELTA : Nat
  VE_VP8_PPS_UPDATE_MB_SEGMENTATION_MAP : Nat
  VE_VP8_PPS_FULL_PIXEL : Nat
  VE_VP8_PPS_BILINEAR_MC_FILTER : Nat
  VE_VP8_PPS_FILTER_TYPE_SIMPLE : Nat
  VE_VP8_PPS_LPF_DISABLE : Nat
  VE_VP8_QP_INDEX_DELTA_UVAC : Field
  VE_VP8_QP_INDEX_DELTA_UVDC : Field
  VE_VP8_QP_INDEX_DELTA_Y2AC : Field
  VE_VP8_QP_INDEX_DELTA_Y2DC : Field
  VE_VP8_QP_INDEX_DELTA_Y1DC : Field
  VE_VP8_QP_INDEX_DELTA_BASE_QINDEX : Field
  VE_VP8_FSIZE_WIDTH : Nat → Nat
  VE_VP8_FSIZE_HEIGHT : Nat → Nat
  VE_VP8_PICSIZE_WIDTH : Nat → Nat
  VE_VP8_PICSIZE_HEIGHT : Nat → Nat
  VE_VP8_SEGMENT0 : Int → Nat
  VE_VP8_SEGMENT1 : Int → Nat
  VE_VP8_SEGMENT2 : Int → Nat
  VE_VP8_SEGMENT3 : Int → Nat
  VE_VP8_LF_DELTA0 : Int → Nat
  VE_VP8_LF_DELTA1 : Int → Nat
  VE_VP8_LF_DELTA2 : Int → Nat
  VE_VP8_LF_DELTA3 : Int → Nat

/-- The macro `V4L2_VP8_FRAME_IS_KEY_FRAME(hdr)`. -/
def V4L2_VP8_FRAME_IS_KEY_FRAME (K : cedrus_hdr) (slice : v4l2_ctrl_vp8_frame) : Bool :=
  (slice.flags &&& K.V4L2_VP8_FRAME_FLAG_KEY_FRAME) != 0

/-! ## Constant tables -/

/-- Constant `CEDRUS_ENTROPY_PROBS_SIZE`. -/
def CEDRUS_ENTROPY_PROBS_SIZE : Nat := 0x2400

/-- Constant `VP8_PROB_HALF`. -/
def VP8_PROB_HALF : Nat := 128

/-- Constant `QUANT_DELTA_COUNT`. -/
def QUANT_DELTA_COUNT : Nat := 5

/-- Section `k_coeff_entropy_update_probs`, `block 0` of `prob_table_init` (512 bytes). -/
def pti_coeff_block0 : List Nat := [
  0xFF, 0xFF, 0xFF, 0xFF, 0xFF, 0xFF, 0xFF, 0xFF, 0xFF, 0xFF, 0xFF, 0x00, 0x00, 0x00, 0x00, 0x00,
  0xFF, 0xFF, 0xFF, 0xFF, 0xFF, 0xFF, 0xFF, 0xFF, 0xFF, 0xFF, 0xFF, 0x00, 0x00, 0x00, 0x00, 0x00,
  0xFF, 0xFF, 0xFF, 0xFF, 0xFF, 0xFF, 0xFF, 0xFF, 0xFF, 0xFF, 0xFF, 0x00, 0x00, 0x00, 0x00, 0x00,
  0x00, 0x00, 0x00, 0x00, 0x00, 0x00, 0x00, 0x00, 0x00, 0x00, 0x00, 0x00, 0x00, 0x00, 0x00, 0x00,
  0xB0, 0xF6, 0xFF, 0xFF, 0xFF, 0xFF, 0xFF, 0xFF, 0xFF, 0xFF, 0xFF, 0x00, 0x00, 0x00, 0x00, 0x00,
  0xDF, 0xF1, 0xFC, 0xFF, 0xFF, 0xFF, 0xFF, 0xFF, 0xFF, 0xFF, 0xFF, 0x00, 0x00, 0x00, 0x00, 0x00,
  0xF9, 0xFD, 0xFD, 0xFF, 0xFF, 0xFF, 0xFF, 0xFF, 0xFF, 0xFF, 0xFF, 0x00, 0x00, 0x00, 0x00, 0x00,
  0x00, 0x00, 0x00, 0x00, 0x00, 0x00, 0x00, 0x00, 0x00, 0x00, 0x00, 0x00, 0x00, 0x00, 0x00, 0x00,
  0xFF, 0xF4, 0xFC, 0xFF, 0xFF, 0xFF, 0xFF, 0xFF, 0xFF, 0xFF, 0xFF, 0x00, 0x00, 0x00, 0x00, 0x00,
  0xEA, 0xFE, 0xFE, 0xFF, 0xFF, 0xFF, 0xFF, 0xFF, 0xFF, 0xFF, 0xFF, 0x00, 0x00, 0x00, 0x00, 0x00,
  0xFD, 0xFF, 0xFF, 0xFF, 0xFF, 0xFF, 0xFF, 0xFF, 0xFF, 0xFF, 0xFF, 0x00, 0x00, 0x00, 0x00, 0x00,
  0x00, 0x00, 0x00, 0x00, 0x00, 0x00, 0x00, 0x00, 0x00, 0x00, 0x00, 0x00, 0x00, 0x00, 0x00, 0x00,
  0xFF, 0xF6, 0xFE, 0xFF, 0xFF, 0xFF, 0xFF, 0xFF, 0xFF, 0xFF, 0xFF, 0x00, 0x00, 0x00, 0x00, 0x00,
  0xEF, 0xFD, 0xFE, 0xFF, 0xFF, 0xFF, 0xFF, 0xFF, 0xFF, 0xFF, 0xFF, 0x00, 0x00, 0x00, 0x00, 0x00,
  0xFE, 0xFF, 0xFE, 0xFF, 0xFF, 0xFF, 0xFF, 0xFF, 0xFF, 0xFF, 0xFF, 0x00, 0x00, 0x00, 0x00, 0x00,
  0x00, 0x00, 0x00, 0x00, 0x00, 0x00, 0x00, 0x00, 0x00, 0x00, 0x00, 0x00, 0x00, 0x00, 0x00, 0x00,
  0xFF, 0xF8, 0xFE, 0xFF, 0xFF, 0xFF, 0xFF, 0xFF, 0xFF, 0xFF, 0xFF, 0x00, 0x00, 0x00, 0x00, 0x00,
  0xFB, 0xFF, 0xFE, 0xFF, 0xFF, 0xFF, 0xFF, 0xFF, 0xFF, 0xFF, 0xFF, 0x00, 0x00, 0x00, 0x00, 0x00,
  0xFF, 0xFF, 0xFF, 0xFF, 0xFF, 0xFF, 0xFF, 0xFF, 0xFF, 0xFF, 0xFF, 0x00, 0x00, 0x00, 0x00, 0x00,
  0x00, 0x00, 0x00, 0x00, 0x00, 0x00, 0x00, 0x00, 0x00, 0x00, 0x00, 0x00, 0x00, 0x00, 0x00, 0x00,
  0xFF, 0xFD, 0xFE, 0xFF, 0xFF, 0xFF, 0xFF, 0xFF, 0xFF, 0xFF, 0xFF, 0x00, 0x00, 0x00, 0x00, 0x00,
  0xFB, 0xFE, 0xFE, 0xFF, 0xFF, 0xFF, 0xFF, 0xFF, 0xFF, 0xFF, 0xFF, 0x00, 0x00, 0x00, 0x00, 0x00,
  0xFE, 0xFF, 0xFE, 0xFF, 0xFF, 0xFF, 0xFF, 0xFF, 0xFF, 0xFF, 0xFF, 0x00, 0x00, 0x00, 0x00, 0x00,
  0x00, 0x00, 0x00, 0x00, 0x00, 0x00, 0x00, 0x00, 0x00, 0x00, 0x00, 0x00, 0x00, 0x00, 0x00, 0x00,
  0xFF, 0xFE, 0xFD, 0xFF, 0xFE, 0xFF, 0xFF, 0xFF, 0xFF, 0xFF, 0xFF, 0x00, 0x00, 0x00, 0x00, 0x00,
  0xFA, 0xFF, 0xFE, 0xFF, 0xFE, 0xFF, 0xFF, 0xFF, 0xFF, 0xFF, 0xFF, 0x00, 0x00, 0x00, 0x00, 0x00,
  0xFE, 0xFF, 0xFF, 0xFF, 0xFF, 0xFF, 0xFF, 0xFF, 0xFF, 0xFF, 0xFF, 0x00, 0x00, 0x00, 0x00, 0x00,
  0x00, 0x00, 0x00, 0x00, 0x00, 0x00, 0x00, 0x00, 0x00, 0x00, 0x00, 0x00, 0x00, 0x00, 0x00, 0x00,
  0xFF, 0xFF, 0xFF, 0xFF, 0xFF, 0xFF, 0xFF, 0xFF, 0xFF, 0xFF, 0xFF, 0x00, 0x00, 0x00, 0x00, 0x00,
  0xFF, 0xFF, 0xFF, 0xFF, 0xFF, 0xFF, 0xFF, 0xFF, 0xFF, 0xFF, 0xFF, 0x00, 0x00, 0x00, 0x00, 0x00,
  0xFF, 0xFF, 0xFF, 0xFF, 0xFF, 0xFF, 0xFF, 0xFF, 0xFF, 0xFF, 0xFF, 0x00, 0x00, 0x00, 0x00, 0x00,
  0x00, 0x00, 0x00, 0x00, 0x00, 0x00, 0x00, 0x00, 0x00, 0x00, 0x00, 0x00, 0x00, 0x00, 0x00, 0x00]

/-- Section `k_coeff_entropy_update_probs`, `block 1` of `prob_table_init` (512 bytes). -/
def pti_coeff_block1 : List Nat := [
  0xD9, 0xFF, 0xFF, 0xFF, 0xFF, 0xFF, 0xFF, 0xFF, 0xFF, 0xFF, 0xFF, 0x00, 0x00, 0x00, 0x00, 0x00,
  0xE1, 0xFC, 0xF1, 0xFD, 0xFF, 0xFF, 0xFE, 0xFF, 0xFF, 0xFF, 0xFF, 0x00, 0x00, 0x00, 0x00, 0x00,
  0xEA, 0xFA, 0xF1, 0xFA, 0xFD, 0xFF, 0xFD, 0xFE, 0xFF, 0xFF, 0xFF, 0x00, 0x00, 0x00, 0x00, 0x00,
  0x00, 0x00, 0x00, 0x00, 0x00, 0x00, 0x00, 0x00, 0x00, 0x00, 0x00, 0x00, 0x00, 0x00, 0x00, 0x00,
  0xFF, 0xFE, 0xFF, 0xFF, 0xFF, 0xFF, 0xFF, 0xFF, 0xFF, 0xFF, 0xFF, 0x00, 0x00, 0x00, 0x00, 0x00,
  0xDF, 0xFE, 0xFE, 0xFF, 0xFF, 0xFF, 0xFF, 0xFF, 0xFF, 0xFF, 0xFF, 0x00, 0x00, 0x00, 0x00, 0x00,
  0xEE, 0xFD, 0xFE, 0xFE, 0xFF, 0xFF, 0xFF, 0xFF, 0xFF, 0xFF, 0xFF, 0x00, 0x00, 0x00, 0x00, 0x00,
  0x00, 0x00, 0x00, 0x00, 0x00, 0x00, 0x00, 0x00, 0x00, 0x00, 0x00, 0x00, 0x00, 0x00, 0x00, 0x00,
  0xFF, 0xF8, 0xFE, 0xFF, 0xFF, 0xFF, 0xFF, 0xFF, 0xFF, 0xFF, 0xFF, 0x00, 0x00, 0x00, 0x00, 0x00,
  0xF9, 0xFE, 0xFF, 0xFF, 0xFF, 0xFF, 0xFF, 0xFF, 0xFF, 0xFF, 0xFF, 0x00, 0x00, 0x00, 0x00, 0x00,
  0xFF, 0xFF, 0xFF, 0xFF, 0xFF, 0xFF, 0xFF, 0xFF, 0xFF, 0xFF, 0xFF, 0x00, 0x00, 0x00, 0x00, 0x00,
  0x00, 0x00, 0x00, 0x00, 0x00, 0x00, 0x00, 0x00, 0x00, 0x00, 0x00, 0x00, 0x00, 0x00, 0x00, 0x00,
  0xFF, 0xFD, 0xFF, 0xFF, 0xFF, 0xFF, 0xFF, 0xFF, 0xFF, 0xFF, 0xFF, 0x00, 0x00, 0x00, 0x00, 0x00,
  0xF7, 0xFE, 0xFF, 0xFF, 0xFF, 0xFF, 0xFF, 0xFF, 0xFF, 0xFF, 0xFF, 0x00, 0x00, 0x00, 0x00, 0x00,
  0xFF, 0xFF, 0xFF, 0xFF, 0xFF, 0xFF, 0xFF, 0xFF, 0xFF, 0xFF, 0xFF, 0x00, 0x00, 0x00, 0x00, 0x00,
  0x00, 0x00, 0x00, 0x00, 0x00, 0x00, 0x00, 0x00, 0x00, 0x00, 0x00, 0x00, 0x00, 0x00, 0x00, 0x00,
  0xFF, 0xFD, 0xFE, 0xFF, 0xFF, 0xFF, 0xFF, 0xFF, 0xFF, 0xFF, 0xFF, 0x00, 0x00, 0x00, 0x00, 0x00,
  0xFC, 0xFF, 0xFF, 0xFF, 0xFF, 0xFF, 0xFF, 0xFF, 0xFF, 0xFF, 0xFF, 0x00, 0x00, 0x00, 0x00, 0x00,
  0xFF, 0xFF, 0xFF, 0xFF, 0xFF, 0xFF, 0xFF, 0xFF, 0xFF, 0xFF, 0xFF, 0x00, 0x00, 0x00, 0x00, 0x00,
  0x00, 0x00, 0x00, 0x00, 0x00, 0x00, 0x00, 0x00, 0x00, 0x00, 0x00, 0x00, 0x00, 0x00, 0x00, 0x00,
  0xFF, 0xFE, 0xFE, 0xFF, 0xFF, 0xFF, 0xFF, 0xFF, 0xFF, 0xFF, 0xFF, 0x00, 0x00, 0x00, 0x00, 0x00,
  0xFD, 0xFF, 0xFF, 0xFF, 0xFF, 0xFF, 0xFF, 0xFF, 0xFF, 0xFF, 0xFF, 0x00, 0x00, 0x00, 0x00, 0x00,
  0xFF, 0xFF, 0xFF, 0xFF, 0xFF, 0xFF, 0xFF, 0xFF, 0xFF, 0xFF, 0xFF, 0x00, 0x00, 0x00, 0x00, 0x00,
  0x00, 0x00, 0x00, 0x00, 0x00, 0x00, 0x00, 0x00, 0x00, 0x00, 0x00, 0x00, 0x00, 0x00, 0x00, 0x00,
  0xFF, 0xFE, 0xFD, 0xFF, 0xFF, 0xFF, 0xFF, 0xFF, 0xFF, 0xFF, 0xFF, 0x00, 0x00, 0x00, 0x00, 0x00,
  0xFA, 0xFF, 0xFF, 0xFF, 0xFF, 0xFF, 0xFF, 0xFF, 0xFF, 0xFF, 0xFF, 0x00, 0x00, 0x00, 0x00, 0x00,
  0xFE, 0xFF, 0xFF, 0xFF, 0xFF, 0xFF, 0xFF, 0xFF, 0xFF, 0xFF, 0xFF, 0x00, 0x00, 0x00, 0x00, 0x00,
  0x00, 0x00, 0x00, 0x00, 0x00, 0x00, 0x00, 0x00, 0x00, 0x00, 0x00, 0x00, 0x00, 0x00, 0x00, 0x00,
  0xFF, 0xFF, 0xFF, 0xFF, 0xFF, 0xFF, 0xFF, 0xFF, 0xFF, 0xFF, 0xFF, 0x00, 0x00, 0x00, 0x00, 0x00,
  0xFF, 0xFF, 0xFF, 0xFF, 0xFF, 0xFF, 0xFF, 0xFF, 0xFF, 0xFF, 0xFF, 0x00, 0x00, 0x00, 0x00, 0x00,
  0xFF, 0xFF, 0xFF, 0xFF, 0xFF, 0xFF, 0xFF, 0xFF, 0xFF, 0xFF, 0xFF, 0x00, 0x00, 0x00, 0x00, 0x00,
  0x00, 0x00, 0x00, 0x00, 0x00, 0x00, 0x00, 0x00, 0x00, 0x00, 0x00, 0x00, 0x00, 0x00, 0x00, 0x00]

/-- Section `k_coeff_entropy_update_probs`, `block 2` of `prob_table_init` (512 bytes). -/
def pti_coeff_block2 : List Nat := [
  0xBA, 0xFB, 0xFA, 0xFF, 0xFF, 0xFF, 0xFF, 0xFF, 0xFF, 0xFF, 0xFF, 0x00, 0x00, 0x00, 0x00, 0x00,
  0xEA, 0xFB, 0xF4, 0xFE, 0xFF, 0xFF, 0xFF, 0xFF, 0xFF, 0xFF, 0xFF, 0x00, 0x00, 0x00, 0x00, 0x00,
  0xFB, 0xFB, 0xF3, 0xFD, 0xFE, 0xFF, 0xFE, 0xFF, 0xFF, 0xFF, 0xFF, 0x00, 0x00, 0x00, 0x00, 0x00,
  0x00, 0x00, 0x00, 0x00, 0x00, 0x00, 0x00, 0x00, 0x00, 0x00, 0x00, 0x00, 0x00, 0x00, 0x00, 0x00,
  0xFF, 0xFD, 0xFE, 0xFF, 0xFF, 0xFF, 0xFF, 0xFF, 0xFF, 0xFF, 0xFF, 0x00, 0x00, 0x00, 0x00, 0x00,
  0xEC, 0xFD, 0xFE, 0xFF, 0xFF, 0xFF, 0xFF, 0xFF, 0xFF, 0xFF, 0xFF, 0x00, 0x00, 0x00, 0x00, 0x00,
  0xFB, 0xFD, 0xFD, 0xFE, 0xFE, 0xFF, 0xFF, 0xFF, 0xFF, 0xFF, 0xFF, 0x00, 0x00, 0x00, 0x00, 0x00,
  0x00, 0x00, 0x00, 0x00, 0x00, 0x00, 0x00, 0x00, 0x00, 0x00, 0x00, 0x00, 0x00, 0x00, 0x00, 0x00,
  0xFF, 0xFE, 0xFE, 0xFF, 0xFF, 0xFF, 0xFF, 0xFF, 0xFF, 0xFF, 0xFF, 0x00, 0x00, 0x00, 0x00, 0x00,
  0xFE, 0xFE, 0xFE, 0xFF, 0xFF, 0xFF, 0xFF, 0xFF, 0xFF, 0xFF, 0xFF, 0x00, 0x00, 0x00, 0x00, 0x00,
  0xFF, 0xFF, 0xFF, 0xFF, 0xFF, 0xFF, 0xFF, 0xFF, 0xFF, 0xFF, 0xFF, 0x00, 0x00, 0x00, 0x00, 0x00,
  0x00, 0x00, 0x00, 0x00, 0x00, 0x00, 0x00, 0x00, 0x00, 0x00, 0x00, 0x00, 0x00, 0x00, 0x00, 0x00,
  0xFF, 0xFE, 0xFF, 0xFF, 0xFF, 0xFF, 0xFF, 0xFF, 0xFF, 0xFF, 0xFF, 0x00, 0x00, 0x00, 0x00, 0x00,
  0xFE, 0xFE, 0xFF, 0xFF, 0xFF, 0xFF, 0xFF, 0xFF, 0xFF, 0xFF, 0xFF, 0x00, 0x00, 0x00, 0x00, 0x00,
  0xFE, 0xFF, 0xFF, 0xFF, 0xFF, 0xFF, 0xFF, 0xFF, 0xFF, 0xFF, 0xFF, 0x00, 0x00, 0x00, 0x00, 0x00,
  0x00, 0x00, 0x00, 0x00, 0x00, 0x00, 0x00, 0x00, 0x00, 0x00, 0x00, 0x00, 0x00, 0x00, 0x00, 0x00,
  0xFF, 0xFF, 0xFF, 0xFF, 0xFF, 0xFF, 0xFF, 0xFF, 0xFF, 0xFF, 0xFF, 0x00, 0x00, 0x00, 0x00, 0x00,
  0xFE, 0xFF, 0xFF, 0xFF, 0xFF, 0xFF, 0xFF, 0xFF, 0xFF, 0xFF, 0xFF, 0x00, 0x00, 0x00, 0x00, 0x00,
  0xFF, 0xFF, 0xFF, 0xFF, 0xFF, 0xFF, 0xFF, 0xFF, 0xFF, 0xFF, 0xFF, 0x00, 0x00, 0x00, 0x00, 0x00,
  0x00, 0x00, 0x00, 0x00, 0x00, 0x00, 0x00, 0x00, 0x00, 0x00, 0x00, 0x00, 0x00, 0x00, 0x00, 0x00,
  0xFF, 0xFF, 0xFF, 0xFF, 0xFF, 0xFF, 0xFF, 0xFF, 0xFF, 0xFF, 0xFF, 0x00, 0x00, 0x00, 0x00, 0x00,
  0xFF, 0xFF, 0xFF, 0xFF, 0xFF, 0xFF, 0xFF, 0xFF, 0xFF, 0xFF, 0xFF, 0x00, 0x00, 0x00, 0x00, 0x00,
  0xFF, 0xFF, 0xFF, 0xFF, 0xFF, 0xFF, 0xFF, 0xFF, 0xFF, 0xFF, 0xFF, 0x00, 0x00, 0x00, 0x00, 0x00,
  0x00, 0x00, 0x00, 0x00, 0x00, 0x00, 0x00, 0x00, 0x00, 0x00, 0x00, 0x00, 0x00, 0x00, 0x00, 0x00,
  0xFF, 0xFF, 0xFF, 0xFF, 0xFF, 0xFF, 0xFF, 0xFF, 0xFF, 0xFF, 0xFF, 0x00, 0x00, 0x00, 0x00, 0x00,
  0xFF, 0xFF, 0xFF, 0xFF, 0xFF, 0xFF, 0xFF, 0xFF, 0xFF, 0xFF, 0xFF, 0x00, 0x00, 0x00, 0x00, 0x00,
  0xFF, 0xFF, 0xFF, 0xFF, 0xFF, 0xFF, 0xFF, 0xFF, 0xFF, 0xFF, 0xFF, 0x00, 0x00, 0x00, 0x00, 0x00,
  0x00, 0x00, 0x00, 0x00, 0x00, 0x00, 0x00, 0x00, 0x00, 0x00, 0x00, 0x00, 0x00, 0x00, 0x00, 0x00,
  0xFF, 0xFF, 0xFF, 0xFF, 0xFF, 0xFF, 0xFF, 0xFF, 0xFF, 0xFF, 0xFF, 0x00, 0x00, 0x00, 0x00, 0x00,
  0xFF, 0xFF, 0xFF, 0xFF, 0xFF, 0xFF, 0xFF, 0xFF, 0xFF, 0xFF, 0xFF, 0x00, 0x00, 0x00, 0x00, 0x00,
  0xFF, 0xFF, 0xFF, 0xFF, 0xFF, 0xFF, 0xFF, 0xFF, 0xFF, 0xFF, 0xFF, 0x00, 0x00, 0x00, 0x00, 0x00,
  0x00, 0x00, 0x00, 0x00, 0x00, 0x00, 0x00, 0x00, 0x00, 0x00, 0x00, 0x00, 0x00, 0x00, 0x00, 0x00]

/-- Section `k_coeff_entropy_update_probs`, `block 3` of `prob_table_init` (512 bytes). -/
def pti_coeff_block3 : List Nat := [
  0xF8, 0xFF, 0xFF, 0xFF, 0xFF, 0xFF, 0xFF, 0xFF, 0xFF, 0xFF, 0xFF, 0x00, 0x00, 0x00, 0x00, 0x00,
  0xFA, 0xFE, 0xFC, 0xFE, 0xFF, 0xFF, 0xFF, 0xFF, 0xFF, 0xFF, 0xFF, 0x00, 0x00, 0x00, 0x00, 0x00,
  0xF8, 0xFE, 0xF9, 0xFD, 0xFF, 0xFF, 0xFF, 0xFF, 0xFF, 0xFF, 0xFF, 0x00, 0x00, 0x00, 0x00, 0x00,
  0x00, 0x00, 0x00, 0x00, 0x00, 0x00, 0x00, 0x00, 0x00, 0x00, 0x00, 0x00, 0x00, 0x00, 0x00, 0x00,
  0xFF, 0xFD, 0xFD, 0xFF, 0xFF, 0xFF, 0xFF, 0xFF, 0xFF, 0xFF, 0xFF, 0x00, 0x00, 0x00, 0x00, 0x00,
  0xF6, 0xFD, 0xFD, 0xFF, 0xFF, 0xFF, 0xFF, 0xFF, 0xFF, 0xFF, 0xFF, 0x00, 0x00, 0x00, 0x00, 0x00,
  0xFC, 0xFE, 0xFB, 0xFE, 0xFE, 0xFF, 0xFF, 0xFF, 0xFF, 0xFF, 0xFF, 0x00, 0x00, 0x00, 0x00, 0x00,
  0x00, 0x00, 0x00, 0x00, 0x00, 0x00, 0x00, 0x00, 0x00, 0x00, 0x00, 0x00, 0x00, 0x00, 0x00, 0x00,
  0xFF, 0xFE, 0xFC, 0xFF, 0xFF, 0xFF, 0xFF, 0xFF, 0xFF, 0xFF, 0xFF, 0x00, 0x00, 0x00, 0x00, 0x00,
  0xF8, 0xFE, 0xFD, 0xFF, 0xFF, 0xFF, 0xFF, 0xFF, 0xFF, 0xFF, 0xFF, 0x00, 0x00, 0x00, 0x00, 0x00,
  0xFD, 0xFF, 0xFE, 0xFE, 0xFF, 0xFF, 0xFF, 0xFF, 0xFF, 0xFF, 0xFF, 0x00, 0x00, 0x00, 0x00, 0x00,
  0x00, 0x00, 0x00, 0x00, 0x00, 0x00, 0x00, 0x00, 0x00, 0x00, 0x00, 0x00, 0x00, 0x00, 0x00, 0x00,
  0xFF, 0xFB, 0xFE, 0xFF, 0xFF, 0xFF, 0xFF, 0xFF, 0xFF, 0xFF, 0xFF, 0x00, 0x00, 0x00, 0x00, 0x00,
  0xF5, 0xFB, 0xFE, 0xFF, 0xFF, 0xFF, 0xFF, 0xFF, 0xFF, 0xFF, 0xFF, 0x00, 0x00, 0x00, 0x00, 0x00,
  0xFD, 0xFD, 0xFE, 0xFF, 0xFF, 0xFF, 0xFF, 0xFF, 0xFF, 0xFF, 0xFF, 0x00, 0x00, 0x00, 0x00, 0x00,
  0x00, 0x00, 0x00, 0x00, 0x00, 0x00, 0x00, 0x00, 0x00, 0x00, 0x00, 0x00, 0x00, 0x00, 0x00, 0x00,
  0xFF, 0xFB, 0xFD, 0xFF, 0xFF, 0xFF, 0xFF, 0xFF, 0xFF, 0xFF, 0xFF, 0x00, 0x00, 0x00, 0x00, 0x00,
  0xFC, 0xFD, 0xFE, 0xFF, 0xFF, 0xFF, 0xFF, 0xFF, 0xFF, 0xFF, 0xFF, 0x00, 0x00, 0x00, 0x00, 0x00,
  0xFF, 0xFE, 0xFF, 0xFF, 0xFF, 0xFF, 0xFF, 0xFF, 0xFF, 0xFF, 0xFF, 0x00, 0x00, 0x00, 0x00, 0x00,
  0x00, 0x00, 0x00, 0x00, 0x00, 0x00, 0x00, 0x00, 0x00, 0x00, 0x00, 0x00, 0x00, 0x00, 0x00, 0x00,
  0xFF, 0xFC, 0xFF, 0xFF, 0xFF, 0xFF, 0xFF, 0xFF, 0xFF, 0xFF, 0xFF, 0x00, 0x00, 0x00, 0x00, 0x00,
  0xF9, 0xFF, 0xFE, 0xFF, 0xFF, 0xFF, 0xFF, 0xFF, 0xFF, 0xFF, 0xFF, 0x00, 0x00, 0x00, 0x00, 0x00,
  0xFF, 0xFF, 0xFE, 0xFF, 0xFF, 0xFF, 0xFF, 0xFF, 0xFF, 0xFF, 0xFF, 0x00, 0x00, 0x00, 0x00, 0x00,
  0x00, 0x00, 0x00, 0x00, 0x00, 0x00, 0x00, 0x00, 0x00, 0x00, 0x00, 0x00, 0x00, 0x00, 0x00, 0x00,
  0xFF, 0xFF, 0xFD, 0xFF, 0xFF, 0xFF, 0xFF, 0xFF, 0xFF, 0xFF, 0xFF, 0x00, 0x00, 0x00, 0x00, 0x00,
  0xFA, 0xFF, 0xFF, 0xFF, 0xFF, 0xFF, 0xFF, 0xFF, 0xFF, 0xFF, 0xFF, 0x00, 0x00, 0x00, 0x00, 0x00,
  0xFF, 0xFF, 0xFF, 0xFF, 0xFF, 0xFF, 0xFF, 0xFF, 0xFF, 0xFF, 0xFF, 0x00, 0x00, 0x00, 0x00, 0x00,
  0x00, 0x00, 0x00, 0x00, 0x00, 0x00, 0x00, 0x00, 0x00, 0x00, 0x00, 0x00, 0x00, 0x00, 0x00, 0x00,
  0xFF, 0xFF, 0xFF, 0xFF, 0xFF, 0xFF, 0xFF, 0xFF, 0xFF, 0xFF, 0xFF, 0x00, 0x00, 0x00, 0x00, 0x00,
  0xFE, 0xFF, 0xFF, 0xFF, 0xFF, 0xFF, 0xFF, 0xFF, 0xFF, 0xFF, 0xFF, 0x00, 0x00, 0x00, 0x00, 0x00,
  0xFF, 0xFF, 0xFF, 0xFF, 0xFF, 0xFF, 0xFF, 0xFF, 0xFF, 0xFF, 0xFF, 0x00, 0x00, 0x00, 0x00, 0x00,
  0x00, 0x00, 0x00, 0x00, 0x00, 0x00, 0x00, 0x00, 0x00, 0x00, 0x00, 0x00, 0x00, 0x00, 0x00, 0x00]

/-- Section `kf_y_mode_probs` of `prob_table_init` (96 bytes). -/
def pti_kf_y_mode_probs : List Nat := [
  0x91, 0x9C, 0xA3, 0x80, 0x00, 0x00, 0x00, 0x00, 0x00, 0x00, 0x00, 0x00, 0x00, 0x00, 0x00, 0x00,
  0x00, 0x00, 0x00, 0x00, 0x00, 0x00, 0x00, 0x00, 0x00, 0x00, 0x00, 0x00, 0x00, 0x00, 0x00, 0x00,
  0x00, 0x00, 0x00, 0x00, 0x00, 0x00, 0x00, 0x00, 0x00, 0x00, 0x00, 0x00, 0x00, 0x00, 0x00, 0x00,
  0x00, 0x00, 0x00, 0x00, 0x00, 0x00, 0x00, 0x00, 0x00, 0x00, 0x00, 0x00, 0x00, 0x00, 0x00, 0x00,
  0x00, 0x00, 0x00, 0x00, 0x00, 0x00, 0x00, 0x00, 0x00, 0x00, 0x00, 0x00, 0x00, 0x00, 0x00, 0x00,
  0x00, 0x00, 0x00, 0x00, 0x00, 0x00, 0x00, 0x00, 0x00, 0x00, 0x00, 0x00, 0x00, 0x00, 0x00, 0x00]

/-- Section `split_mv_probs` of `prob_table_init` (8 bytes). -/
def pti_split_mv_probs : List Nat := [
  0x6E, 0x6F, 0x96, 0x00, 0x00, 0x00, 0x00, 0x00]

/-- Section `bmode_prob` of `prob_table_init` (32 bytes). -/
def pti_bmode_prob : List Nat := [
  0x78, 0x5A, 0x4F, 0x85, 0x57, 0x55, 0x50, 0x6F, 0x97, 0x00, 0x00, 0x00, 0x00, 0x00, 0x00, 0x00,
  0x00, 0x00, 0x00, 0x00, 0x00, 0x00, 0x00, 0x00, 0x00, 0x00, 0x00, 0x00, 0x00, 0x00, 0x00, 0x00]

/-- Section `sub_mv_ref_prob` of `prob_table_init` (32 bytes). -/
def pti_sub_mv_ref_prob : List Nat := [
  0x93, 0x88, 0x12, 0x00, 0x6A, 0x91, 0x01, 0x00, 0xB3, 0x79, 0x01, 0x00, 0xDF, 0x01, 0x22, 0x00,
  0xD0, 0x01, 0x01, 0x00, 0x00, 0x00, 0x00, 0x00, 0x00, 0x00, 0x00, 0x00, 0x00, 0x00, 0x00, 0x00]

/-- Section `mv_counts_to_probs` of `prob_table_init` (88 bytes). -/
def pti_mv_counts_to_probs : List Nat := [
  0x07, 0x01, 0x01, 0x8F, 0x0E, 0x12, 0x0E, 0x6B, 0x87, 0x40, 0x39, 0x44, 0x3C, 0x38, 0x80, 0x41,
  0x9F, 0x86, 0x80, 0x22, 0xEA, 0xBC, 0x80, 0x1C, 0x00, 0x00, 0x00, 0x00, 0x00, 0x00, 0x00, 0x00,
  0x00, 0x00, 0x00, 0x00, 0x00, 0x00, 0x00, 0x00, 0x00, 0x00, 0x00, 0x00, 0x00, 0x00, 0x00, 0x00,
  0x00, 0x00, 0x00, 0x00, 0x00, 0x00, 0x00, 0x00, 0x00, 0x00, 0x00, 0x00, 0x00, 0x00, 0x00, 0x00,
  0x00, 0x00, 0x00, 0x00, 0x00, 0x00, 0x00, 0x00, 0x00, 0x00, 0x00, 0x00, 0x00, 0x00, 0x00, 0x00,
  0x00, 0x00, 0x00, 0x00, 0x00, 0x00, 0x00, 0x00]

/-- Section `kf_y_mode_tree` of `prob_table_init` (8 bytes). -/
def pti_kf_y_mode_tree : List Nat := [
  0x84, 0x02, 0x04, 0x06, 0x80, 0x81, 0x82, 0x83]

/-- Section `y_mode_tree` of `prob_table_init` (8 bytes). -/
def pti_y_mode_tree : List Nat := [
  0x80, 0x02, 0x04, 0x06, 0x81, 0x82, 0x83, 0x84]

/-- Section `uv_mode_tree` of `prob_table_init` (18 bytes). -/
def pti_uv_mode_tree : List Nat := [
  0x80, 0x02, 0x81, 0x04, 0x82, 0x83, 0x00, 0x00, 0x00, 0x00, 0x00, 0x00, 0x00, 0x00, 0x00, 0x00,
  0x00, 0x00]

/-- Section `small_mv_tree` of `prob_table_init` (32 bytes). -/
def pti_small_mv_tree : List Nat := [
  0x02, 0x08, 0x04, 0x06, 0x80, 0x81, 0x82, 0x83, 0x0A, 0x0C, 0x84, 0x85, 0x86, 0x87, 0x00, 0x00,
  0x00, 0x00, 0x00, 0x00, 0x00, 0x00, 0x00, 0x00, 0x00, 0x00, 0x00, 0x00, 0x00, 0x00, 0x00, 0x00]

/-- Section `small_mv_tree again` of `prob_table_init` (30 bytes). -/
def pti_small_mv_tree_again : List Nat := [
  0x02, 0x08, 0x04, 0x06, 0x80, 0x81, 0x82, 0x83, 0x0A, 0x0C, 0x84, 0x85, 0x86, 0x87, 0x00, 0x00,
  0x00, 0x00, 0x00, 0x00, 0x00, 0x00, 0x00, 0x00, 0x00, 0x00, 0x00, 0x00, 0x00, 0x00]

/-- Section `split_mv_tree` of `prob_table_init` (8 bytes). -/
def pti_split_mv_tree : List Nat := [
  0x83, 0x02, 0x82, 0x04, 0x80, 0x81, 0x00, 0x00]

/-- Section `b_mode_tree` of `prob_table_init` (32 bytes). -/
def pti_b_mode_tree : List Nat := [
  0x80, 0x02, 0x81, 0x04, 0x82, 0x06, 0x08, 0x0C, 0x83, 0x0A, 0x85, 0x86, 0x84, 0x0E, 0x87, 0x10,
  0x88, 0x89, 0x00, 0x00, 0x00, 0x00, 0x00, 0x00, 0x00, 0x00, 0x00, 0x00, 0x00, 0x00, 0x00, 0x00]

/-- Section `submv_ref_tree` of `prob_table_init` (32 bytes). -/
def pti_submv_ref_tree : List Nat := [
  0x8A, 0x02, 0x8B, 0x04, 0x8C, 0x8D, 0x00, 0x00, 0x00, 0x00, 0x00, 0x00, 0x00, 0x00, 0x00, 0x00,
  0x00, 0x00, 0x00, 0x00, 0x00, 0x00, 0x00, 0x00, 0x00, 0x00, 0x00, 0x00, 0x00, 0x00, 0x00, 0x00]

/-- Section `mv_ref_tree` of `prob_table_init` (8 bytes). -/
def pti_mv_ref_tree : List Nat := [
  0x87, 0x02, 0x85, 0x04, 0x86, 0x06, 0x88, 0x89]

/-- The baseline table `prob_table_init`, byte for byte: the sections of the
source in their order. -/
def prob_table_init : List Nat :=
  pti_coeff_block0 ++
  pti_coeff_block1 ++
  pti_coeff_block2 ++
  pti_coeff_block3 ++
  pti_kf_y_mode_probs ++
  pti_split_mv_probs ++
  pti_bmode_prob ++
  pti_sub_mv_ref_prob ++
  pti_mv_counts_to_probs ++
  pti_kf_y_mode_tree ++
  pti_y_mode_tree ++
  pti_uv_mode_tree ++
  pti_small_mv_tree ++
  pti_small_mv_tree_again ++
  pti_split_mv_tree ++
  pti_b_mode_tree ++
  pti_submv_ref_tree ++
  pti_mv_ref_tree

/-- The table `k_mv_entropy_update_probs`. -/
def k_mv_entropy_update_probs : List (List Nat) :=
  [[237, 246, 253, 253, 254, 254, 254, 254, 254,
    254, 254, 254, 254, 254, 250, 250, 252, 254, 254],
   [231, 243, 245, 253, 254, 254, 254, 254, 254,
    254, 254, 254, 254, 254, 251, 251, 254, 254, 254]]

/-- Checked read `k_mv_entropy_update_probs[i][j]`; an index out of range
reads as 0. -/
def k_mv_entropy_update_probs_at (i j : Nat) : Nat :=
  (k_mv_entropy_update_probs.getD i []).getD j 0

/-! ## Device model -/

/-- Registers of the engine the decoder touches, by name. -/
inductive Reg where
  | VE_H264_CTRL
  | VE_H264_TRIGGER_TYPE
  | VE_H264_STATUS
  | VE_H264_BASIC_BITS
  | VE_H264_CUR_MB_NUM
  | VE_H264_MB_ADDR
  | VE_H264_ERROR_CASE
  | VE_H264_VLD_LEN
  | VE_H264_VLD_OFFSET
  | VE_H264_VLD_END
  | VE_H264_VLD_ADDR
  | VE_VP8_PPS
  | VE_VP8_QP_INDEX_DELTA
  | VE_VP8_PART_SIZE_OFFSET
  | VE_VP8_ENTROPY_PROBS_ADDR
  | VE_VP8_FIRST_DATA_PART_LEN
  | VE_VP8_FSIZE
  | VE_VP8_PICSIZE
  | VE_VP8_SEGMENT_FEAT_MB_LV0
  | VE_VP8_SEGMENT_FEAT_MB_LV1
  | VE_VP8_REF_LF_DELTA
  | VE_VP8_MODE_LF_DELTA
  | VE_VP8_REC_LUMA
  | VE_VP8_REC_CHROMA
  | VE_VP8_FWD_LUMA
  | VE_VP8_FWD_CHROMA
  | VE_VP8_BWD_LUMA
  | VE_VP8_BWD_CHROMA
  | VE_VP8_ALT_LUMA
  | VE_VP8_ALT_CHROMA
deriving DecidableEq, Repr

/-- One step of the bus trace. -/
inductive Ev where
  | write (reg : Reg) (val : Nat)
  | read (reg : Reg) (val : Nat)
  | wait (reg : Reg) (flag : Nat) (expired : Bool)
  | engine_enable
  | engine_disable
deriving DecidableEq, Repr

/-- Answers of the engine: the value returned by the n-th register read and
whether the n-th bounded wait expires with its flag still set. -/
structure Engine where
  rd : Nat → Reg → Nat
  expired : Nat → Bool

/-- Device state as seen by the driver: the value last written to each
register, the bus trace (oldest first), the numbers of reads and waits
performed so far, and the arguments (bit count, probability) of every
`read_bits` call so far. -/
structure cedrus_dev where
  regs : Reg → Nat
  log : List Ev
  nread : Nat
  nwait : Nat
  calls : List (Nat × Nat)

/-- Register write `cedrus_write(dev, reg, val)`; `val` is a `u32`. -/
def cedrus_write (dev : cedrus_dev) (reg : Reg) (val : Nat) : cedrus_dev :=
  { dev with
    regs := fun r => if r = reg then u32 val else dev.regs r
    log := dev.log ++ [Ev.write reg (u32 val)] }

/-- Register read `cedrus_read(dev, reg)`; the engine decides the value. -/
def cedrus_read (hw : Engine) (dev : cedrus_dev) (reg : Reg) : Nat × cedrus_dev :=
  let v := u32 (hw.rd dev.nread reg)
  (v, { dev with log := dev.log ++ [Ev.read reg v], nread := dev.nread + 1 })

/-- Bounded poll `cedrus_wait_for(dev, reg, flag)` of `cedrus_hw.h`: polls
until the flag clears or the deadline passes.  Its result (`true` when the
wait expired) is returned to the caller. -/
def cedrus_wait_for (hw : Engine) (dev : cedrus_dev) (reg : Reg) (flag : Nat) :
    Bool × cedrus_dev :=
  let e := hw.expired dev.nwait
  (e, { dev with log := dev.log ++ [Ev.wait reg flag e], nwait := dev.nwait + 1 })

/-- Engine selection `cedrus_engine_enable(ctx, CEDRUS_CODEC_VP8)`, an
external collaborator; it touches none of the registers above. -/
def cedrus_engine_enable (dev : cedrus_dev) : cedrus_dev :=
  { dev with log := dev.log ++ [Ev.engine_enable] }

/-- Engine release `cedrus_engine_disable(dev)`, an external collaborator. -/
def cedrus_engine_disable (dev : cedrus_dev) : cedrus_dev :=
  { dev with log := dev.log ++ [Ev.engine_disable] }

/-- Codec state of a session (`ctx->codec.vp8`): the three hints, the
probability table (`none` for a null pointer) and its DMA address. -/
structure cedrus_vp8_ctx where
  last_frame_p_type : Nat
  last_filter_type : Nat
  last_sharpness_level : Nat
  entropy_probs_buf : Option (List Nat)
  entropy_probs_buf_dma : Nat

/-- Result of interrupt classification (`enum cedrus_irq_status`). -/
inductive cedrus_irq_status where
  | CEDRUS_IRQ_NONE
  | CEDRUS_IRQ_ERROR
  | CEDRUS_IRQ_OK
deriving DecidableEq, Repr

/-- One decode request (`struct cedrus_run`): frame parameters, the source
buffer (plane size, payload, DMA address) and the destination buffer index. -/
structure cedrus_run where
  frame_params : v4l2_ctrl_vp8_frame
  src_plane_size : Nat
  src_plane_payload : Nat
  src_dma_addr : Nat
  dst_index : Nat

/-- External buffer services: `vb2_find_timestamp(cap_q, ts, 0)` (a buffer
index, or a negative value when no buffer carries the timestamp) and
`cedrus_dst_buf_addr(ctx, index, plane)`. -/
structure cedrus_bufs where
  vb2_find_timestamp : Nat → Int
  cedrus_dst_buf_addr : Int → Nat → Nat

/-! ## Probability table -/

/-- Index-checked `memcpy(&dst[off], src, n)`. -/
def memcpy (dst : List Nat) (off : Nat) (src : List Nat) (n : Nat) : Option (List Nat) :=
  if off + n ≤ dst.length ∧ n ≤ src.length then
    some (dst.take off ++ (src.take n ++ dst.drop (off + n)))
  else none

/-- Index-checked store `dst[i] = v`. -/
def store (dst : List Nat) (i : Nat) (v : Nat) : Option (List Nat) :=
  if i < dst.length then some (dst.set i v) else none

/-- Index-checked row `coeff_probs[i][j][k]` (11 bytes). -/
def coeff_row (c : Fin 4 → Fin 8 → Fin 3 → Fin 11 → Nat) (i j k : Nat) :
    Option (List Nat) :=
  if h : i < 4 ∧ j < 8 ∧ k < 3 then
    some (List.ofFn (c ⟨i, h.1⟩ ⟨j, h.2.1⟩ ⟨k, h.2.2⟩))
  else none

/-- The function `cedrus_vp8_update_probs`. -/
def cedrus_vp8_update_probs (slice : v4l2_ctrl_vp8_frame) (prob_table : List Nat) :
    Option (List Nat) := do
  let t ← memcpy prob_table 0x1008 (List.ofFn slice.entropy.y_mode_probs) 4
  let t ← memcpy t 0x1010 (List.ofFn slice.entropy.uv_mode_probs) 3
  let t ← memcpy t 0x1018 (List.ofFn slice.segment.segment_probs) 3
  let t ← store t 0x101c slice.prob_skip_false
  let t ← store t 0x101d slice.prob_intra
  let t ← store t 0x101e slice.prob_last
  let t ← store t 0x101f slice.prob_gf
  let t ← memcpy t 0x1020 (List.ofFn (slice.entropy.mv_probs 0)) V4L2_VP8_MV_PROB_CNT
  let t ← memcpy t 0x1040 (List.ofFn (slice.entropy.mv_probs 1)) V4L2_VP8_MV_PROB_CNT
  forLoopM 4 (fun i t =>
    forLoopM 8 (fun j t =>
      forLoopM 3 (fun k t => do
        let row ← coeff_row slice.entropy.coeff_probs i j k
        memcpy t (i * 512 + j * 64 + k * 16) row 11) t) t) t

/-- The function `cedrus_vp8_start`.  The argument `alloc` is the outcome of
`dma_alloc_coherent`: `none` when the allocation fails, otherwise the DMA
address of a zero-filled buffer of `CEDRUS_ENTROPY_PROBS_SIZE` bytes.  A table
write out of range makes the whole result `none`. -/
def cedrus_vp8_start (ctx : cedrus_vp8_ctx) (alloc : Option Nat) :
    Option (Int × cedrus_vp8_ctx) :=
  match alloc with
  | none => some (-ENOMEM, { ctx with entropy_probs_buf := none })
  | some dma =>
    (memcpy (List.replicate CEDRUS_ENTROPY_PROBS_SIZE 0) 2048 prob_table_init
        prob_table_init.length).map
      (fun buf => (0, { ctx with entropy_probs_buf := some buf, entropy_probs_buf_dma := dma }))

/-- One call `dma_free_coherent(dev, size, cpu_addr, dma_handle)`, an
external collaborator: the size, the buffer and the DMA address handed over. -/
structure dma_free_call where
  size : Nat
  cpu_addr : Option (List Nat)
  dma_handle : Nat

/-- The function `cedrus_vp8_stop`: the engine is disabled and the table is
handed to `dma_free_coherent`.  No field of the session is assigned, so the
session is not part of the result. -/
def cedrus_vp8_stop (ctx : cedrus_vp8_ctx) (dev : cedrus_dev) : cedrus_dev × dma_free_call :=
  let dev := cedrus_engine_disable dev
  (dev,
    { size := CEDRUS_ENTROPY_PROBS_SIZE
      cpu_addr := ctx.entropy_probs_buf
      dma_handle := ctx.entropy_probs_buf_dma })

/-! ## Header replay -/

/-- The function `read_bits`: one read of `bits_count` bits at the given
probability through the engine's parser.  The outcome of the wait is dropped,
as in the source. -/
def read_bits (K : cedrus_hdr) (hw : Engine) (dev : cedrus_dev)
    (bits_count probability : Nat) : Nat × cedrus_dev :=
  let dev := cedrus_write dev Reg.VE_H264_TRIGGER_TYPE
    (K.VE_H264_TRIGGER_TYPE_VP8_GET_BITS |||
      K.VE_H264_TRIGGER_TYPE_BIN_LENS bits_count |||
      K.VE_H264_TRIGGER_TYPE_PROBABILITY probability)
  let dev := { dev with calls := dev.calls ++ [(bits_count, probability)] }
  let dev := (cedrus_wait_for hw dev Reg.VE_H264_STATUS K.VE_H264_STATUS_VLD_BUSY).2
  let r := cedrus_read hw dev Reg.VE_H264_BASIC_BITS
  (u8 r.1, r.2)

/-- The function `get_delta_q`. -/
def get_delta_q (K : cedrus_hdr) (hw : Engine) (dev : cedrus_dev) : cedrus_dev :=
  let r := read_bits K hw dev 1 VP8_PROB_HALF
  if r.1 ≠ 0 then
    let dev := (read_bits K hw r.2 4 VP8_PROB_HALF).2
    (read_bits K hw dev 1 VP8_PROB_HALF).2
  else r.2

/-- The function `process_segmentation_info`. -/
def process_segmentation_info (K : cedrus_hdr) (hw : Engine) (dev : cedrus_dev) :
    cedrus_dev :=
  let r := read_bits K hw dev 1 VP8_PROB_HALF
  let update := r.1
  let r := read_bits K hw r.2 1 VP8_PROB_HALF
  let dev :=
    if r.1 ≠ 0 then
      let dev := (read_bits K hw r.2 1 VP8_PROB_HALF).2
      let dev := forLoop 4 (fun _ dev =>
        let r := read_bits K hw dev 1 VP8_PROB_HALF
        if r.1 ≠ 0 then
          let dev := (read_bits K hw r.2 7 VP8_PROB_HALF).2
          (read_bits K hw dev 1 VP8_PROB_HALF).2
        else r.2) dev
      forLoop 4 (fun _ dev =>
        let r := read_bits K hw dev 1 VP8_PROB_HALF
        if r.1 ≠ 0 then
          let dev := (read_bits K hw r.2 6 VP8_PROB_HALF).2
          (read_bits K hw dev 1 VP8_PROB_HALF).2
        else r.2) dev
    else r.2
  if update ≠ 0 then
    forLoop 3 (fun _ dev =>
      let r := read_bits K hw dev 1 VP8_PROB_HALF
      if r.1 ≠ 0 then (read_bits K hw r.2 8 VP8_PROB_HALF).2 else r.2) dev
  else dev

/-- The function `process_ref_lf_delta_info`. -/
def process_ref_lf_delta_info (K : cedrus_hdr) (hw : Engine) (dev : cedrus_dev) :
    cedrus_dev :=
  let r := read_bits K hw dev 1 VP8_PROB_HALF
  if r.1 ≠ 0 then
    let dev := forLoop 4 (fun _ dev =>
      let r := read_bits K hw dev 1 VP8_PROB_HALF
      if r.1 ≠ 0 then
        let dev := (read_bits K hw r.2 6 VP8_PROB_HALF).2
        (read_bits K hw dev 1 VP8_PROB_HALF).2
      else r.2) r.2
    forLoop 4 (fun _ dev =>
      let r := read_bits K hw dev 1 VP8_PROB_HALF
      if r.1 ≠ 0 then
        let dev := (read_bits K hw r.2 6 VP8_PROB_HALF).2
        (read_bits K hw dev 1 VP8_PROB_HALF).2
      else r.2) dev
  else r.2

/-- The function `process_ref_frame_info`. -/
def process_ref_frame_info (K : cedrus_hdr) (hw : Engine) (dev : cedrus_dev) :
    cedrus_dev :=
  let r := read_bits K hw dev 1 VP8_PROB_HALF
  let refresh_golden_frame := r.1
  let r := read_bits K hw r.2 1 VP8_PROB_HALF
  let refresh_alt_ref_frame := r.1
  let dev := r.2
  let dev := if refresh_golden_frame = 0 then (read_bits K hw dev 2 VP8_PROB_HALF).2 else dev
  let dev := if refresh_alt_ref_frame = 0 then (read_bits K hw dev 2 VP8_PROB_HALF).2 else dev
  let dev := (read_bits K hw dev 1 VP8_PROB_HALF).2
  (read_bits K hw dev 1 VP8_PROB_HALF).2

/-- The function `cedrus_irq_clear`. -/
def cedrus_irq_clear (K : cedrus_hdr) (dev : cedrus_dev) : cedrus_dev :=
  cedrus_write dev Reg.VE_H264_STATUS K.VE_H264_STATUS_INT_MASK

/-- The function `cedrus_read_header`. -/
def cedrus_read_header (K : cedrus_hdr) (hw : Engine) (dev : cedrus_dev)
    (slice : v4l2_ctrl_vp8_frame) : cedrus_dev :=
  let key := V4L2_VP8_FRAME_IS_KEY_FRAME K slice
  let dev :=
    if key then
      let dev := (read_bits K hw dev 1 VP8_PROB_HALF).2
      (read_bits K hw dev 1 VP8_PROB_HALF).2
    else dev
  let r := read_bits K hw dev 1 VP8_PROB_HALF
  let dev := if r.1 ≠ 0 then process_segmentation_info K hw r.2 else r.2
  let dev := (read_bits K hw dev 1 VP8_PROB_HALF).2
  let dev := (read_bits K hw dev 6 VP8_PROB_HALF).2
  let dev := (read_bits K hw dev 3 VP8_PROB_HALF).2
  let r := read_bits K hw dev 1 VP8_PROB_HALF
  let dev := if r.1 ≠ 0 then process_ref_lf_delta_info K hw r.2 else r.2
  let dev := (read_bits K hw dev 2 VP8_PROB_HALF).2
  let dev := (read_bits K hw dev 7 VP8_PROB_HALF).2
  let dev := forLoop QUANT_DELTA_COUNT (fun _ dev => get_delta_q K hw dev) dev
  let dev := if !key then process_ref_frame_info K hw dev else dev
  let dev := (read_bits K hw dev 1 VP8_PROB_HALF).2
  let dev := if !key then (read_bits K hw dev 1 VP8_PROB_HALF).2 else dev
  let dev := cedrus_write dev Reg.VE_H264_TRIGGER_TYPE K.VE_H264_TRIGGER_TYPE_VP8_UPDATE_COEF
  let dev := (cedrus_wait_for hw dev Reg.VE_H264_STATUS K.VE_H264_STATUS_VP8_UPPROB_BUSY).2
  let dev := cedrus_irq_clear K dev
  let r := read_bits K hw dev 1 VP8_PROB_HALF
  let dev := if r.1 ≠ 0 then (read_bits K hw r.2 8 VP8_PROB_HALF).2 else r.2
  if !key then
    let dev := (read_bits K hw dev 8 VP8_PROB_HALF).2
    let dev := (read_bits K hw dev 8 VP8_PROB_HALF).2
    let dev := (read_bits K hw dev 8 VP8_PROB_HALF).2
    let r := read_bits K hw dev 1 VP8_PROB_HALF
    let dev :=
      if r.1 ≠ 0 then
        let dev := (read_bits K hw r.2 8 VP8_PROB_HALF).2
        let dev := (read_bits K hw dev 8 VP8_PROB_HALF).2
        let dev := (read_bits K hw dev 8 VP8_PROB_HALF).2
        (read_bits K hw dev 8 VP8_PROB_HALF).2
      else r.2
    let r := read_bits K hw dev 1 VP8_PROB_HALF
    let dev :=
      if r.1 ≠ 0 then
        let dev := (read_bits K hw r.2 8 VP8_PROB_HALF).2
        let dev := (read_bits K hw dev 8 VP8_PROB_HALF).2
        (read_bits K hw dev 8 VP8_PROB_HALF).2
      else r.2
    forLoop 2 (fun i dev =>
      forLoop V4L2_VP8_MV_PROB_CNT (fun j dev =>
        let r := read_bits K hw dev 1 (k_mv_entropy_update_probs_at i j)
        if r.1 ≠ 0 then (read_bits K hw r.2 7 VP8_PROB_HALF).2 else r.2) dev) dev
  else dev

/-! ## Interrupt entry points -/

/-- The function `cedrus_vp8_irq_status`. -/
def cedrus_vp8_irq_status (K : cedrus_hdr) (hw : Engine) (dev : cedrus_dev) :
    cedrus_irq_status × cedrus_dev :=
  let r := cedrus_read hw dev Reg.VE_H264_STATUS
  let reg := r.1
  if reg &&& (K.VE_H264_STATUS_DECODE_ERR_INT ||| K.VE_H264_STATUS_VLD_DATA_REQ_INT) ≠ 0 then
    (cedrus_irq_status.CEDRUS_IRQ_ERROR, r.2)
  else if reg &&& K.VE_H264_CTRL_SLICE_DECODE_INT ≠ 0 then
    (cedrus_irq_status.CEDRUS_IRQ_OK, r.2)
  else
    (cedrus_irq_status.CEDRUS_IRQ_NONE, r.2)

/-- The function `cedrus_vp8_irq_clear`. -/
def cedrus_vp8_irq_clear (K : cedrus_hdr) (dev : cedrus_dev) : cedrus_dev :=
  cedrus_irq_clear K dev

/-- Bitwise complement `~x` of a `u32`. -/
def not32 (x : Nat) : Nat := (2 ^ 32 - 1) ^^^ u32 x

/-- The function `cedrus_vp8_irq_disable`. -/
def cedrus_vp8_irq_disable (K : cedrus_hdr) (hw : Engine) (dev : cedrus_dev) : cedrus_dev :=
  let r := cedrus_read hw dev Reg.VE_H264_CTRL
  cedrus_write r.2 Reg.VE_H264_CTRL (r.1 &&& not32 K.VE_H264_CTRL_INT_MASK)

/-- The function `cedrus_vp8_trigger`. -/
def cedrus_vp8_trigger (K : cedrus_hdr) (dev : cedrus_dev) : cedrus_dev :=
  cedrus_write dev Reg.VE_H264_TRIGGER_TYPE K.VE_H264_TRIGGER_TYPE_VP8_SLICE_DECODE

/-! ## Frame setup -/

/-- A field macro of `cedrus_regs.h` applied to a value:
`SHIFT_AND_MASK_BITS(v, hi, lo)`. -/
def Field.put (f : Field) (v : Int) : Nat := SHIFT_AND_MASK_BITS v f.hi f.lo

/-- The C statement `if (c) reg |= x;` on a `u32` variable. -/
def or32_if (c : Prop) [Decidable c] (reg x : Nat) : Nat := if c then or32 reg x else reg

/-- The picture-parameter word of `cedrus_vp8_setup`: the value of `reg`
when `VE_VP8_PPS` is written. -/
def vp8_pps (K : cedrus_hdr) (ctx : cedrus_vp8_ctx) (slice : v4l2_ctrl_vp8_frame) : Nat :=
  let reg := 0
  let reg :=
    if slice.version = 1 then
      or32 (or32 reg K.VE_VP8_PPS_FILTER_TYPE_SIMPLE) K.VE_VP8_PPS_BILINEAR_MC_FILTER
    else if slice.version = 2 then
      or32 (or32 reg K.VE_VP8_PPS_LPF_DISABLE) K.VE_VP8_PPS_BILINEAR_MC_FILTER
    else if slice.version = 3 then
      or32 (or32 reg K.VE_VP8_PPS_LPF_DISABLE) K.VE_VP8_PPS_FULL_PIXEL
    else reg
  let reg := or32_if (slice.segment.flags &&& K.V4L2_VP8_SEGMENT_FLAG_UPDATE_MAP ≠ 0)
    reg K.VE_VP8_PPS_UPDATE_MB_SEGMENTATION_MAP
  let reg := or32_if (¬ (slice.segment.flags &&& K.V4L2_VP8_SEGMENT_FLAG_DELTA_VALUE_MODE ≠ 0))
    reg K.VE_VP8_PPS_MB_SEGMENT_ABS_DELTA
  let reg := or32_if (slice.segment.flags &&& K.V4L2_VP8_SEGMENT_FLAG_ENABLED ≠ 0)
    reg K.VE_VP8_PPS_SEGMENTATION_ENABLE
  let reg := or32_if (ctx.last_filter_type ≠ 0) reg K.VE_VP8_PPS_LAST_LOOP_FILTER_SIMPLE
  let reg := or32 reg (K.VE_VP8_PPS_SHARPNESS_LEVEL.put slice.lf.sharpness_level)
  let reg := or32_if (slice.lf.flags &&& K.V4L2_VP8_LF_FILTER_TYPE_SIMPLE ≠ 0)
    reg K.VE_VP8_PPS_LOOP_FILTER_SIMPLE
  let reg := or32 reg (K.VE_VP8_PPS_LOOP_FILTER_LEVEL.put slice.lf.level)
  let reg := or32_if (slice.lf.flags &&& K.V4L2_VP8_LF_ADJ_ENABLE ≠ 0)
    reg K.VE_VP8_PPS_MODE_REF_LF_DELTA_ENABLE
  let reg := or32_if (slice.lf.flags &&& K.V4L2_VP8_LF_DELTA_UPDATE ≠ 0)
    reg K.VE_VP8_PPS_MODE_REF_LF_DELTA_UPDATE
  let reg := or32 reg (K.VE_VP8_PPS_TOKEN_PARTITION.put (ilog2 slice.num_dct_parts))
  let reg := or32_if (slice.flags &&& K.V4L2_VP8_FRAME_FLAG_MB_NO_SKIP_COEFF ≠ 0)
    reg K.VE_VP8_PPS_MB_NO_COEFF_SKIP
  let reg := or32 reg K.VE_VP8_PPS_RELOAD_ENTROPY_PROBS
  let reg := or32_if (slice.flags &&& K.V4L2_VP8_FRAME_FLAG_SIGN_BIAS_GOLDEN ≠ 0)
    reg K.VE_VP8_PPS_GOLDEN_SIGN_BIAS
  let reg := or32_if (slice.flags &&& K.V4L2_VP8_FRAME_FLAG_SIGN_BIAS_ALT ≠ 0)
    reg K.VE_VP8_PPS_ALTREF_SIGN_BIAS
  let reg := or32_if (ctx.last_frame_p_type ≠ 0) reg K.VE_VP8_PPS_LAST_PIC_TYPE_P_FRAME
  let reg := or32 reg (K.VE_VP8_PPS_LAST_SHARPNESS_LEVEL.put ctx.last_sharpness_level)
  let reg := or32_if (¬ (slice.flags &&& K.V4L2_VP8_FRAME_FLAG_KEY_FRAME ≠ 0))
    reg K.VE_VP8_PPS_PIC_TYPE_P_FRAME
  reg

/-- The quantizer-delta word of `cedrus_vp8_setup`: the value of `reg` when
`VE_VP8_QP_INDEX_DELTA` is written. -/
def vp8_qp_index_delta (K : cedrus_hdr) (q : v4l2_vp8_quantization) : Nat :=
  let reg := 0
  let reg := or32 reg (K.VE_VP8_QP_INDEX_DELTA_UVAC.put q.uv_ac_delta)
  let reg := or32 reg (K.VE_VP8_QP_INDEX_DELTA_UVDC.put q.uv_dc_delta)
  let reg := or32 reg (K.VE_VP8_QP_INDEX_DELTA_Y2AC.put q.y2_ac_delta)
  let reg := or32 reg (K.VE_VP8_QP_INDEX_DELTA_Y2DC.put q.y2_dc_delta)
  let reg := or32 reg (K.VE_VP8_QP_INDEX_DELTA_Y1DC.put q.y_dc_delta)
  let reg := or32 reg (K.VE_VP8_QP_INDEX_DELTA_BASE_QINDEX.put q.y_ac_qi)
  reg

/-- Programming of one reference slot in `cedrus_vp8_setup`, the block the
source repeats for the last, golden and alt-ref frames: the addresses of the
buffer carrying timestamp `ts`, or zeroes when there is none. -/
def vp8_set_ref (bufs : cedrus_bufs) (dev : cedrus_dev) (ts : Nat) (luma chroma : Reg) :
    cedrus_dev :=
  let qindex := bufs.vb2_find_timestamp ts
  if qindex ≥ 0 then
    let luma_addr := bufs.cedrus_dst_buf_addr qindex 0
    let chroma_addr := bufs.cedrus_dst_buf_addr qindex 1
    let dev := cedrus_write dev luma luma_addr
    cedrus_write dev chroma chroma_addr
  else
    let dev := cedrus_write dev luma 0
    cedrus_write dev chroma 0

/-- The hint update at the end of `cedrus_vp8_setup` (the block guarded by
`if (slice->lf.level)`). -/
def vp8_save_hints (K : cedrus_hdr) (ctx : cedrus_vp8_ctx) (slice : v4l2_ctrl_vp8_frame) :
    cedrus_vp8_ctx :=
  if slice.lf.level ≠ 0 then
    { ctx with
      last_filter_type :=
        if slice.lf.flags &&& K.V4L2_VP8_LF_FILTER_TYPE_SIMPLE ≠ 0 then 1 else 0
      last_frame_p_type := if V4L2_VP8_FRAME_IS_KEY_FRAME K slice then 0 else 1
      last_sharpness_level := slice.lf.sharpness_level }
  else ctx

/-- The function `cedrus_vp8_setup`.  The result is `none` when the
probability table is missing or too short for the update (undefined
behaviour in C); otherwise the new session state and device state. -/
def cedrus_vp8_setup (K : cedrus_hdr) (bufs : cedrus_bufs) (hw : Engine)
    (ctx : cedrus_vp8_ctx) (run : cedrus_run) (dev : cedrus_dev) :
    Option (cedrus_vp8_ctx × cedrus_dev) :=
  let slice := run.frame_params
  let dev := cedrus_engine_enable dev
  let dev := cedrus_write dev Reg.VE_H264_CTRL K.VE_H264_CTRL_VP8
  match ctx.entropy_probs_buf.bind (cedrus_vp8_update_probs slice) with
  | none => none
  | some buf =>
    let ctx := { ctx with entropy_probs_buf := some buf }
    let reg := u32 (slice.first_part_size * 8)
    let dev := cedrus_write dev Reg.VE_VP8_FIRST_DATA_PART_LEN reg
    let header_size : Nat := if V4L2_VP8_FRAME_IS_KEY_FRAME K slice then 10 else 3
    let reg := u32 (slice.first_part_size + header_size)
    let dev := cedrus_write dev Reg.VE_VP8_PART_SIZE_OFFSET reg
    let reg := u32 (run.src_plane_size * 8)
    let dev := cedrus_write dev Reg.VE_H264_VLD_LEN reg
    let reg := u32 (header_size * 8)
    let dev := cedrus_write dev Reg.VE_H264_VLD_OFFSET reg
    let src_buf_addr := run.src_dma_addr
    let dev := cedrus_write dev Reg.VE_H264_VLD_END (src_buf_addr + run.src_plane_payload)
    let dev := cedrus_write dev Reg.VE_H264_VLD_ADDR
      (K.VE_H264_VLD_ADDR_VAL src_buf_addr ||| K.VE_H264_VLD_ADDR_FIRST |||
        K.VE_H264_VLD_ADDR_VALID ||| K.VE_H264_VLD_ADDR_LAST)
    let dev := cedrus_write dev Reg.VE_H264_TRIGGER_TYPE K.VE_H264_TRIGGER_TYPE_INIT_SWDEC
    let dev := cedrus_write dev Reg.VE_VP8_ENTROPY_PROBS_ADDR ctx.entropy_probs_buf_dma
    let dev := cedrus_write dev Reg.VE_VP8_PPS (vp8_pps K ctx slice)
    let dev := cedrus_read_header K hw dev slice
    let dev := cedrus_write dev Reg.VE_H264_CUR_MB_NUM 0
    let dev := cedrus_write dev Reg.VE_H264_MB_ADDR 0
    let dev := cedrus_write dev Reg.VE_H264_ERROR_CASE 0
    let dev := cedrus_write dev Reg.VE_VP8_QP_INDEX_DELTA (vp8_qp_index_delta K slice.quant)
    let reg := 0
    let reg := or32 reg (K.VE_VP8_FSIZE_WIDTH slice.width)
    let reg := or32 reg (K.VE_VP8_FSIZE_HEIGHT slice.height)
    let dev := cedrus_write dev Reg.VE_VP8_FSIZE reg
    let reg := 0
    let reg := or32 reg (K.VE_VP8_PICSIZE_WIDTH slice.width)
    let reg := or32 reg (K.VE_VP8_PICSIZE_HEIGHT slice.height)
    let dev := cedrus_write dev Reg.VE_VP8_PICSIZE reg
    let reg := 0
    let reg := or32 reg (K.VE_VP8_SEGMENT3 (slice.segment.quant_update 3))
    let reg := or32 reg (K.VE_VP8_SEGMENT2 (slice.segment.quant_update 2))
    let reg := or32 reg (K.VE_VP8_SEGMENT1 (slice.segment.quant_update 1))
    let reg := or32 reg (K.VE_VP8_SEGMENT0 (slice.segment.quant_update 0))
    let dev := cedrus_write dev Reg.VE_VP8_SEGMENT_FEAT_MB_LV0 reg
    let reg := 0
    let reg := or32 reg (K.VE_VP8_SEGMENT3 (slice.segment.lf_update 3))
    let reg := or32 reg (K.VE_VP8_SEGMENT2 (slice.segment.lf_update 2))
    let reg := or32 reg (K.VE_VP8_SEGMENT1 (slice.segment.lf_update 1))
    let reg := or32 reg (K.VE_VP8_SEGMENT0 (slice.segment.lf_update 0))
    let dev := cedrus_write dev Reg.VE_VP8_SEGMENT_FEAT_MB_LV1 reg
    let reg := 0
    let reg := or32 reg (K.VE_VP8_LF_DELTA3 (slice.lf.ref_frm_delta 3))
    let reg := or32 reg (K.VE_VP8_LF_DELTA2 (slice.lf.ref_frm_delta 2))
    let reg := or32 reg (K.VE_VP8_LF_DELTA1 (slice.lf.ref_frm_delta 1))
    let reg := or32 reg (K.VE_VP8_LF_DELTA0 (slice.lf.ref_frm_delta 0))
    let dev := cedrus_write dev Reg.VE_VP8_REF_LF_DELTA reg
    let reg := 0
    let reg := or32 reg (K.VE_VP8_LF_DELTA3 (slice.lf.mb_mode_delta 3))
    let reg := or32 reg (K.VE_VP8_LF_DELTA2 (slice.lf.mb_mode_delta 2))
    let reg := or32 reg (K.VE_VP8_LF_DELTA1 (slice.lf.mb_mode_delta 1))
    let reg := or32 reg (K.VE_VP8_LF_DELTA0 (slice.lf.mb_mode_delta 0))
    let dev := cedrus_write dev Reg.VE_VP8_MODE_LF_DELTA reg
    let luma_addr := bufs.cedrus_dst_buf_addr run.dst_index 0
    let chroma_addr := bufs.cedrus_dst_buf_addr run.dst_index 1
    let dev := cedrus_write dev Reg.VE_VP8_REC_LUMA luma_addr
    let dev := cedrus_write dev Reg.VE_VP8_REC_CHROMA chroma_addr
    let dev := vp8_set_ref bufs dev slice.last_frame_ts Reg.VE_VP8_FWD_LUMA Reg.VE_VP8_FWD_CHROMA
    let dev := vp8_set_ref bufs dev slice.golden_frame_ts Reg.VE_VP8_BWD_LUMA Reg.VE_VP8_BWD_CHROMA
    let dev := vp8_set_ref bufs dev slice.alt_frame_ts Reg.VE_VP8_ALT_LUMA Reg.VE_VP8_ALT_CHROMA
    let dev := cedrus_write dev Reg.VE_H264_CTRL
      (K.VE_H264_CTRL_VP8 ||| K.VE_H264_CTRL_DECODE_ERR_INT ||| K.VE_H264_CTRL_SLICE_DECODE_INT)
    some (vp8_save_hints K ctx slice, dev)

/-! ## Reading fields back -/

/-- Width in bits of a field. -/
def Field.width (f : Field) : Nat := f.hi + 1 - f.lo

/-- Mask of a field, `GENMASK(hi, lo)`. -/
def Field.mask (f : Field) : Nat := GENMASK f.hi f.lo

/-- A field that lies inside a 32-bit word. -/
def Field.valid (f : Field) : Prop := f.lo ≤ f.hi ∧ f.hi < 32

instance (f : Field) : Decidable f.valid := by
  unfold Field.valid; infer_instance

/-- Unsigned content of field `f` of the word `w`. -/
def Field.get (f : Field) (w : Nat) : Nat := (w >>> f.lo) % 2 ^ f.width

/-- Sign extension of an `n`-bit two's complement value. -/
def sign_extend (n : Nat) (x : Nat) : Int :=
  if x < 2 ^ (n - 1) then (x : Int) else (x : Int) - 2 ^ n

/-- Signed content of field `f` of the word `w`. -/
def Field.get_signed (f : Field) (w : Nat) : Int := sign_extend f.width (f.get w)

/-- A signed value representable in field `f`. -/
def Field.fits_signed (f : Field) (v : Int) : Prop :=
  -(2 ^ (f.width - 1) : Int) ≤ v ∧ v < (2 ^ (f.width - 1) : Int)

instance (f : Field) (v : Int) : Decidable (f.fits_signed v) := by
  unfold Field.fits_signed; infer_instance

/-- Masks that share no bit. -/
def disjoint_masks (a b : Nat) : Prop := a &&& b = 0 ∧ b &&& a = 0

instance (a b : Nat) : Decidable (disjoint_masks a b) := by
  unfold disjoint_masks; infer_instance

/-- The masks of every flag and field the driver puts in the
picture-parameter word. -/
def pps_masks (K : cedrus_hdr) : List Nat :=
  [K.VE_VP8_PPS_PIC_TYPE_P_FRAME,
   K.VE_VP8_PPS_LAST_SHARPNESS_LEVEL.mask,
   K.VE_VP8_PPS_LAST_PIC_TYPE_P_FRAME,
   K.VE_VP8_PPS_ALTREF_SIGN_BIAS,
   K.VE_VP8_PPS_GOLDEN_SIGN_BIAS,
   K.VE_VP8_PPS_RELOAD_ENTROPY_PROBS,
   K.VE_VP8_PPS_MB_NO_COEFF_SKIP,
   K.VE_VP8_PPS_TOKEN_PARTITION.mask,
   K.VE_VP8_PPS_MODE_REF_LF_DELTA_UPDATE,
   K.VE_VP8_PPS_MODE_REF_LF_DELTA_ENABLE,
   K.VE_VP8_PPS_LOOP_FILTER_LEVEL.mask,
   K.VE_VP8_PPS_LOOP_FILTER_SIMPLE,
   K.VE_VP8_PPS_SHARPNESS_LEVEL.mask,
   K.VE_VP8_PPS_LAST_LOOP_FILTER_SIMPLE,
   K.VE_VP8_PPS_SEGMENTATION_ENABLE,
   K.VE_VP8_PPS_MB_SEGMENT_ABS_DELTA,
   K.VE_VP8_PPS_UPDATE_MB_SEGMENTATION_MAP,
   K.VE_VP8_PPS_FULL_PIXEL,
   K.VE_VP8_PPS_BILINEAR_MC_FILTER,
   K.VE_VP8_PPS_FILTER_TYPE_SIMPLE,
   K.VE_VP8_PPS_LPF_DISABLE]

/-- Layout condition on the picture-parameter register: every flag and field
is a non-empty part of a 32-bit word, and no two of them share a bit. -/
def pps_wf (K : cedrus_hdr) : Prop :=
  (∀ m ∈ pps_masks K, m ≠ 0 ∧ m < 2 ^ 32) ∧
  (pps_masks K).Pairwise disjoint_masks ∧
  K.VE_VP8_PPS_LAST_SHARPNESS_LEVEL.valid ∧ K.VE_VP8_PPS_TOKEN_PARTITION.valid ∧
  K.VE_VP8_PPS_LOOP_FILTER_LEVEL.valid ∧ K.VE_VP8_PPS_SHARPNESS_LEVEL.valid

instance (K : cedrus_hdr) : Decidable (pps_wf K) := by
  unfold pps_wf; infer_instance

/-- The six fields of the quantizer-delta register. -/
def qp_fields (K : cedrus_hdr) : List Field :=
  [K.VE_VP8_QP_INDEX_DELTA_UVAC, K.VE_VP8_QP_INDEX_DELTA_UVDC, K.VE_VP8_QP_INDEX_DELTA_Y2AC,
   K.VE_VP8_QP_INDEX_DELTA_Y2DC, K.VE_VP8_QP_INDEX_DELTA_Y1DC,
   K.VE_VP8_QP_INDEX_DELTA_BASE_QINDEX]

/-- Layout condition on the quantizer-delta register, in the words of the
specification: six fields in pairwise disjoint bit ranges of one 32-bit
word. -/
def qp_wf (K : cedrus_hdr) : Prop :=
  (∀ f ∈ qp_fields K, f.valid) ∧
  (qp_fields K).Pairwise (fun f g => f.hi < g.lo ∨ g.hi < f.lo)

instance (K : cedrus_hdr) : Decidable (qp_wf K) := by
  unfold qp_wf; infer_instance

/-! ## Coefficient region of the table -/

/-- Offsets of the coefficient region written by the rows of flat index
`(i * 8 + j) * 3 + k` below `m`. -/
def coeff_written (m x : Nat) : Prop :=
  x < 2048 ∧ x % 64 / 16 < 3 ∧ x % 16 < 11 ∧
    (x / 512 * 8 + x % 512 / 64) * 3 + x % 64 / 16 < m

instance (m x : Nat) : Decidable (coeff_written m x) := by
  unfold coeff_written; infer_instance

/-- Coefficient probability that belongs at offset `x` of the table. -/
def coeff_at (c : Fin 4 → Fin 8 → Fin 3 → Fin 11 → Nat) (x : Nat) : Nat :=
  if h : x / 512 < 4 ∧ x % 512 / 64 < 8 ∧ x % 64 / 16 < 3 ∧ x % 16 < 11 then
    c ⟨x / 512, h.1⟩ ⟨x % 512 / 64, h.2.1⟩ ⟨x % 64 / 16, h.2.2.1⟩ ⟨x % 16, h.2.2.2⟩
  else 0

/-- Invariant of the coefficient loops: rows of flat index below `m` hold the
frame's coefficients, everything else is as in `t0`. -/
def CoeffInv (c : Fin 4 → Fin 8 → Fin 3 → Fin 11 → Nat) (t0 : List Nat) (m : Nat)
    (t : List Nat) : Prop :=
  t.length = t0.length ∧
    ∀ x, t[x]? = if coeff_written m x then some (coeff_at c x) else t0[x]?

/-! ## Sample inputs -/

/-- A concrete assignment of the header constants, following the layout of
the driver's register header and of the V4L2 VP8 controls. -/
def sample_hdr : cedrus_hdr where
  V4L2_VP8_FRAME_FLAG_KEY_FRAME := 0x01
  V4L2_VP8_FRAME_FLAG_MB_NO_SKIP_COEFF := 0x08
  V4L2_VP8_FRAME_FLAG_SIGN_BIAS_GOLDEN := 0x10
  V4L2_VP8_FRAME_FLAG_SIGN_BIAS_ALT := 0x20
  V4L2_VP8_SEGMENT_FLAG_ENABLED := 0x01
  V4L2_VP8_SEGMENT_FLAG_UPDATE_MAP := 0x02
  V4L2_VP8_SEGMENT_FLAG_DELTA_VALUE_MODE := 0x08
  V4L2_VP8_LF_ADJ_ENABLE := 0x01
  V4L2_VP8_LF_DELTA_UPDATE := 0x02
  V4L2_VP8_LF_FILTER_TYPE_SIMPLE := 0x04
  VE_H264_CTRL_VP8 := 2 ^ 29
  VE_H264_CTRL_DECODE_ERR_INT := 2 ^ 1
  VE_H264_CTRL_SLICE_DECODE_INT := 2 ^ 0
  VE_H264_CTRL_INT_MASK := 7
  VE_H264_STATUS_DECODE_ERR_INT := 2 ^ 1
  VE_H264_STATUS_VLD_DATA_REQ_INT := 2 ^ 2
  VE_H264_STATUS_VLD_BUSY := 2 ^ 8
  VE_H264_STATUS_VP8_UPPROB_BUSY := 2 ^ 17
  VE_H264_STATUS_INT_MASK := 7
  VE_H264_TRIGGER_TYPE_VP8_GET_BITS := 15
  VE_H264_TRIGGER_TYPE_VP8_UPDATE_COEF := 14
  VE_H264_TRIGGER_TYPE_VP8_SLICE_DECODE := 10
  VE_H264_TRIGGER_TYPE_INIT_SWDEC := 7
  VE_H264_TRIGGER_TYPE_BIN_LENS := fun x => SHIFT_AND_MASK_BITS ((x : Int) - 1) 18 16
  VE_H264_TRIGGER_TYPE_PROBABILITY := fun x => SHIFT_AND_MASK_BITS x 31 24
  VE_H264_VLD_ADDR_VAL := fun x => (x &&& 0x0ffffff0) ||| (x >>> 28)
  VE_H264_VLD_ADDR_FIRST := 2 ^ 30
  VE_H264_VLD_ADDR_VALID := 2 ^ 28
  VE_H264_VLD_ADDR_LAST := 2 ^ 29
  VE_VP8_PPS_PIC_TYPE_P_FRAME := 2 ^ 31
  VE_VP8_PPS_LAST_SHARPNESS_LEVEL := ⟨30, 28⟩
  VE_VP8_PPS_LAST_PIC_TYPE_P_FRAME := 2 ^ 27
  VE_VP8_PPS_ALTREF_SIGN_BIAS := 2 ^ 26
  VE_VP8_PPS_GOLDEN_SIGN_BIAS := 2 ^ 25
  VE_VP8_PPS_RELOAD_ENTROPY_PROBS := 2 ^ 24
  VE_VP8_PPS_MB_NO_COEFF_SKIP := 2 ^ 22
  VE_VP8_PPS_TOKEN_PARTITION := ⟨21, 20⟩
  VE_VP8_PPS_MODE_REF_LF_DELTA_UPDATE := 2 ^ 19
  VE_VP8_PPS_MODE_REF_LF_DELTA_ENABLE := 2 ^ 18
  VE_VP8_PPS_LOOP_FILTER_LEVEL := ⟨17, 12⟩
  VE_VP8_PPS_LOOP_FILTER_SIMPLE := 2 ^ 11
  VE_VP8_PPS_SHARPNESS_LEVEL := ⟨10, 8⟩
  VE_VP8_PPS_LAST_LOOP_FILTER_SIMPLE := 2 ^ 7
  VE_VP8_PPS_SEGMENTATION_ENABLE := 2 ^ 6
  VE_VP8_PPS_MB_SEGMENT_ABS_DELTA := 2 ^ 5
  VE_VP8_PPS_UPDATE_MB_SEGMENTATION_MAP := 2 ^ 4
  VE_VP8_PPS_FULL_PIXEL := 2 ^ 3
  VE_VP8_PPS_BILINEAR_MC_FILTER := 2 ^ 2
  VE_VP8_PPS_FILTER_TYPE_SIMPLE := 2 ^ 1
  VE_VP8_PPS_LPF_DISABLE := 2 ^ 0
  VE_VP8_QP_INDEX_DELTA_UVAC := ⟨31, 27⟩
  VE_VP8_QP_INDEX_DELTA_UVDC := ⟨26, 22⟩
  VE_VP8_QP_INDEX_DELTA_Y2AC := ⟨21, 17⟩
  VE_VP8_QP_INDEX_DELTA_Y2DC := ⟨16, 12⟩
  VE_VP8_QP_INDEX_DELTA_Y1DC := ⟨11, 7⟩
  VE_VP8_QP_INDEX_DELTA_BASE_QINDEX := ⟨6, 0⟩
  VE_VP8_FSIZE_WIDTH := fun w => SHIFT_AND_MASK_BITS (((w + 15) / 16 : Nat) : Int) 15 8
  VE_VP8_FSIZE_HEIGHT := fun h => SHIFT_AND_MASK_BITS (((h + 15) / 16 : Nat) : Int) 7 0
  VE_VP8_PICSIZE_WIDTH := fun w => SHIFT_AND_MASK_BITS w 27 16
  VE_VP8_PICSIZE_HEIGHT := fun h => SHIFT_AND_MASK_BITS h 11 0
  VE_VP8_SEGMENT0 := fun v => SHIFT_AND_MASK_BITS v 7 0
  VE_VP8_SEGMENT1 := fun v => SHIFT_AND_MASK_BITS v 15 8
  VE_VP8_SEGMENT2 := fun v => SHIFT_AND_MASK_BITS v 23 16
  VE_VP8_SEGMENT3 := fun v => SHIFT_AND_MASK_BITS v 31 24
  VE_VP8_LF_DELTA0 := fun v => SHIFT_AND_MASK_BITS v 6 0
  VE_VP8_LF_DELTA1 := fun v => SHIFT_AND_MASK_BITS v 14 8
  VE_VP8_LF_DELTA2 := fun v => SHIFT_AND_MASK_BITS v 22 16
  VE_VP8_LF_DELTA3 := fun v => SHIFT_AND_MASK_BITS v 30 24

/-- A key frame with loop-filter level 0. -/
def sample_key_frame : v4l2_ctrl_vp8_frame where
  segment := { quant_update := fun _ => 0, lf_update := fun _ => 0,
               segment_probs := fun _ => 255, flags := 0 }
  lf := { ref_frm_delta := fun _ => 0, mb_mode_delta := fun _ => 0,
          sharpness_level := 5, level := 0, flags := 0x04 }
  quant := { y_ac_qi := 100, y_dc_delta := -3, y2_dc_delta := 2, y2_ac_delta := -15,
             uv_dc_delta := 15, uv_ac_delta := -1 }
  entropy := { coeff_probs := fun i j k l => 1 + i.val + j.val + k.val + l.val,
               y_mode_probs := fun n => 145 + n.val,
               uv_mode_probs := fun n => 142 + n.val,
               mv_probs := fun i n => 1 + 19 * i.val + n.val }
  width := 640
  height := 480
  version := 0
  prob_skip_false := 200
  prob_intra := 63
  prob_last := 128
  prob_gf := 192
  num_dct_parts := 1
  first_part_size := 1000
  last_frame_ts := 0
  golden_frame_ts := 0
  alt_frame_ts := 0
  flags := 0x01

/-- An inter frame with loop-filter level 20. -/
def sample_inter_frame : v4l2_ctrl_vp8_frame :=
  { sample_key_frame with
    lf := { ref_frm_delta := fun _ => 0, mb_mode_delta := fun _ => 0,
            sharpness_level := 3, level := 20, flags := 0x04 }
    last_frame_ts := 1000
    golden_frame_ts := 2000
    alt_frame_ts := 3000
    flags := 0 }

/-- A zero-filled table of the size the driver allocates. -/
def sample_table : List Nat := List.replicate CEDRUS_ENTROPY_PROBS_SIZE 0

/-- A session whose table is allocated, with the given three hints. -/
def sample_ctx (p_type filter_type sharpness : Nat) : cedrus_vp8_ctx where
  last_frame_p_type := p_type
  last_filter_type := filter_type
  last_sharpness_level := sharpness
  entropy_probs_buf := some sample_table
  entropy_probs_buf_dma := 0x40000000

/-- A device with every register holding `0xdeadbeef` and an empty trace. -/
def sample_dev : cedrus_dev where
  regs := fun _ => 0xdeadbeef
  log := []
  nread := 0
  nwait := 0
  calls := []

/-- An engine whose reads return 1 and whose waits never expire. -/
def sample_engine : Engine where
  rd := fun _ _ => 1
  expired := fun _ => false

/-- A buffer pool of two buffers, carrying timestamps 1000 and 2000. -/
def sample_bufs : cedrus_bufs where
  vb2_find_timestamp := fun ts => if ts = 1000 then 0 else if ts = 2000 then 1 else -1
  cedrus_dst_buf_addr := fun i plane =>
    if i < 0 then 0 else 0x50000000 + i.toNat * 0x100000 + plane * 0x80000

/-- A decode request for the given frame. -/
def sample_run (f : v4l2_ctrl_vp8_frame) : cedrus_run where
  frame_params := f
  src_plane_size := 65536
  src_plane_payload := 5000
  src_dma_addr := 0x48000000
  dst_index := 1

/-! ## Steps of the header replay -/

/-- Device states reachable from `d` by the primitive steps of the header
replay: a `read_bits` call with a bit count in 1..8 at probability
`VP8_PROB_HALF` or an entry of `k_mv_entropy_update_probs`, and the
coefficient-update trigger followed by its wait and the status clear. -/
inductive Replay (K : cedrus_hdr) (hw : Engine) (d : cedrus_dev) : cedrus_dev → Prop where
  | start : Replay K hw d d
  | step_read (d' : cedrus_dev) (bits_count probability : Nat) :
      Replay K hw d d' → 1 ≤ bits_count → bits_count ≤ 8 →
      (probability = VP8_PROB_HALF ∨
        ∃ i j, i < 2 ∧ j < V4L2_VP8_MV_PROB_CNT ∧
          probability = k_mv_entropy_update_probs_at i j) →
      Replay K hw d (read_bits K hw d' bits_count probability).2
  | step_update (d' : cedrus_dev) :
      Replay K hw d d' →
      Replay K hw d
        (cedrus_irq_clear K
          (cedrus_wait_for hw
            (cedrus_write d' Reg.VE_H264_TRIGGER_TYPE K.VE_H264_TRIGGER_TYPE_VP8_UPDATE_COEF)
            Reg.VE_H264_STATUS K.VE_H264_STATUS_VP8_UPPROB_BUSY).2)

/-! ## The header replay as data

A second description of the header replay, as a script of reads, to be
compared with `cedrus_read_header`: the two are proved equal, and the order
and number of the reads are then read off the script. -/

/-- A replay script: nothing, one `read_bits` whose result is dropped, one
single-bit `read_bits` whose result (zero or not) selects the continuation,
two scripts in sequence, or the coefficient-update trigger with its wait and
status clear. -/
inductive Script where
  | nop
  | rd (bits_count probability : Nat)
  | test (probability : Nat) (k : Bool → Script)
  | seq (s t : Script)
  | update

/-- Execution of a script on the device with the driver's primitives. -/
def Script.run (K : cedrus_hdr) (hw : Engine) : Script → cedrus_dev → cedrus_dev
  | .nop, d => d
  | .rd b p, d => (read_bits K hw d b p).2
  | .test p k, d =>
    if (read_bits K hw d 1 p).1 ≠ 0 then (k true).run K hw (read_bits K hw d 1 p).2
    else (k false).run K hw (read_bits K hw d 1 p).2
  | .seq s t, d => t.run K hw (s.run K hw d)
  | .update, d =>
    cedrus_irq_clear K
      (cedrus_wait_for hw
        (cedrus_write d Reg.VE_H264_TRIGGER_TYPE K.VE_H264_TRIGGER_TYPE_VP8_UPDATE_COEF)
        Reg.VE_H264_STATUS K.VE_H264_STATUS_VP8_UPPROB_BUSY).2

/-- Whether the n-th register read of the engine, taken as the result of a
`read_bits` call, is non-zero. -/
def Engine.nonzero (hw : Engine) (n : Nat) : Bool :=
  u8 (u32 (hw.rd n Reg.VE_H264_BASIC_BITS)) != 0

/-- The reads of a script, as (bit count, probability) pairs in order, when
the i-th read returns non-zero iff `vals i`, starting at read number `n`;
and the read number after the script. -/
def Script.calls (vals : Nat → Bool) : Script → Nat → List (Nat × Nat) × Nat
  | .nop, n => ([], n)
  | .rd b p, n => ([(b, p)], n + 1)
  | .test p k, n =>
    ((1, p) :: ((k (vals n)).calls vals (n + 1)).1, ((k (vals n)).calls vals (n + 1)).2)
  | .seq s t, n =>
    ((s.calls vals n).1 ++ (t.calls vals (s.calls vals n).2).1,
      (t.calls vals (s.calls vals n).2).2)
  | .update, n => ([], n)

/-- The three bus events of one `read_bits` call: the trigger write, the wait
for the parser, the read of the result. -/
def read_events (K : cedrus_hdr) (hw : Engine) (n w bits_count probability : Nat) : List Ev :=
  [Ev.write Reg.VE_H264_TRIGGER_TYPE
      (u32 (K.VE_H264_TRIGGER_TYPE_VP8_GET_BITS |||
        K.VE_H264_TRIGGER_TYPE_BIN_LENS bits_count |||
        K.VE_H264_TRIGGER_TYPE_PROBABILITY probability)),
    Ev.wait Reg.VE_H264_STATUS K.VE_H264_STATUS_VLD_BUSY (hw.expired w),
    Ev.read Reg.VE_H264_BASIC_BITS (u32 (hw.rd n Reg.VE_H264_BASIC_BITS))]

/-- The three bus events of the coefficient-update step: the trigger write,
the wait on the update-busy flag, the status clear. -/
def update_events (K : cedrus_hdr) (hw : Engine) (w : Nat) : List Ev :=
  [Ev.write Reg.VE_H264_TRIGGER_TYPE (u32 K.VE_H264_TRIGGER_TYPE_VP8_UPDATE_COEF),
    Ev.wait Reg.VE_H264_STATUS K.VE_H264_STATUS_VP8_UPPROB_BUSY (hw.expired w),
    Ev.write Reg.VE_H264_STATUS (u32 K.VE_H264_STATUS_INT_MASK)]

/-- The bus events of a list of `read_bits` calls issued back to back, the
first being register read number `n` and wait number `w`. -/
def reads_events (K : cedrus_hdr) (hw : Engine) : Nat → Nat → List (Nat × Nat) → List Ev
  | _, _, [] => []
  | n, w, c :: cs => read_events K hw n w c.1 c.2 ++ reads_events K hw (n + 1) (w + 1) cs

/-- Repetition of a script, for a loop whose body ignores its index. -/
def Script.rep : Nat → Script → Script
  | 0, _ => .nop
  | n + 1, s => .seq (Script.rep n s) s

/-- Scripts `f 0`, ..., `f (n - 1)` in sequence, for a loop over an index. -/
def Script.seqN : Nat → (Nat → Script) → Script
  | 0, _ => .nop
  | n + 1, f => .seq (Script.seqN n f) (f n)

/-- A flag read at probability `p` followed, when the flag is non-zero, by
the script `s`. -/
def Script.flag (p : Nat) (s : Script) : Script :=
  .test p (fun b => bif b then s else .nop)

/-- Script of `get_delta_q`. -/
def get_delta_q_script : Script :=
  Script.flag VP8_PROB_HALF (.seq (.rd 4 VP8_PROB_HALF) (.rd 1 VP8_PROB_HALF))

/-- Script of `process_segmentation_info`. -/
def process_segmentation_info_script : Script :=
  .test VP8_PROB_HALF (fun update =>
    .seq
      (Script.flag VP8_PROB_HALF
        (.seq (.rd 1 VP8_PROB_HALF)
          (.seq
            (Script.rep 4 (Script.flag VP8_PROB_HALF
              (.seq (.rd 7 VP8_PROB_HALF) (.rd 1 VP8_PROB_HALF))))
            (Script.rep 4 (Script.flag VP8_PROB_HALF
              (.seq (.rd 6 VP8_PROB_HALF) (.rd 1 VP8_PROB_HALF)))))))
      (bif update then Script.rep 3 (Script.flag VP8_PROB_HALF (.rd 8 VP8_PROB_HALF))
        else .nop))

/-- Script of `process_ref_lf_delta_info`. -/
def process_ref_lf_delta_info_script : Script :=
  Script.flag VP8_PROB_HALF
    (.seq
      (Script.rep 4 (Script.flag VP8_PROB_HALF
        (.seq (.rd 6 VP8_PROB_HALF) (.rd 1 VP8_PROB_HALF))))
      (Script.rep 4 (Script.flag VP8_PROB_HALF
        (.seq (.rd 6 VP8_PROB_HALF) (.rd 1 VP8_PROB_HALF)))))

/-- Script of `process_ref_frame_info`. -/
def process_ref_frame_info_script : Script :=
  .test VP8_PROB_HALF (fun refresh_golden_frame =>
    .test VP8_PROB_HALF (fun refresh_alt_ref_frame =>
      .seq (bif refresh_golden_frame then .nop else .rd 2 VP8_PROB_HALF)
        (.seq (bif refresh_alt_ref_frame then .nop else .rd 2 VP8_PROB_HALF)
          (.seq (.rd 1 VP8_PROB_HALF) (.rd 1 VP8_PROB_HALF)))))

/-- Reads of `cedrus_read_header` before the quantizer: colour space and
clamping (key frames), segmentation, filter type, level and sharpness,
loop-filter deltas, partition count. -/
def header_pre_script (key : Bool) : Script :=
  .seq (bif key then .seq (.rd 1 VP8_PROB_HALF) (.rd 1 VP8_PROB_HALF) else .nop)
    (.seq (Script.flag VP8_PROB_HALF process_segmentation_info_script)
      (.seq (.rd 1 VP8_PROB_HALF)
        (.seq (.rd 6 VP8_PROB_HALF)
          (.seq (.rd 3 VP8_PROB_HALF)
            (.seq (Script.flag VP8_PROB_HALF process_ref_lf_delta_info_script)
              (.rd 2 VP8_PROB_HALF))))))

/-- Quantizer reads of `cedrus_read_header`: the base index and the five
deltas. -/
def header_quant_script : Script :=
  .seq (.rd 7 VP8_PROB_HALF) (Script.rep QUANT_DELTA_COUNT get_delta_q_script)

/-- Reference-refresh reads of `cedrus_read_header` (inter frames only). -/
def header_ref_script (key : Bool) : Script :=
  bif !key then process_ref_frame_info_script else .nop

/-- Entropy-refresh reads of `cedrus_read_header`: one flag, and one more for
inter frames. -/
def header_refresh_script (key : Bool) : Script :=
  .seq (.rd 1 VP8_PROB_HALF) (bif !key then .rd 1 VP8_PROB_HALF else .nop)

/-- Skip-probability reads of `cedrus_read_header`. -/
def header_skip_script : Script :=
  Script.flag VP8_PROB_HALF (.rd 8 VP8_PROB_HALF)

/-- Intra, last and golden probability reads of `cedrus_read_header`. -/
def header_prob_script : Script :=
  .seq (.rd 8 VP8_PROB_HALF) (.seq (.rd 8 VP8_PROB_HALF) (.rd 8 VP8_PROB_HALF))

/-- Mode-probability reads of `cedrus_read_header`. -/
def header_mode_script : Script :=
  .seq
    (Script.flag VP8_PROB_HALF
      (.seq (.rd 8 VP8_PROB_HALF)
        (.seq (.rd 8 VP8_PROB_HALF) (.seq (.rd 8 VP8_PROB_HALF) (.rd 8 VP8_PROB_HALF)))))
    (Script.flag VP8_PROB_HALF
      (.seq (.rd 8 VP8_PROB_HALF) (.seq (.rd 8 VP8_PROB_HALF) (.rd 8 VP8_PROB_HALF))))

/-- Motion-vector probability reads of `cedrus_read_header`. -/
def header_mv_script : Script :=
  Script.seqN 2 (fun i =>
    Script.seqN V4L2_VP8_MV_PROB_CNT (fun j =>
      Script.flag (k_mv_entropy_update_probs_at i j) (.rd 7 VP8_PROB_HALF)))

/-- Reads of `cedrus_read_header` before the coefficient-update trigger. -/
def header_front_script (key : Bool) : Script :=
  .seq (header_pre_script key)
    (.seq header_quant_script (.seq (header_ref_script key) (header_refresh_script key)))

/-- Reads of `cedrus_read_header` after the coefficient-update trigger. -/
def header_back_script (key : Bool) : Script :=
  .seq header_skip_script
    (bif !key then .seq header_prob_script (.seq header_mode_script header_mv_script)
      else .nop)

/-- Script of `cedrus_read_header` for a key frame (`true`) or an inter frame
(`false`). -/
def header_script (key : Bool) : Script :=
  .seq (header_front_script key) (.seq .update (header_back_script key))

/-- The reads that replay the motion-vector probability updates, for the
update probabilities `ps` in order, the first flag being read number `n`:
one single-bit read at each probability, followed by one 7-bit read at
`VP8_PROB_HALF` exactly when the flag read returned non-zero. -/
def mv_flag_reads (vals : Nat → Bool) : Nat → List Nat → List (Nat × Nat)
  | _, [] => []
  | n, p :: ps =>
    if vals n then (1, p) :: (7, VP8_PROB_HALF) :: mv_flag_reads vals (n + 2) ps
    else (1, p) :: mv_flag_reads vals (n + 1) ps

/-- An engine whose reads return 0 and whose waits never expire. -/
def zero_engine : Engine where
  rd := fun _ _ => 0
  expired := fun _ => false

/-- An engine whose reads return 1 and whose waits always expire. -/
def stuck_engine : Engine where
  rd := fun _ _ => 1
  expired := fun _ => true

/-- Whether an event is a write to register `r`. -/
def Ev.is_write_to (r : Reg) : Ev → Bool
  | .write r' _ => r' == r
  | _ => false

/-- Whether a script consists of reads only (no coefficient-update step). -/
def Script.reads_only : Script → Bool
  | .nop => true
  | .rd _ _ => true
  | .test _ k => (k true).reads_only && (k false).reads_only
  | .seq s t => s.reads_only && t.reads_only
  | .update => false

/-- Whether every read of a script is at probability `VP8_PROB_HALF`. -/
def Script.all_half : Script → Bool
  | .nop => true
  | .rd _ p => p == VP8_PROB_HALF
  | .test p k => p == VP8_PROB_HALF && (k true).all_half && (k false).all_half
  | .seq s t => s.all_half && t.all_half
  | .update => true

/-! ## Register programming of a frame as a list of writes -/

/-- The register writes `(register, value)` performed in the order given. -/
def write_all (dev : cedrus_dev) (ws : List (Reg × Nat)) : cedrus_dev :=
  ws.foldl (fun d w => cedrus_write d w.1 w.2) dev

/-- The two writes of one reference-address block of `cedrus_vp8_setup`. -/
def ref_writes (bufs : cedrus_bufs) (ts : Nat) (luma chroma : Reg) : List (Reg × Nat) :=
  [(luma, if bufs.vb2_find_timestamp ts ≥ 0 then
      bufs.cedrus_dst_buf_addr (bufs.vb2_find_timestamp ts) 0 else 0),
   (chroma, if bufs.vb2_find_timestamp ts ≥ 0 then
      bufs.cedrus_dst_buf_addr (bufs.vb2_find_timestamp ts) 1 else 0)]

/-- The writes of `cedrus_vp8_setup` that precede the header replay, in
program order. -/
def setup_front_writes (K : cedrus_hdr) (ctx : cedrus_vp8_ctx) (run : cedrus_run) :
    List (Reg × Nat) :=
  let slice := run.frame_params
  let header_size : Nat := if V4L2_VP8_FRAME_IS_KEY_FRAME K slice then 10 else 3
  [(Reg.VE_H264_CTRL, K.VE_H264_CTRL_VP8),
   (Reg.VE_VP8_FIRST_DATA_PART_LEN, u32 (slice.first_part_size * 8)),
   (Reg.VE_VP8_PART_SIZE_OFFSET, u32 (slice.first_part_size + header_size)),
   (Reg.VE_H264_VLD_LEN, u32 (run.src_plane_size * 8)),
   (Reg.VE_H264_VLD_OFFSET, u32 (header_size * 8)),
   (Reg.VE_H264_VLD_END, run.src_dma_addr + run.src_plane_payload),
   (Reg.VE_H264_VLD_ADDR,
     K.VE_H264_VLD_ADDR_VAL run.src_dma_addr ||| K.VE_H264_VLD_ADDR_FIRST |||
       K.VE_H264_VLD_ADDR_VALID ||| K.VE_H264_VLD_ADDR_LAST),
   (Reg.VE_H264_TRIGGER_TYPE, K.VE_H264_TRIGGER_TYPE_INIT_SWDEC),
   (Reg.VE_VP8_ENTROPY_PROBS_ADDR, ctx.entropy_probs_buf_dma),
   (Reg.VE_VP8_PPS, vp8_pps K ctx slice)]

/-- The writes of `cedrus_vp8_setup` that follow the header replay, in
program order. -/
def setup_back_writes (K : cedrus_hdr) (bufs : cedrus_bufs) (run : cedrus_run) :
    List (Reg × Nat) :=
  let slice := run.frame_params
  [(Reg.VE_H264_CUR_MB_NUM, 0),
   (Reg.VE_H264_MB_ADDR, 0),
   (Reg.VE_H264_ERROR_CASE, 0),
   (Reg.VE_VP8_QP_INDEX_DELTA, vp8_qp_index_delta K slice.quant),
   (Reg.VE_VP8_FSIZE,
     or32 (or32 0 (K.VE_VP8_FSIZE_WIDTH slice.width)) (K.VE_VP8_FSIZE_HEIGHT slice.height)),
   (Reg.VE_VP8_PICSIZE,
     or32 (or32 0 (K.VE_VP8_PICSIZE_WIDTH slice.width))
       (K.VE_VP8_PICSIZE_HEIGHT slice.height)),
   (Reg.VE_VP8_SEGMENT_FEAT_MB_LV0,
     or32 (or32 (or32 (or32 0 (K.VE_VP8_SEGMENT3 (slice.segment.quant_update 3)))
       (K.VE_VP8_SEGMENT2 (slice.segment.quant_update 2)))
       (K.VE_VP8_SEGMENT1 (slice.segment.quant_update 1)))
       (K.VE_VP8_SEGMENT0 (slice.segment.quant_update 0))),
   (Reg.VE_VP8_SEGMENT_FEAT_MB_LV1,
     or32 (or32 (or32 (or32 0 (K.VE_VP8_SEGMENT3 (slice.segment.lf_update 3)))
       (K.VE_VP8_SEGMENT2 (slice.segment.lf_update 2)))
       (K.VE_VP8_SEGMENT1 (slice.segment.lf_update 1)))
       (K.VE_VP8_SEGMENT0 (slice.segment.lf_update 0))),
   (Reg.VE_VP8_REF_LF_DELTA,
     or32 (or32 (or32 (or32 0 (K.VE_VP8_LF_DELTA3 (slice.lf.ref_frm_delta 3)))
       (K.VE_VP8_LF_DELTA2 (slice.lf.ref_frm_delta 2)))
       (K.VE_VP8_LF_DELTA1 (slice.lf.ref_frm_delta 1)))
       (K.VE_VP8_LF_DELTA0 (slice.lf.ref_frm_delta 0))),
   (Reg.VE_VP8_MODE_LF_DELTA,
     or32 (or32 (or32 (or32 0 (K.VE_VP8_LF_DELTA3 (slice.lf.mb_mode_delta 3)))
       (K.VE_VP8_LF_DELTA2 (slice.lf.mb_mode_delta 2)))
       (K.VE_VP8_LF_DELTA1 (slice.lf.mb_mode_delta 1)))
       (K.VE_VP8_LF_DELTA0 (slice.lf.mb_mode_delta 0))),
   (Reg.VE_VP8_REC_LUMA, bufs.cedrus_dst_buf_addr run.dst_index 0),
   (Reg.VE_VP8_REC_CHROMA, bufs.cedrus_dst_buf_addr run.dst_index 1)] ++
  ref_writes bufs slice.last_frame_ts Reg.VE_VP8_FWD_LUMA Reg.VE_VP8_FWD_CHROMA ++
  ref_writes bufs slice.golden_frame_ts Reg.VE_VP8_BWD_LUMA Reg.VE_VP8_BWD_CHROMA ++
  ref_writes bufs slice.alt_frame_ts Reg.VE_VP8_ALT_LUMA Reg.VE_VP8_ALT_CHROMA ++
  [(Reg.VE_H264_CTRL,
     K.VE_H264_CTRL_VP8 ||| K.VE_H264_CTRL_DECODE_ERR_INT |||
       K.VE_H264_CTRL_SLICE_DECODE_INT)]

/-- The device after `cedrus_vp8_setup`, as the three phases of its bus
traffic: front writes, header replay, back writes. -/
def setup_dev (K : cedrus_hdr) (bufs : cedrus_bufs) (hw : Engine) (ctx : cedrus_vp8_ctx)
    (run : cedrus_run) (dev : cedrus_dev) : cedrus_dev :=
  write_all
    (cedrus_read_header K hw
      (write_all (cedrus_engine_enable dev) (setup_front_writes K ctx run))
      run.frame_params)
    (setup_back_writes K bufs run)

/-- The `read_bits` calls of the header replay that precede the
coefficient-update trigger, `n` register reads having been made before. -/
def header_front_calls (vals : Nat → Bool) (key : Bool) (n : Nat) : List (Nat × Nat) :=
  ((header_front_script key).calls vals n).1

/-- The `read_bits` calls of the header replay that follow the
coefficient-update trigger. -/
def header_back_calls (vals : Nat → Bool) (key : Bool) (n : Nat) : List (Nat × Nat) :=
  ((header_back_script key).calls vals (n + (header_front_calls vals key n).length)).1

/-- The bus events of the header replay on a frame that is a key frame or
not, `n` register reads and `w` waits having been made before: the events of
the reads before the trigger, the coefficient update, the events of the
reads after it. -/
def header_events (K : cedrus_hdr) (hw : Engine) (key : Bool) (n w : Nat) : List Ev :=
  reads_events K hw n w (header_front_calls hw.nonzero key n) ++
    update_events K hw (w + (header_front_calls hw.nonzero key n).length) ++
    reads_events K hw (n + (header_front_calls hw.nonzero key n).length)
      (w + (header_front_calls hw.nonzero key n).length + 1)
      (header_back_calls hw.nonzero key n)

/-! ## Measures on replay scripts -/

/-- The least number of reads a script can issue, over all answers of the
engine. -/
def Script.min_reads : Script → Nat
  | .nop => 0
  | .rd _ _ => 1
  | .test _ k => 1 + min (k true).min_reads (k false).min_reads
  | .seq s t => s.min_reads + t.min_reads
  | .update => 0

/-- The greatest number of reads a script can issue, over all answers of the
engine. -/
def Script.max_reads : Script → Nat
  | .nop => 0
  | .rd _ _ => 1
  | .test _ k => 1 + max (k true).max_reads (k false).max_reads
  | .seq s t => s.max_reads + t.max_reads
  | .update => 0

/-- Whether every read of a script, on every path through it, has a bit
count and a probability accepted by `P`. -/
def Script.all_reads (P : Nat → Nat → Bool) : Script → Bool
  | .nop => true
  | .rd b p => P b p
  | .test p k => P 1 p && (k true).all_reads P && (k false).all_reads P
  | .seq s t => s.all_reads P && t.all_reads P
  | .update => true

/-- Arguments of a `read_bits` call that the engine can serve: a bit count in
1..8 and a probability that is `VP8_PROB_HALF` or an entry of
`k_mv_entropy_update_probs` lying in 231..254. -/
def valid_read (bits_count probability : Nat) : Bool :=
  decide (1 ≤ bits_count ∧ bits_count ≤ 8 ∧
    (probability = VP8_PROB_HALF ∨
      (probability ∈ k_mv_entropy_update_probs.flatten ∧
        231 ≤ probability ∧ probability ≤ 254)))

/-- An engine whose register reads return the value last written to the
register on device `d`, and whose waits never expire. -/
def readback_engine (d : cedrus_dev) : Engine where
  rd := fun _ r => d.regs r
  expired := fun _ => false

/-- The numbers of the reads whose result a script tests, on the path taken
when the i-th read returns non-zero iff `vals i`, the first read of the
script being read number `n`. -/
def Script.tested (vals : Nat → Bool) : Script → Nat → List Nat
  | .nop, _ => []
  | .rd _ _, _ => []
  | .test _ k, n => n :: (k (vals n)).tested vals (n + 1)
  | .seq s t, n => s.tested vals n ++ t.tested vals (s.calls vals n).2
  | .update, _ => []

/-- The numbers of the register reads of `cedrus_read_header` whose result
the code tests (the conditions `if (read_bits(...))` and the two refresh
flags of `process_ref_frame_info`), for the given engine, device and frame. -/
def tested_reads (K : cedrus_hdr) (hw : Engine) (d : cedrus_dev)
    (slice : v4l2_ctrl_vp8_frame) : List Nat :=
  (header_script (V4L2_VP8_FRAME_IS_KEY_FRAME K slice)).tested hw.nonzero d.nread

/-- An engine whose reads number 0, 1, 3, 4, 5 and 8 return 5, whose other
reads return 0, and whose waits always expire. -/
def fives_engine : Engine where
  rd := fun n _ => if n = 0 ∨ n = 1 ∨ n = 3 ∨ n = 4 ∨ n = 5 ∨ n = 8 then 5 else 0
  expired := fun _ => true
/-! ## Lemmas on the probability table -/


theorem memcpy_isSome (dst : List Nat) (off : Nat) (src : List Nat) (n : Nat)
    (hd : off + n ≤ dst.length) (hs : n ≤ src.length) :
    ∃ t, memcpy dst off src n = some t := by
  unfold memcpy
  rw [if_pos ⟨hd, hs⟩]
  exact ⟨_, rfl⟩

theorem memcpy_length {dst : List Nat} {off : Nat} {src : List Nat} {n : Nat} {t : List Nat}
    (h : memcpy dst off src n = some t) : t.length = dst.length := by
  unfold memcpy at h
  split at h
  · rename_i hb
    cases h
    simp only [List.length_append, List.length_take, List.length_drop]
    omega
  · cases h

theorem memcpy_get {dst : List Nat} {off : Nat} {src : List Nat} {n : Nat} {t : List Nat}
    (h : memcpy dst off src n = some t) (x : Nat) :
    t[x]? = if off ≤ x ∧ x < off + n then src[x - off]? else dst[x]? := by
  unfold memcpy at h
  split at h
  · rename_i hb
    cases h
    simp only [List.getElem?_append, List.length_take, List.getElem?_take, List.getElem?_drop]
    have h1 : min off dst.length = off := by omega
    have h2 : min n src.length = n := by omega
    rw [h1, h2]
    by_cases c1 : x < off
    · have : ¬ (off ≤ x ∧ x < off + n) := by omega
      simp [c1, this]
    · by_cases c2 : x - off < n
      · have : off ≤ x ∧ x < off + n := by omega
        simp [c1, c2, this]
      · have : ¬ (off ≤ x ∧ x < off + n) := by omega
        simp only [c1, c2, this, if_false]
        congr 1
        omega
  · cases h

theorem store_length {dst : List Nat} {i v : Nat} {t : List Nat}
    (h : store dst i v = some t) : t.length = dst.length := by
  unfold store at h
  split at h
  · cases h; simp
  · cases h

theorem store_get {dst : List Nat} {i v : Nat} {t : List Nat}
    (h : store dst i v = some t) (x : Nat) :
    t[x]? = if x = i then some v else dst[x]? := by
  unfold store at h
  split at h
  · rename_i hb
    cases h
    rw [List.getElem?_set]
    by_cases c : i = x
    · subst c; simp [hb]
    · have : ¬ x = i := fun e => c e.symm
      simp [c, this]
  · cases h

theorem store_isSome (dst : List Nat) (i v : Nat) (h : i < dst.length) :
    ∃ t, store dst i v = some t := by
  unfold store
  rw [if_pos h]
  exact ⟨_, rfl⟩


theorem forLoopM_inv {σ : Type} (n : Nat) (body : Nat → σ → Option σ) (s : σ)
    (P : Nat → σ → Prop) (h0 : P 0 s)
    (hstep : ∀ i, i < n → ∀ s, P i s → ∃ s', body i s = some s' ∧ P (i + 1) s') :
    ∃ s', forLoopM n body s = some s' ∧ P n s' := by
  induction n with
  | zero => exact ⟨s, rfl, h0⟩
  | succ n ih =>
    obtain ⟨s1, h1, p1⟩ := ih (fun i hi => hstep i (Nat.lt_succ_of_lt hi))
    obtain ⟨s2, h2, p2⟩ := hstep n (Nat.lt_succ_self n) s1 p1
    refine ⟨s2, ?_, p2⟩
    simp [forLoopM, h1, h2]

theorem coeff_at_eq (c : Fin 4 → Fin 8 → Fin 3 → Fin 11 → Nat) (i : Fin 4) (j : Fin 8)
    (k : Fin 3) (l : Fin 11) :
    coeff_at c (i.val * 512 + j.val * 64 + k.val * 16 + l.val) = c i j k l := by
  have hi := i.isLt
  have hj := j.isLt
  have hk := k.isLt
  have hl := l.isLt
  have e1 : (i.val * 512 + j.val * 64 + k.val * 16 + l.val) / 512 = i.val := by omega
  have e2 : (i.val * 512 + j.val * 64 + k.val * 16 + l.val) % 512 / 64 = j.val := by omega
  have e3 : (i.val * 512 + j.val * 64 + k.val * 16 + l.val) % 64 / 16 = k.val := by omega
  have e4 : (i.val * 512 + j.val * 64 + k.val * 16 + l.val) % 16 = l.val := by omega
  unfold coeff_at
  rw [dif_pos (by omega)]
  simp only [e1, e2, e3, e4, Fin.eta]

theorem ofFn_get {n : Nat} (f : Fin n → Nat) (l : Nat) (h : l < n) :
    (List.ofFn f)[l]? = some (f ⟨l, h⟩) := by
  rw [List.getElem?_eq_getElem (by simpa using h)]
  simp

theorem coeff_step (c : Fin 4 → Fin 8 → Fin 3 → Fin 11 → Nat) (t0 t : List Nat)
    (i j k : Nat) (hi : i < 4) (hj : j < 8) (hk : k < 3) (h0 : 2048 ≤ t0.length)
    (inv : CoeffInv c t0 ((i * 8 + j) * 3 + k) t) :
    ∃ t', (do
        let row ← coeff_row c i j k
        memcpy t (i * 512 + j * 64 + k * 16) row 11) = some t' ∧
      CoeffInv c t0 ((i * 8 + j) * 3 + k + 1) t' := by
  obtain ⟨hlen, hget⟩ := inv
  have hrow : coeff_row c i j k = some (List.ofFn (c ⟨i, hi⟩ ⟨j, hj⟩ ⟨k, hk⟩)) := by
    unfold coeff_row
    rw [dif_pos ⟨hi, hj, hk⟩]
  obtain ⟨t', ht'⟩ := memcpy_isSome t (i * 512 + j * 64 + k * 16)
    (List.ofFn (c ⟨i, hi⟩ ⟨j, hj⟩ ⟨k, hk⟩)) 11 (by omega) (by simp)
  refine ⟨t', ?_, ?_, ?_⟩
  · rw [hrow]; exact ht'
  · rw [memcpy_length ht', hlen]
  · intro x
    rw [memcpy_get ht' x, hget x]
    by_cases hx : i * 512 + j * 64 + k * 16 ≤ x ∧ x < i * 512 + j * 64 + k * 16 + 11
    · have hw : coeff_written ((i * 8 + j) * 3 + k + 1) x := by
        unfold coeff_written; omega
      have hl : x - (i * 512 + j * 64 + k * 16) < 11 := by omega
      rw [if_pos hx, if_pos hw, ofFn_get _ _ hl]
      have hxe : x = (⟨i, hi⟩ : Fin 4).val * 512 + (⟨j, hj⟩ : Fin 8).val * 64 +
          (⟨k, hk⟩ : Fin 3).val * 16 +
          (⟨x - (i * 512 + j * 64 + k * 16), hl⟩ : Fin 11).val := by
        simp only; omega
      conv_rhs => rw [hxe]
      rw [coeff_at_eq]
    · rw [if_neg hx]
      have hiff : coeff_written ((i * 8 + j) * 3 + k + 1) x ↔
          coeff_written ((i * 8 + j) * 3 + k) x := by
        unfold coeff_written; omega
      by_cases hw : coeff_written ((i * 8 + j) * 3 + k) x
      · rw [if_pos hw, if_pos (hiff.2 hw)]
      · rw [if_neg hw, if_neg (fun h => hw (hiff.1 h))]

theorem coeff_loops (c : Fin 4 → Fin 8 → Fin 3 → Fin 11 → Nat) (t0 : List Nat)
    (h0 : 2048 ≤ t0.length) :
    ∃ t', forLoopM 4 (fun i t =>
        forLoopM 8 (fun j t =>
          forLoopM 3 (fun k t => do
            let row ← coeff_row c i j k
            memcpy t (i * 512 + j * 64 + k * 16) row 11) t) t) t0 = some t' ∧
      CoeffInv c t0 96 t' := by
  have base : CoeffInv c t0 0 t0 := by
    refine ⟨rfl, fun x => ?_⟩
    have : ¬ coeff_written 0 x := by unfold coeff_written; omega
    rw [if_neg this]
  refine forLoopM_inv 4 _ t0 (fun i t => CoeffInv c t0 (i * 24) t) (by simpa using base) ?_
  intro i hi t inv
  have e1 : (i + 1) * 24 = i * 24 + 8 * 3 := by omega
  beta_reduce
  rw [e1]
  refine forLoopM_inv 8 _ t (fun j t => CoeffInv c t0 (i * 24 + j * 3) t) (by simpa using inv) ?_
  intro j hj t inv
  have e2 : i * 24 + (j + 1) * 3 = i * 24 + j * 3 + 3 := by omega
  beta_reduce
  rw [e2]
  refine forLoopM_inv 3 _ t (fun k t => CoeffInv c t0 (i * 24 + j * 3 + k) t)
    (by simpa using inv) ?_
  intro k hk t inv
  have e3 : i * 24 + j * 3 + k = (i * 8 + j) * 3 + k := by omega
  have e4 : i * 24 + j * 3 + (k + 1) = (i * 8 + j) * 3 + k + 1 := by omega
  beta_reduce at inv ⊢
  rw [e3] at inv
  rw [e4]
  exact coeff_step c t0 t i j k hi hj hk h0 inv


theorem update_probs_get (p : v4l2_ctrl_vp8_frame) (t : List Nat) (ht : 0x1053 ≤ t.length) :
    ∃ t', cedrus_vp8_update_probs p t = some t' ∧ t'.length = t.length ∧
      ∀ x, t'[x]? =
        if coeff_written 96 x then some (coeff_at p.entropy.coeff_probs x)
        else if 0x1040 ≤ x ∧ x < 0x1040 + 19 then (List.ofFn (p.entropy.mv_probs 1))[x - 0x1040]?
        else if 0x1020 ≤ x ∧ x < 0x1020 + 19 then (List.ofFn (p.entropy.mv_probs 0))[x - 0x1020]?
        else if x = 0x101f then some p.prob_gf
        else if x = 0x101e then some p.prob_last
        else if x = 0x101d then some p.prob_intra
        else if x = 0x101c then some p.prob_skip_false
        else if 0x1018 ≤ x ∧ x < 0x1018 + 3 then (List.ofFn p.segment.segment_probs)[x - 0x1018]?
        else if 0x1010 ≤ x ∧ x < 0x1010 + 3 then (List.ofFn p.entropy.uv_mode_probs)[x - 0x1010]?
        else if 0x1008 ≤ x ∧ x < 0x1008 + 4 then (List.ofFn p.entropy.y_mode_probs)[x - 0x1008]?
        else t[x]? := by
  obtain ⟨t1, h1⟩ := memcpy_isSome t 0x1008 (List.ofFn p.entropy.y_mode_probs) 4
    (by omega) (by simp)
  have l1 := memcpy_length h1
  obtain ⟨t2, h2⟩ := memcpy_isSome t1 0x1010 (List.ofFn p.entropy.uv_mode_probs) 3
    (by omega) (by simp)
  have l2 := memcpy_length h2
  obtain ⟨t3, h3⟩ := memcpy_isSome t2 0x1018 (List.ofFn p.segment.segment_probs) 3
    (by omega) (by simp)
  have l3 := memcpy_length h3
  obtain ⟨t4, h4⟩ := store_isSome t3 0x101c p.prob_skip_false (by omega)
  have l4 := store_length h4
  obtain ⟨t5, h5⟩ := store_isSome t4 0x101d p.prob_intra (by omega)
  have l5 := store_length h5
  obtain ⟨t6, h6⟩ := store_isSome t5 0x101e p.prob_last (by omega)
  have l6 := store_length h6
  obtain ⟨t7, h7⟩ := store_isSome t6 0x101f p.prob_gf (by omega)
  have l7 := store_length h7
  obtain ⟨t8, h8⟩ := memcpy_isSome t7 0x1020 (List.ofFn (p.entropy.mv_probs 0))
    V4L2_VP8_MV_PROB_CNT (by simp only [V4L2_VP8_MV_PROB_CNT]; omega)
    (by simp [V4L2_VP8_MV_PROB_CNT])
  have l8 := memcpy_length h8
  obtain ⟨t9, h9⟩ := memcpy_isSome t8 0x1040 (List.ofFn (p.entropy.mv_probs 1))
    V4L2_VP8_MV_PROB_CNT (by simp only [V4L2_VP8_MV_PROB_CNT]; omega)
    (by simp [V4L2_VP8_MV_PROB_CNT])
  have l9 := memcpy_length h9
  obtain ⟨t', hl, hlen, hget⟩ := coeff_loops p.entropy.coeff_probs t9 (by omega)
  refine ⟨t', ?_, by omega, ?_⟩
  · unfold cedrus_vp8_update_probs
    rw [h1]; show (do let t ← memcpy t1 _ _ _; _) = _
    rw [h2]; show (do let t ← memcpy t2 _ _ _; _) = _
    rw [h3]; show (do let t ← store t3 _ _; _) = _
    rw [h4]; show (do let t ← store t4 _ _; _) = _
    rw [h5]; show (do let t ← store t5 _ _; _) = _
    rw [h6]; show (do let t ← store t6 _ _; _) = _
    rw [h7]; show (do let t ← memcpy t7 _ _ _; _) = _
    rw [h8]; show (do let t ← memcpy t8 _ _ _; _) = _
    rw [h9]
    exact hl
  · intro x
    rw [hget x, memcpy_get h9 x, memcpy_get h8 x, store_get h7 x, store_get h6 x,
      store_get h5 x, store_get h4 x, memcpy_get h3 x, memcpy_get h2 x, memcpy_get h1 x]
    rfl

/-! ## Lemmas on words and fields -/


theorem u32_eq_and (x : Nat) : u32 x = x &&& (2 ^ 32 - 1) := by
  unfold u32
  rw [Nat.and_pow_two_sub_one_eq_mod]

theorem testBit_GENMASK (h l i : Nat) :
    (GENMASK h l).testBit i = (decide (l ≤ i) && decide (i ≤ h)) := by
  unfold GENMASK
  rw [Nat.testBit_shiftLeft, Nat.testBit_two_pow_sub_one]
  by_cases h1 : l ≤ i <;> by_cases h2 : i ≤ h <;> simp [h1, h2] <;> omega

theorem testBit_put (f : Field) (v : Int) (i : Nat) (hf : f.hi < 64) :
    (f.put v).testBit i =
      (decide (f.lo ≤ i) && decide (i ≤ f.hi) && (to_ulong v).testBit (i - f.lo)) := by
  unfold Field.put SHIFT_AND_MASK_BITS BITS_PER_LONG
  rw [Nat.testBit_and, testBit_GENMASK, Nat.testBit_mod_two_pow, Nat.testBit_shiftLeft]
  by_cases h1 : f.lo ≤ i <;> by_cases h2 : i ≤ f.hi <;> simp [h1, h2]
  omega

theorem get_eq_and_mask (f : Field) (w : Nat) : f.get w = (w &&& f.mask) >>> f.lo := by
  apply Nat.eq_of_testBit_eq
  intro i
  unfold Field.get Field.mask Field.width
  rw [Nat.testBit_mod_two_pow, Nat.testBit_shiftRight, Nat.testBit_shiftRight, Nat.testBit_and,
    testBit_GENMASK]
  by_cases h1 : i < f.hi + 1 - f.lo
  · have : f.lo + i ≤ f.hi := by omega
    simp [h1, this]
  · have : ¬ f.lo + i ≤ f.hi := by omega
    simp [h1, this]

theorem put_shiftRight (f : Field) (v : Int) (hf : f.hi < 64) :
    (f.put v) >>> f.lo = to_ulong v % 2 ^ f.width := by
  apply Nat.eq_of_testBit_eq
  intro i
  rw [Nat.testBit_shiftRight, testBit_put f v _ hf, Nat.testBit_mod_two_pow]
  unfold Field.width
  by_cases h1 : i < f.hi + 1 - f.lo
  · have : f.lo + i ≤ f.hi := by omega
    simp [h1, this]
  · have : ¬ f.lo + i ≤ f.hi := by omega
    simp [h1, this]

theorem put_and_mask (f : Field) (v : Int) : f.put v &&& f.mask = f.put v := by
  unfold Field.put SHIFT_AND_MASK_BITS Field.mask
  rw [Nat.and_assoc, Nat.and_self]

theorem put_and_disjoint (f : Field) (v : Int) (m : Nat) (h : f.mask &&& m = 0) :
    f.put v &&& m = 0 := by
  unfold Field.put SHIFT_AND_MASK_BITS
  unfold Field.mask at h
  rw [Nat.and_assoc, h, Nat.and_zero]

theorem mask_lt (f : Field) (hf : f.hi < 32) : f.mask < 2 ^ 32 := by
  apply Nat.lt_pow_two_of_testBit
  intro i hi
  unfold Field.mask
  rw [testBit_GENMASK]
  have : ¬ i ≤ f.hi := by omega
  simp [this]

theorem and_u32_mask (m : Nat) (hm : m < 2 ^ 32) : (2 ^ 32 - 1) &&& m = m := by
  rw [Nat.and_comm, Nat.and_pow_two_sub_one_eq_mod, Nat.mod_eq_of_lt hm]

theorem or32_and (a b m : Nat) (hm : m < 2 ^ 32) :
    or32 a b &&& m = (a &&& m) ||| (b &&& m) := by
  unfold or32
  rw [u32_eq_and, Nat.and_assoc, and_u32_mask m hm, Nat.and_distrib_right]

theorem or32_if_and (c : Prop) [Decidable c] (a b m : Nat) (hm : m < 2 ^ 32) :
    or32_if c a b &&& m = (a &&& m) ||| (if c then b &&& m else 0) := by
  unfold or32_if
  by_cases h : c
  · simp only [h, if_true]; exact or32_and a b m hm
  · simp [h]

theorem mask_disjoint (f g : Field) (h : f.hi < g.lo ∨ g.hi < f.lo) :
    f.mask &&& g.mask = 0 := by
  apply Nat.eq_of_testBit_eq
  intro i
  unfold Field.mask
  rw [Nat.testBit_and, testBit_GENMASK, testBit_GENMASK, Nat.zero_testBit]
  by_cases h1 : f.lo ≤ i <;> by_cases h2 : i ≤ f.hi <;> by_cases h3 : g.lo ≤ i <;>
    by_cases h4 : i ≤ g.hi <;> simp [h1, h2, h3, h4]
  omega

theorem to_ulong_mod (v : Int) (n : Nat) (hn : n ≤ 64) :
    ((to_ulong v % 2 ^ n : Nat) : Int) = v % 2 ^ n := by
  unfold to_ulong BITS_PER_LONG
  have h64 : (0 : Int) < 2 ^ 64 := by positivity
  rw [Int.natCast_mod, Int.toNat_of_nonneg (Int.emod_nonneg _ (ne_of_gt h64))]
  push_cast
  apply Int.emod_emod_of_dvd
  exact pow_dvd_pow 2 hn

theorem sign_extend_to_ulong (v : Int) (n : Nat) (h1 : 1 ≤ n) (hn : n ≤ 64)
    (hlo : -(2 ^ (n - 1) : Int) ≤ v) (hhi : v < (2 ^ (n - 1) : Int)) :
    sign_extend n (to_ulong v % 2 ^ n) = v := by
  have hm := to_ulong_mod v n hn
  have hp : (2 : Int) ^ n = 2 * 2 ^ (n - 1) := by
    rw [← pow_succ']
    congr 1
    omega
  have hpos : (0 : Int) < 2 ^ (n - 1) := by positivity
  unfold sign_extend
  have hcast : ((to_ulong v % 2 ^ n : Nat) < 2 ^ (n - 1)) ↔
      (((to_ulong v % 2 ^ n : Nat) : Int) < 2 ^ (n - 1)) := by
    rw [← Nat.cast_lt (α := Int)]
    push_cast
    rfl
  by_cases hv : 0 ≤ v
  · have e : v % 2 ^ n = v := Int.emod_eq_of_lt hv (by omega)
    rw [e] at hm
    rw [if_pos (hcast.2 (by rw [hm]; exact hhi)), hm]
  · have e : v % 2 ^ n = v + 2 ^ n := by
      have : (v + 2 ^ n) % 2 ^ n = v + 2 ^ n := Int.emod_eq_of_lt (by omega) (by omega)
      rw [← this, Int.add_emod_self]
    rw [e] at hm
    rw [if_neg (fun h => by have := hcast.1 h; rw [hm] at this; omega), hm]
    omega

theorem to_ulong_natCast (x : Nat) (n : Nat) (hn : n ≤ 64) (hx : x < 2 ^ n) :
    to_ulong (x : Int) % 2 ^ n = x := by
  have hm := to_ulong_mod (x : Int) n hn
  have : ((x : Int)) % 2 ^ n = x := by
    apply Int.emod_eq_of_lt (by positivity)
    exact_mod_cast hx
  rw [this] at hm
  exact_mod_cast hm

theorem or_eq_zero (a b : Nat) : a ||| b = 0 ↔ a = 0 ∧ b = 0 := by
  constructor
  · intro h
    have hb : ∀ i, (a.testBit i || b.testBit i) = false := by
      intro i
      rw [← Nat.testBit_or, h, Nat.zero_testBit]
    constructor
    · apply Nat.eq_of_testBit_eq
      intro i
      have := hb i
      rw [Nat.zero_testBit]
      cases ha : a.testBit i
      · rfl
      · rw [ha] at this; simp at this
    · apply Nat.eq_of_testBit_eq
      intro i
      have := hb i
      rw [Nat.zero_testBit]
      cases hb' : b.testBit i
      · rfl
      · rw [hb'] at this; simp at this
  · rintro ⟨rfl, rfl⟩
    rfl

/-! ## Size of the baseline table -/

set_option maxRecDepth 4000 in
theorem pti_coeff_block0_length : pti_coeff_block0.length = 512 := by
  rfl

set_option maxRecDepth 4000 in
theorem pti_coeff_block1_length : pti_coeff_block1.length = 512 := by
  rfl

set_option maxRecDepth 4000 in
theorem pti_coeff_block2_length : pti_coeff_block2.length = 512 := by
  rfl

set_option maxRecDepth 4000 in
theorem pti_coeff_block3_length : pti_coeff_block3.length = 512 := by
  rfl

set_option maxRecDepth 4000 in
theorem pti_kf_y_mode_probs_length : pti_kf_y_mode_probs.length = 96 := by
  rfl

set_option maxRecDepth 4000 in
theorem pti_split_mv_probs_length : pti_split_mv_probs.length = 8 := by
  rfl

set_option maxRecDepth 4000 in
theorem pti_bmode_prob_length : pti_bmode_prob.length = 32 := by
  rfl

set_option maxRecDepth 4000 in
theorem pti_sub_mv_ref_prob_length : pti_sub_mv_ref_prob.length = 32 := by
  rfl

set_option maxRecDepth 4000 in
theorem pti_mv_counts_to_probs_length : pti_mv_counts_to_probs.length = 88 := by
  rfl

set_option maxRecDepth 4000 in
theorem pti_kf_y_mode_tree_length : pti_kf_y_mode_tree.length = 8 := by
  rfl

set_option maxRecDepth 4000 in
theorem pti_y_mode_tree_length : pti_y_mode_tree.length = 8 := by
  rfl

set_option maxRecDepth 4000 in
theorem pti_uv_mode_tree_length : pti_uv_mode_tree.length = 18 := by
  rfl

set_option maxRecDepth 4000 in
theorem pti_small_mv_tree_length : pti_small_mv_tree.length = 32 := by
  rfl

set_option maxRecDepth 4000 in
theorem pti_small_mv_tree_again_length : pti_small_mv_tree_again.length = 30 := by
  rfl

set_option maxRecDepth 4000 in
theorem pti_split_mv_tree_length : pti_split_mv_tree.length = 8 := by
  rfl

set_option maxRecDepth 4000 in
theorem pti_b_mode_tree_length : pti_b_mode_tree.length = 32 := by
  rfl

set_option maxRecDepth 4000 in
theorem pti_submv_ref_tree_length : pti_submv_ref_tree.length = 32 := by
  rfl

set_option maxRecDepth 4000 in
theorem pti_mv_ref_tree_length : pti_mv_ref_tree.length = 8 := by
  rfl

theorem prob_table_init_length : prob_table_init.length = 2480 := by
  unfold prob_table_init
  simp only [List.length_append, pti_coeff_block0_length, pti_coeff_block1_length, pti_coeff_block2_length, pti_coeff_block3_length, pti_kf_y_mode_probs_length, pti_split_mv_probs_length, pti_bmode_prob_length, pti_sub_mv_ref_prob_length, pti_mv_counts_to_probs_length, pti_kf_y_mode_tree_length, pti_y_mode_tree_length, pti_uv_mode_tree_length, pti_small_mv_tree_length, pti_small_mv_tree_again_length, pti_split_mv_tree_length, pti_b_mode_tree_length, pti_submv_ref_tree_length, pti_mv_ref_tree_length]

theorem start_table :
    ∃ buf : List Nat,
      memcpy (List.replicate CEDRUS_ENTROPY_PROBS_SIZE 0) 2048 prob_table_init
        prob_table_init.length = some buf ∧
      buf.length = 0x2400 ∧
      ∀ x, buf[x]? =
        if 2048 ≤ x ∧ x < 2048 + 2480 then prob_table_init[x - 2048]?
        else if x < 0x2400 then some 0 else none := by
  generalize hT : prob_table_init = T
  have hTl : T.length = 2480 := by rw [← hT]; exact prob_table_init_length
  unfold CEDRUS_ENTROPY_PROBS_SIZE
  obtain ⟨buf, hb⟩ := memcpy_isSome (List.replicate 0x2400 0) 2048 T T.length
    (by rw [hTl, List.length_replicate]; decide) (Nat.le_refl _)
  refine ⟨buf, hb, ?_, ?_⟩
  · rw [memcpy_length hb, List.length_replicate]
  · intro x
    rw [memcpy_get hb x, hTl, List.getElem?_replicate]

/-! ## Lemmas on the header replay -/

theorem forLoop_inv {σ : Type} (n : Nat) (body : Nat → σ → σ) (s : σ) (P : σ → Prop)
    (h0 : P s) (hstep : ∀ i, i < n → ∀ s, P s → P (body i s)) : P (forLoop n body s) := by
  induction n with
  | zero => exact h0
  | succ n ih =>
    exact hstep n (Nat.lt_succ_self n) _ (ih (fun i hi => hstep i (Nat.lt_succ_of_lt hi)))

theorem replay_half (K : cedrus_hdr) (hw : Engine) (d d' : cedrus_dev) (b : Nat)
    (hb : 1 ≤ b ∧ b ≤ 8) (h : Replay K hw d d') :
    Replay K hw d (read_bits K hw d' b VP8_PROB_HALF).2 :=
  Replay.step_read d' b VP8_PROB_HALF h hb.1 hb.2 (Or.inl rfl)

theorem replay_ite (K : cedrus_hdr) (hw : Engine) (d : cedrus_dev) (c : Prop) [Decidable c]
    (a b : cedrus_dev) (ha : Replay K hw d a) (hb : Replay K hw d b) :
    Replay K hw d (if c then a else b) := by
  by_cases h : c
  · rw [if_pos h]; exact ha
  · rw [if_neg h]; exact hb

theorem replay_flag_two (K : cedrus_hdr) (hw : Engine) (d d' : cedrus_dev) (b : Nat)
    (hb : 1 ≤ b ∧ b ≤ 8) (h : Replay K hw d d') :
    Replay K hw d
      (if (read_bits K hw d' 1 VP8_PROB_HALF).1 ≠ 0 then
        (read_bits K hw (read_bits K hw (read_bits K hw d' 1 VP8_PROB_HALF).2 b VP8_PROB_HALF).2
          1 VP8_PROB_HALF).2
      else (read_bits K hw d' 1 VP8_PROB_HALF).2) := by
  have h1 := replay_half K hw d d' 1 (by decide) h
  exact replay_ite K hw d _ _ _
    (replay_half K hw d _ 1 (by decide) (replay_half K hw d _ b hb h1)) h1

theorem replay_flag_one (K : cedrus_hdr) (hw : Engine) (d d' : cedrus_dev) (b : Nat)
    (hb : 1 ≤ b ∧ b ≤ 8) (h : Replay K hw d d') :
    Replay K hw d
      (if (read_bits K hw d' 1 VP8_PROB_HALF).1 ≠ 0 then
        (read_bits K hw (read_bits K hw d' 1 VP8_PROB_HALF).2 b VP8_PROB_HALF).2
      else (read_bits K hw d' 1 VP8_PROB_HALF).2) := by
  have h1 := replay_half K hw d d' 1 (by decide) h
  exact replay_ite K hw d _ _ _ (replay_half K hw d _ b hb h1) h1

theorem replay_get_delta_q (K : cedrus_hdr) (hw : Engine) (d d' : cedrus_dev)
    (h : Replay K hw d d') : Replay K hw d (get_delta_q K hw d') := by
  unfold get_delta_q
  exact replay_flag_two K hw d d' 4 (by decide) h

theorem replay_process_segmentation_info (K : cedrus_hdr) (hw : Engine) (d d' : cedrus_dev)
    (h : Replay K hw d d') : Replay K hw d (process_segmentation_info K hw d') := by
  unfold process_segmentation_info
  have h1 := replay_half K hw d d' 1 (by decide) h
  have h2 := replay_half K hw d _ 1 (by decide) h1
  have h3 := replay_half K hw d _ 1 (by decide) h2
  have h4 := forLoop_inv 4 (fun _ dev =>
      let r := read_bits K hw dev 1 VP8_PROB_HALF
      if r.1 ≠ 0 then
        let dev := (read_bits K hw r.2 7 VP8_PROB_HALF).2
        (read_bits K hw dev 1 VP8_PROB_HALF).2
      else r.2) _ (Replay K hw d) h3
    (fun _ _ s hs => replay_flag_two K hw d s 7 (by decide) hs)
  have h5 := forLoop_inv 4 (fun _ dev =>
      let r := read_bits K hw dev 1 VP8_PROB_HALF
      if r.1 ≠ 0 then
        let dev := (read_bits K hw r.2 6 VP8_PROB_HALF).2
        (read_bits K hw dev 1 VP8_PROB_HALF).2
      else r.2) _ (Replay K hw d) h4
    (fun _ _ s hs => replay_flag_two K hw d s 6 (by decide) hs)
  have h6 := replay_ite K hw d
    ((read_bits K hw (read_bits K hw d' 1 VP8_PROB_HALF).2 1 VP8_PROB_HALF).1 ≠ 0) _ _ h5 h2
  refine replay_ite K hw d _ _ _ ?_ h6
  exact forLoop_inv 3 _ _ (Replay K hw d) h6
    (fun _ _ s hs => replay_flag_one K hw d s 8 (by decide) hs)

theorem replay_process_ref_lf_delta_info (K : cedrus_hdr) (hw : Engine) (d d' : cedrus_dev)
    (h : Replay K hw d d') : Replay K hw d (process_ref_lf_delta_info K hw d') := by
  unfold process_ref_lf_delta_info
  have h1 := replay_half K hw d d' 1 (by decide) h
  refine replay_ite K hw d _ _ _ ?_ h1
  refine forLoop_inv 4 _ _ (Replay K hw d) ?_
    (fun _ _ s hs => replay_flag_two K hw d s 6 (by decide) hs)
  exact forLoop_inv 4 _ _ (Replay K hw d) h1
    (fun _ _ s hs => replay_flag_two K hw d s 6 (by decide) hs)

theorem replay_process_ref_frame_info (K : cedrus_hdr) (hw : Engine) (d d' : cedrus_dev)
    (h : Replay K hw d d') : Replay K hw d (process_ref_frame_info K hw d') := by
  unfold process_ref_frame_info
  have h1 := replay_half K hw d d' 1 (by decide) h
  have h2 := replay_half K hw d _ 1 (by decide) h1
  have h3 := replay_ite K hw d ((read_bits K hw d' 1 VP8_PROB_HALF).1 = 0) _ _
    (replay_half K hw d _ 2 (by decide) h2) h2
  have h4 := replay_ite K hw d
    ((read_bits K hw (read_bits K hw d' 1 VP8_PROB_HALF).2 1 VP8_PROB_HALF).1 = 0) _ _
    (replay_half K hw d _ 2 (by decide) h3) h3
  exact replay_half K hw d _ 1 (by decide) (replay_half K hw d _ 1 (by decide) h4)

theorem replay_flag_call (K : cedrus_hdr) (hw : Engine) (d d' : cedrus_dev)
    (f : cedrus_dev → cedrus_dev) (hf : ∀ s, Replay K hw d s → Replay K hw d (f s))
    (h : Replay K hw d d') :
    Replay K hw d
      (if (read_bits K hw d' 1 VP8_PROB_HALF).1 ≠ 0 then
        f (read_bits K hw d' 1 VP8_PROB_HALF).2
      else (read_bits K hw d' 1 VP8_PROB_HALF).2) := by
  have h1 := replay_half K hw d d' 1 (by decide) h
  exact replay_ite K hw d _ _ _ (hf _ h1) h1

theorem replay_cond (K : cedrus_hdr) (hw : Engine) (d d' : cedrus_dev) (c : Bool)
    (f : cedrus_dev → cedrus_dev) (hf : ∀ s, Replay K hw d s → Replay K hw d (f s))
    (h : Replay K hw d d') :
    Replay K hw d (if c = true then f d' else d') :=
  replay_ite K hw d _ _ _ (hf _ h) h

theorem replay_cedrus_read_header (K : cedrus_hdr) (hw : Engine) (d d' : cedrus_dev)
    (slice : v4l2_ctrl_vp8_frame) (h : Replay K hw d d') :
    Replay K hw d (cedrus_read_header K hw d' slice) := by
  unfold cedrus_read_header
  generalize V4L2_VP8_FRAME_IS_KEY_FRAME K slice = key
  have a1 := replay_cond K hw d d' key
    (fun s => (read_bits K hw (read_bits K hw s 1 VP8_PROB_HALF).2 1 VP8_PROB_HALF).2)
    (fun s hs => replay_half K hw d _ 1 (by decide) (replay_half K hw d s 1 (by decide) hs)) h
  have a2 := replay_flag_call K hw d _ (process_segmentation_info K hw)
    (fun s hs => replay_process_segmentation_info K hw d s hs) a1
  have a3 := replay_half K hw d _ 3 (by decide)
    (replay_half K hw d _ 6 (by decide) (replay_half K hw d _ 1 (by decide) a2))
  have a4 := replay_flag_call K hw d _ (process_ref_lf_delta_info K hw)
    (fun s hs => replay_process_ref_lf_delta_info K hw d s hs) a3
  have a5 := forLoop_inv QUANT_DELTA_COUNT (fun _ dev => get_delta_q K hw dev) _
    (Replay K hw d)
    (replay_half K hw d _ 7 (by decide) (replay_half K hw d _ 2 (by decide) a4))
    (fun _ _ s hs => replay_get_delta_q K hw d s hs)
  have a6 := replay_cond K hw d _ (!key) (process_ref_frame_info K hw)
    (fun s hs => replay_process_ref_frame_info K hw d s hs) a5
  have a7 := replay_cond K hw d _ (!key) (fun s => (read_bits K hw s 1 VP8_PROB_HALF).2)
    (fun s hs => replay_half K hw d s 1 (by decide) hs)
    (replay_half K hw d _ 1 (by decide) a6)
  have a8 := replay_flag_one K hw d _ 8 (by decide) (Replay.step_update _ a7)
  refine replay_ite K hw d _ _ _ ?_ a8
  have b1 := replay_half K hw d _ 8 (by decide)
    (replay_half K hw d _ 8 (by decide) (replay_half K hw d _ 8 (by decide) a8))
  have b2 := replay_flag_call K hw d _
    (fun s => (read_bits K hw (read_bits K hw (read_bits K hw
      (read_bits K hw s 8 VP8_PROB_HALF).2 8 VP8_PROB_HALF).2 8 VP8_PROB_HALF).2 8
      VP8_PROB_HALF).2)
    (fun s hs => replay_half K hw d _ 8 (by decide) (replay_half K hw d _ 8 (by decide)
      (replay_half K hw d _ 8 (by decide) (replay_half K hw d s 8 (by decide) hs)))) b1
  have b3 := replay_flag_call K hw d _
    (fun s => (read_bits K hw (read_bits K hw
      (read_bits K hw s 8 VP8_PROB_HALF).2 8 VP8_PROB_HALF).2 8 VP8_PROB_HALF).2)
    (fun s hs => replay_half K hw d _ 8 (by decide) (replay_half K hw d _ 8 (by decide)
      (replay_half K hw d s 8 (by decide) hs))) b2
  refine forLoop_inv 2 _ _ (Replay K hw d) b3 ?_
  intro i hi s hs
  refine forLoop_inv V4L2_VP8_MV_PROB_CNT _ _ (Replay K hw d) hs ?_
  intro j hj s hs
  have c1 : Replay K hw d (read_bits K hw s 1 (k_mv_entropy_update_probs_at i j)).2 :=
    Replay.step_read s 1 _ hs (by decide) (by decide) (Or.inr ⟨i, j, hi, hj, rfl⟩)
  exact replay_ite K hw d _ _ _ (replay_half K hw d _ 7 (by decide) c1) c1

theorem replay_trans (K : cedrus_hdr) (hw : Engine) (d d' d'' : cedrus_dev)
    (h1 : Replay K hw d d') (h2 : Replay K hw d' d'') : Replay K hw d d'' := by
  induction h2 with
  | start => exact h1
  | step_read s b p _ hb1 hb2 hp ih => exact Replay.step_read s b p ih hb1 hb2 hp
  | step_update s _ ih => exact Replay.step_update s ih

theorem replay_regs (K : cedrus_hdr) (hw : Engine) (d d' : cedrus_dev)
    (h : Replay K hw d d') (r : Reg) (h1 : r ≠ Reg.VE_H264_TRIGGER_TYPE)
    (h2 : r ≠ Reg.VE_H264_STATUS) : d'.regs r = d.regs r := by
  induction h with
  | start => rfl
  | step_read s b p _ _ _ _ ih =>
    rw [← ih]
    simp [read_bits, cedrus_read, cedrus_wait_for, cedrus_write, h1]
  | step_update s _ ih =>
    rw [← ih]
    simp [cedrus_irq_clear, cedrus_wait_for, cedrus_write, h1, h2]

/-! ## Lemmas on frame setup -/

theorem u32_u32 (x : Nat) : u32 (u32 x) = u32 x := by
  unfold u32
  exact Nat.mod_mod _ _

theorem cedrus_write_regs (d : cedrus_dev) (r : Reg) (v : Nat) (r' : Reg) :
    (cedrus_write d r v).regs r' = if r' = r then u32 v else d.regs r' := rfl

theorem cedrus_read_header_regs (K : cedrus_hdr) (hw : Engine) (d : cedrus_dev)
    (slice : v4l2_ctrl_vp8_frame) (r : Reg) (h1 : r ≠ Reg.VE_H264_TRIGGER_TYPE)
    (h2 : r ≠ Reg.VE_H264_STATUS) : (cedrus_read_header K hw d slice).regs r = d.regs r :=
  replay_regs K hw d _ (replay_cedrus_read_header K hw d d slice Replay.start) r h1 h2

theorem vp8_set_ref_regs (bufs : cedrus_bufs) (d : cedrus_dev) (ts : Nat) (luma chroma : Reg)
    (r : Reg) :
    (vp8_set_ref bufs d ts luma chroma).regs r =
      if r = chroma then
        (if bufs.vb2_find_timestamp ts ≥ 0 then
          u32 (bufs.cedrus_dst_buf_addr (bufs.vb2_find_timestamp ts) 1) else 0)
      else if r = luma then
        (if bufs.vb2_find_timestamp ts ≥ 0 then
          u32 (bufs.cedrus_dst_buf_addr (bufs.vb2_find_timestamp ts) 0) else 0)
      else d.regs r := by
  unfold vp8_set_ref
  by_cases hq : bufs.vb2_find_timestamp ts ≥ 0
  · simp only [hq, if_true, cedrus_write_regs]
  · simp only [hq, if_false, cedrus_write_regs]
    have : u32 0 = 0 := rfl
    rw [this]

theorem vp8_save_hints_buf (K : cedrus_hdr) (ctx : cedrus_vp8_ctx)
    (slice : v4l2_ctrl_vp8_frame) :
    (vp8_save_hints K ctx slice).entropy_probs_buf = ctx.entropy_probs_buf := by
  unfold vp8_save_hints
  split <;> rfl

/-- Outcome of `cedrus_vp8_setup` on a session whose table has the allocated
size: the call succeeds, the session state is the hint update applied to the
session with the updated table, and the registers of interest hold the words
computed from the frame and the previous hints. -/
theorem setup_outcome (K : cedrus_hdr) (bufs : cedrus_bufs) (hw : Engine)
    (ctx : cedrus_vp8_ctx) (run : cedrus_run) (dev : cedrus_dev) (buf : List Nat)
    (hb : ctx.entropy_probs_buf = some buf) (hl : buf.length = CEDRUS_ENTROPY_PROBS_SIZE) :
    ∃ buf' dev',
      cedrus_vp8_update_probs run.frame_params buf = some buf' ∧
      buf'.length = CEDRUS_ENTROPY_PROBS_SIZE ∧
      cedrus_vp8_setup K bufs hw ctx run dev =
        some (vp8_save_hints K { ctx with entropy_probs_buf := some buf' } run.frame_params,
          dev') ∧
      dev'.regs Reg.VE_VP8_PPS = u32 (vp8_pps K ctx run.frame_params) ∧
      dev'.regs Reg.VE_VP8_QP_INDEX_DELTA =
        u32 (vp8_qp_index_delta K run.frame_params.quant) ∧
      dev'.regs Reg.VE_H264_VLD_OFFSET =
        u32 ((if V4L2_VP8_FRAME_IS_KEY_FRAME K run.frame_params then 10 else 3) * 8) ∧
      dev'.regs Reg.VE_VP8_PART_SIZE_OFFSET =
        u32 (run.frame_params.first_part_size +
          (if V4L2_VP8_FRAME_IS_KEY_FRAME K run.frame_params then 10 else 3)) ∧
      dev'.regs Reg.VE_VP8_FWD_LUMA =
        (vp8_set_ref bufs dev run.frame_params.last_frame_ts Reg.VE_VP8_FWD_LUMA
          Reg.VE_VP8_FWD_CHROMA).regs Reg.VE_VP8_FWD_LUMA ∧
      dev'.regs Reg.VE_VP8_FWD_CHROMA =
        (vp8_set_ref bufs dev run.frame_params.last_frame_ts Reg.VE_VP8_FWD_LUMA
          Reg.VE_VP8_FWD_CHROMA).regs Reg.VE_VP8_FWD_CHROMA ∧
      dev'.regs Reg.VE_VP8_BWD_LUMA =
        (vp8_set_ref bufs dev run.frame_params.golden_frame_ts Reg.VE_VP8_BWD_LUMA
          Reg.VE_VP8_BWD_CHROMA).regs Reg.VE_VP8_BWD_LUMA ∧
      dev'.regs Reg.VE_VP8_BWD_CHROMA =
        (vp8_set_ref bufs dev run.frame_params.golden_frame_ts Reg.VE_VP8_BWD_LUMA
          Reg.VE_VP8_BWD_CHROMA).regs Reg.VE_VP8_BWD_CHROMA ∧
      dev'.regs Reg.VE_VP8_ALT_LUMA =
        (vp8_set_ref bufs dev run.frame_params.alt_frame_ts Reg.VE_VP8_ALT_LUMA
          Reg.VE_VP8_ALT_CHROMA).regs Reg.VE_VP8_ALT_LUMA ∧
      dev'.regs Reg.VE_VP8_ALT_CHROMA =
        (vp8_set_ref bufs dev run.frame_params.alt_frame_ts Reg.VE_VP8_ALT_LUMA
          Reg.VE_VP8_ALT_CHROMA).regs Reg.VE_VP8_ALT_CHROMA := by
  obtain ⟨buf', hrun, hlen', -⟩ := update_probs_get run.frame_params buf
    (by rw [hl]; decide)
  refine ⟨buf', ?_⟩
  apply Exists.intro
  refine ⟨hrun, by rw [hlen', hl], ?_, ?_⟩
  · unfold cedrus_vp8_setup
    simp only [hb, Option.some_bind, hrun]
    rfl
  · simp only [cedrus_write_regs, vp8_set_ref_regs, cedrus_read_header_regs, u32_u32,
      ne_eq, reduceCtorEq, not_false_eq_true, if_true, if_false, and_self]
    simp [vp8_pps]

/-! ## Lemmas on the picture-parameter and quantizer words -/

theorem ite_and (c : Prop) [Decidable c] (a b m : Nat) :
    (if c then a else b) &&& m = if c then a &&& m else b &&& m := by
  split <;> rfl

theorem disjoint_of_pairwise (l : List Nat) (h : l.Pairwise disjoint_masks) (t : Nat)
    (ht : t < l.length) : ∀ a ∈ l.eraseIdx t, a &&& l[t] = 0 := by
  intro a ha
  rw [List.mem_eraseIdx_iff_getElem] at ha
  obtain ⟨i, hi, hne, rfl⟩ := ha
  rw [List.pairwise_iff_getElem] at h
  rcases Nat.lt_or_gt_of_ne hne with c | c
  · exact (h i t hi ht c).1
  · exact (h t i ht hi c).2

theorem u32_and (x m : Nat) (hm : m < 2 ^ 32) : u32 x &&& m = x &&& m := by
  rw [u32_eq_and, Nat.and_assoc, and_u32_mask m hm]

theorem vp8_pps_hints (K : cedrus_hdr) (c1 c2 : cedrus_vp8_ctx) (slice : v4l2_ctrl_vp8_frame)
    (h1 : c1.last_filter_type = c2.last_filter_type)
    (h2 : c1.last_frame_p_type = c2.last_frame_p_type)
    (h3 : c1.last_sharpness_level = c2.last_sharpness_level) :
    vp8_pps K c1 slice = vp8_pps K c2 slice := by
  unfold vp8_pps
  rw [h1, h2, h3]

theorem pps_last_filter_bit (K : cedrus_hdr) (hK : pps_wf K) (ctx : cedrus_vp8_ctx)
    (slice : v4l2_ctrl_vp8_frame) :
    vp8_pps K ctx slice &&& K.VE_VP8_PPS_LAST_LOOP_FILTER_SIMPLE =
      if ctx.last_filter_type ≠ 0 then K.VE_VP8_PPS_LAST_LOOP_FILTER_SIMPLE else 0 := by
  have hm : K.VE_VP8_PPS_LAST_LOOP_FILTER_SIMPLE < 2 ^ 32 :=
    (hK.1 _ (by simp [pps_masks])).2
  have H := disjoint_of_pairwise (pps_masks K) hK.2.1 13 (by show 13 < 21; decide)
  simp only [pps_masks, List.eraseIdx, List.mem_cons, forall_eq_or_imp, forall_eq,
    List.getElem_cons_succ, List.getElem_cons_zero, List.not_mem_nil, false_implies,
    implies_true, and_true] at H
  simp only [vp8_pps, or32_and _ _ _ hm, or32_if_and _ _ _ _ hm, ite_and, H,
    put_and_disjoint, Nat.zero_and, Nat.or_zero, Nat.zero_or, ite_self, Nat.and_self]

theorem pps_last_p_type_bit (K : cedrus_hdr) (hK : pps_wf K) (ctx : cedrus_vp8_ctx)
    (slice : v4l2_ctrl_vp8_frame) :
    vp8_pps K ctx slice &&& K.VE_VP8_PPS_LAST_PIC_TYPE_P_FRAME =
      if ctx.last_frame_p_type ≠ 0 then K.VE_VP8_PPS_LAST_PIC_TYPE_P_FRAME else 0 := by
  have hm : K.VE_VP8_PPS_LAST_PIC_TYPE_P_FRAME < 2 ^ 32 :=
    (hK.1 _ (by simp [pps_masks])).2
  have H := disjoint_of_pairwise (pps_masks K) hK.2.1 2 (by show 2 < 21; decide)
  simp only [pps_masks, List.eraseIdx, List.mem_cons, forall_eq_or_imp, forall_eq,
    List.getElem_cons_succ, List.getElem_cons_zero, List.not_mem_nil, false_implies,
    implies_true, and_true] at H
  simp only [vp8_pps, or32_and _ _ _ hm, or32_if_and _ _ _ _ hm, ite_and, H,
    put_and_disjoint, Nat.zero_and, Nat.or_zero, Nat.zero_or, ite_self, Nat.and_self]

theorem pps_last_sharpness_field (K : cedrus_hdr) (hK : pps_wf K) (ctx : cedrus_vp8_ctx)
    (slice : v4l2_ctrl_vp8_frame) :
    K.VE_VP8_PPS_LAST_SHARPNESS_LEVEL.get (u32 (vp8_pps K ctx slice)) =
      ctx.last_sharpness_level % 2 ^ K.VE_VP8_PPS_LAST_SHARPNESS_LEVEL.width := by
  have hv : K.VE_VP8_PPS_LAST_SHARPNESS_LEVEL.valid := hK.2.2.1
  have hm : K.VE_VP8_PPS_LAST_SHARPNESS_LEVEL.mask < 2 ^ 32 := mask_lt _ hv.2
  have H := disjoint_of_pairwise (pps_masks K) hK.2.1 1 (by show 1 < 21; decide)
  simp only [pps_masks, List.eraseIdx, List.mem_cons, forall_eq_or_imp, forall_eq,
    List.getElem_cons_succ, List.getElem_cons_zero, List.not_mem_nil, false_implies,
    implies_true, and_true] at H
  have hw : vp8_pps K ctx slice &&& K.VE_VP8_PPS_LAST_SHARPNESS_LEVEL.mask =
      K.VE_VP8_PPS_LAST_SHARPNESS_LEVEL.put ctx.last_sharpness_level := by
    simp only [vp8_pps, or32_and _ _ _ hm, or32_if_and _ _ _ _ hm, ite_and, H,
      put_and_disjoint, put_and_mask, Nat.zero_and, Nat.or_zero, Nat.zero_or, ite_self]
  have hw64 : K.VE_VP8_PPS_LAST_SHARPNESS_LEVEL.hi < 64 := by have := hv.2; omega
  rw [get_eq_and_mask, u32_and _ _ hm, hw, put_shiftRight _ _ hw64]
  have hwd : K.VE_VP8_PPS_LAST_SHARPNESS_LEVEL.width ≤ 64 := by
    unfold Field.width; omega
  have h1 := to_ulong_mod (ctx.last_sharpness_level : Int) _ hwd
  have h2 : ((ctx.last_sharpness_level % 2 ^ K.VE_VP8_PPS_LAST_SHARPNESS_LEVEL.width : Nat) :
      Int) = (ctx.last_sharpness_level : Int) % 2 ^ K.VE_VP8_PPS_LAST_SHARPNESS_LEVEL.width := by
    push_cast
    rfl
  exact_mod_cast h1.trans h2.symm

theorem qp_masks_pairwise (K : cedrus_hdr) (hK : qp_wf K) :
    ((qp_fields K).map Field.mask).Pairwise disjoint_masks := by
  rw [List.pairwise_map]
  refine List.Pairwise.imp ?_ hK.2
  intro f g h
  exact ⟨mask_disjoint f g h, mask_disjoint g f (Or.symm h)⟩

theorem qp_field_word (K : cedrus_hdr) (hK : qp_wf K) (q : v4l2_vp8_quantization) :
    vp8_qp_index_delta K q &&& K.VE_VP8_QP_INDEX_DELTA_UVAC.mask =
      K.VE_VP8_QP_INDEX_DELTA_UVAC.put q.uv_ac_delta ∧
    vp8_qp_index_delta K q &&& K.VE_VP8_QP_INDEX_DELTA_UVDC.mask =
      K.VE_VP8_QP_INDEX_DELTA_UVDC.put q.uv_dc_delta ∧
    vp8_qp_index_delta K q &&& K.VE_VP8_QP_INDEX_DELTA_Y2AC.mask =
      K.VE_VP8_QP_INDEX_DELTA_Y2AC.put q.y2_ac_delta ∧
    vp8_qp_index_delta K q &&& K.VE_VP8_QP_INDEX_DELTA_Y2DC.mask =
      K.VE_VP8_QP_INDEX_DELTA_Y2DC.put q.y2_dc_delta ∧
    vp8_qp_index_delta K q &&& K.VE_VP8_QP_INDEX_DELTA_Y1DC.mask =
      K.VE_VP8_QP_INDEX_DELTA_Y1DC.put q.y_dc_delta ∧
    vp8_qp_index_delta K q &&& K.VE_VP8_QP_INDEX_DELTA_BASE_QINDEX.mask =
      K.VE_VP8_QP_INDEX_DELTA_BASE_QINDEX.put q.y_ac_qi := by
  have hp := qp_masks_pairwise K hK
  have hv := hK.1
  simp only [qp_fields, List.mem_cons, forall_eq_or_imp, forall_eq, List.not_mem_nil,
    false_implies, implies_true, and_true] at hv
  obtain ⟨v0, v1, v2, v3, v4, v5⟩ := hv
  have m0 := mask_lt _ v0.2
  have m1 := mask_lt _ v1.2
  have m2 := mask_lt _ v2.2
  have m3 := mask_lt _ v3.2
  have m4 := mask_lt _ v4.2
  have m5 := mask_lt _ v5.2
  have H0 := disjoint_of_pairwise _ hp 0 (by show 0 < 6; decide)
  have H1 := disjoint_of_pairwise _ hp 1 (by show 1 < 6; decide)
  have H2 := disjoint_of_pairwise _ hp 2 (by show 2 < 6; decide)
  have H3 := disjoint_of_pairwise _ hp 3 (by show 3 < 6; decide)
  have H4 := disjoint_of_pairwise _ hp 4 (by show 4 < 6; decide)
  have H5 := disjoint_of_pairwise _ hp 5 (by show 5 < 6; decide)
  simp only [qp_fields, List.map, List.eraseIdx, List.mem_cons, forall_eq_or_imp, forall_eq,
    List.getElem_cons_succ, List.getElem_cons_zero, List.not_mem_nil, false_implies,
    implies_true, and_true] at H0 H1 H2 H3 H4 H5
  refine ⟨?_, ?_, ?_, ?_, ?_, ?_⟩
  · simp only [vp8_qp_index_delta, or32_and _ _ _ m0, H0, put_and_disjoint, put_and_mask,
      Nat.zero_and, Nat.or_zero, Nat.zero_or]
  · simp only [vp8_qp_index_delta, or32_and _ _ _ m1, H1, put_and_disjoint, put_and_mask,
      Nat.zero_and, Nat.or_zero, Nat.zero_or]
  · simp only [vp8_qp_index_delta, or32_and _ _ _ m2, H2, put_and_disjoint, put_and_mask,
      Nat.zero_and, Nat.or_zero, Nat.zero_or]
  · simp only [vp8_qp_index_delta, or32_and _ _ _ m3, H3, put_and_disjoint, put_and_mask,
      Nat.zero_and, Nat.or_zero, Nat.zero_or]
  · simp only [vp8_qp_index_delta, or32_and _ _ _ m4, H4, put_and_disjoint, put_and_mask,
      Nat.zero_and, Nat.or_zero, Nat.zero_or]
  · simp only [vp8_qp_index_delta, or32_and _ _ _ m5, H5, put_and_disjoint, put_and_mask,
      Nat.zero_and, Nat.or_zero, Nat.zero_or]

theorem get_signed_of_word (f : Field) (hf : f.valid) (w : Nat) (v : Int)
    (hw : w &&& f.mask = f.put v) (hv : f.fits_signed v) : f.get_signed w = v := by
  have h64 : f.hi < 64 := by have := hf.2; omega
  have hwd1 : 1 ≤ f.width := by have := hf.1; unfold Field.width; omega
  have hwd2 : f.width ≤ 64 := by unfold Field.width; omega
  unfold Field.get_signed
  rw [get_eq_and_mask, hw, put_shiftRight _ _ h64]
  exact sign_extend_to_ulong v f.width hwd1 hwd2 hv.1 hv.2

theorem get_of_word (f : Field) (hf : f.valid) (w : Nat) (x : Nat)
    (hw : w &&& f.mask = f.put x) (hx : x < 2 ^ f.width) : f.get w = x := by
  have h64 : f.hi < 64 := by have := hf.2; omega
  have hwd2 : f.width ≤ 64 := by unfold Field.width; omega
  rw [get_eq_and_mask, hw, put_shiftRight _ _ h64]
  exact to_ulong_natCast x f.width hwd2 hx

theorem or32_lt (a b : Nat) : or32 a b < 2 ^ 32 := by
  unfold or32 u32
  exact Nat.mod_lt _ (by decide)


theorem pps_filter_type_simple_bit (K : cedrus_hdr) (hK : pps_wf K) (ctx : cedrus_vp8_ctx)
    (slice : v4l2_ctrl_vp8_frame) :
    vp8_pps K ctx slice &&& K.VE_VP8_PPS_FILTER_TYPE_SIMPLE =
      if slice.version = 1 then K.VE_VP8_PPS_FILTER_TYPE_SIMPLE else 0 := by
  have hm : K.VE_VP8_PPS_FILTER_TYPE_SIMPLE < 2 ^ 32 :=
    (hK.1 _ (by simp [pps_masks])).2
  have H := disjoint_of_pairwise (pps_masks K) hK.2.1 19 (by show 19 < 21; decide)
  simp only [pps_masks, List.eraseIdx, List.mem_cons, forall_eq_or_imp, forall_eq,
    List.getElem_cons_succ, List.getElem_cons_zero, List.not_mem_nil, false_implies,
    implies_true, and_true] at H
  simp only [vp8_pps, or32_and _ _ _ hm, or32_if_and _ _ _ _ hm, ite_and, H,
    put_and_disjoint, Nat.zero_and, Nat.or_zero, Nat.zero_or, ite_self, Nat.and_self]

theorem pps_lpf_disable_bit (K : cedrus_hdr) (hK : pps_wf K) (ctx : cedrus_vp8_ctx)
    (slice : v4l2_ctrl_vp8_frame) :
    vp8_pps K ctx slice &&& K.VE_VP8_PPS_LPF_DISABLE =
      if slice.version = 2 ∨ slice.version = 3 then K.VE_VP8_PPS_LPF_DISABLE else 0 := by
  have hm : K.VE_VP8_PPS_LPF_DISABLE < 2 ^ 32 :=
    (hK.1 _ (by simp [pps_masks])).2
  have H := disjoint_of_pairwise (pps_masks K) hK.2.1 20 (by show 20 < 21; decide)
  simp only [pps_masks, List.eraseIdx, List.mem_cons, forall_eq_or_imp, forall_eq,
    List.getElem_cons_succ, List.getElem_cons_zero, List.not_mem_nil, false_implies,
    implies_true, and_true] at H
  simp only [vp8_pps, or32_and _ _ _ hm, or32_if_and _ _ _ _ hm, ite_and, H,
    put_and_disjoint, Nat.zero_and, Nat.or_zero, Nat.zero_or, ite_self, Nat.and_self]
  split_ifs <;> first | rfl | omega

theorem pps_bilinear_bit (K : cedrus_hdr) (hK : pps_wf K) (ctx : cedrus_vp8_ctx)
    (slice : v4l2_ctrl_vp8_frame) :
    vp8_pps K ctx slice &&& K.VE_VP8_PPS_BILINEAR_MC_FILTER =
      if slice.version = 1 ∨ slice.version = 2 then K.VE_VP8_PPS_BILINEAR_MC_FILTER else 0 := by
  have hm : K.VE_VP8_PPS_BILINEAR_MC_FILTER < 2 ^ 32 :=
    (hK.1 _ (by simp [pps_masks])).2
  have H := disjoint_of_pairwise (pps_masks K) hK.2.1 18 (by show 18 < 21; decide)
  simp only [pps_masks, List.eraseIdx, List.mem_cons, forall_eq_or_imp, forall_eq,
    List.getElem_cons_succ, List.getElem_cons_zero, List.not_mem_nil, false_implies,
    implies_true, and_true] at H
  simp only [vp8_pps, or32_and _ _ _ hm, or32_if_and _ _ _ _ hm, ite_and, H,
    put_and_disjoint, Nat.zero_and, Nat.or_zero, Nat.zero_or, ite_self, Nat.and_self]
  split_ifs <;> first | rfl | omega

theorem pps_full_pixel_bit (K : cedrus_hdr) (hK : pps_wf K) (ctx : cedrus_vp8_ctx)
    (slice : v4l2_ctrl_vp8_frame) :
    vp8_pps K ctx slice &&& K.VE_VP8_PPS_FULL_PIXEL =
      if slice.version = 3 then K.VE_VP8_PPS_FULL_PIXEL else 0 := by
  have hm : K.VE_VP8_PPS_FULL_PIXEL < 2 ^ 32 :=
    (hK.1 _ (by simp [pps_masks])).2
  have H := disjoint_of_pairwise (pps_masks K) hK.2.1 17 (by show 17 < 21; decide)
  simp only [pps_masks, List.eraseIdx, List.mem_cons, forall_eq_or_imp, forall_eq,
    List.getElem_cons_succ, List.getElem_cons_zero, List.not_mem_nil, false_implies,
    implies_true, and_true] at H
  simp only [vp8_pps, or32_and _ _ _ hm, or32_if_and _ _ _ _ hm, ite_and, H,
    put_and_disjoint, Nat.zero_and, Nat.or_zero, Nat.zero_or, ite_self, Nat.and_self]
  split_ifs <;> first | rfl | omega

/-! ## Lemmas on the session hints -/

theorem is_key_frame_iff (K : cedrus_hdr) (slice : v4l2_ctrl_vp8_frame) :
    V4L2_VP8_FRAME_IS_KEY_FRAME K slice = true ↔
      slice.flags &&& K.V4L2_VP8_FRAME_FLAG_KEY_FRAME ≠ 0 := by
  simp [V4L2_VP8_FRAME_IS_KEY_FRAME]

theorem setup_twice_pps (K : cedrus_hdr) (bufs : cedrus_bufs) (hw1 hw2 : Engine)
    (ctx : cedrus_vp8_ctx) (run1 run2 : cedrus_run) (dev : cedrus_dev) (buf : List Nat)
    (hb : ctx.entropy_probs_buf = some buf) (hl : buf.length = CEDRUS_ENTROPY_PROBS_SIZE)
    (hz : run1.frame_params.lf.level = 0) :
    ∃ ctx1 dev1 ctx2 dev2,
      cedrus_vp8_setup K bufs hw1 ctx run1 dev = some (ctx1, dev1) ∧
      cedrus_vp8_setup K bufs hw2 ctx1 run2 dev1 = some (ctx2, dev2) ∧
      dev2.regs Reg.VE_VP8_PPS = u32 (vp8_pps K ctx run2.frame_params) := by
  obtain ⟨buf1, dev1, -, hl1, hs1, -⟩ := setup_outcome K bufs hw1 ctx run1 dev buf hb hl
  have hc1 : vp8_save_hints K { ctx with entropy_probs_buf := some buf1 } run1.frame_params =
      { ctx with entropy_probs_buf := some buf1 } := by
    unfold vp8_save_hints
    rw [if_neg (by rw [hz]; exact fun h => h rfl)]
  rw [hc1] at hs1
  obtain ⟨buf2, dev2, -, -, hs2, hpps, -⟩ :=
    setup_outcome K bufs hw2 { ctx with entropy_probs_buf := some buf1 } run2 dev1 buf1 rfl hl1
  refine ⟨_, dev1, _, dev2, hs1, hs2, ?_⟩
  rw [hpps]
  exact congrArg u32 (vp8_pps_hints K _ _ _ rfl rfl rfl)

theorem and_mask_ne_zero_iff (w m : Nat) (c : Prop) [Decidable c] (hm : m ≠ 0)
    (h : w &&& m = if c then m else 0) : w &&& m ≠ 0 ↔ c := by
  rw [h]
  by_cases hc : c
  · simp [hc, hm]
  · simp [hc]

/-! ## Lemmas on unrepresented table positions -/

theorem update_probs_keeps (p : v4l2_ctrl_vp8_frame) (t : List Nat)
    (ht : t.length = CEDRUS_ENTROPY_PROBS_SIZE) :
    ∃ t', cedrus_vp8_update_probs p t = some t' ∧ t'.length = CEDRUS_ENTROPY_PROBS_SIZE ∧
      ∀ x, (4528 ≤ x ∨ (x < 2048 ∧ 11 ≤ x % 16) ∨ (x < 2048 ∧ 48 ≤ x % 64)) →
        t'[x]? = t[x]? := by
  obtain ⟨t', hrun, hl, hget⟩ := update_probs_get p t (by rw [ht]; decide)
  refine ⟨t', hrun, by rw [hl, ht], ?_⟩
  intro x hx
  have hw : ¬ coeff_written 96 x := by unfold coeff_written; omega
  rw [hget, if_neg hw]
  iterate 9 rw [if_neg (by omega)]

theorem update_many_keeps (frames : List v4l2_ctrl_vp8_frame) (t : List Nat)
    (ht : t.length = CEDRUS_ENTROPY_PROBS_SIZE) :
    ∃ t', frames.foldlM (fun t p => cedrus_vp8_update_probs p t) t = some t' ∧
      t'.length = CEDRUS_ENTROPY_PROBS_SIZE ∧
      ∀ x, (4528 ≤ x ∨ (x < 2048 ∧ 11 ≤ x % 16) ∨ (x < 2048 ∧ 48 ≤ x % 64)) →
        t'[x]? = t[x]? := by
  induction frames generalizing t with
  | nil => exact ⟨t, rfl, ht, fun _ _ => rfl⟩
  | cons p ps ih =>
    obtain ⟨t1, h1, l1, g1⟩ := update_probs_keeps p t ht
    obtain ⟨t2, h2, l2, g2⟩ := ih t1 l1
    refine ⟨t2, ?_, l2, fun x hx => (g2 x hx).trans (g1 x hx)⟩
    rw [List.foldlM_cons, h1]
    exact h2

/-! ## The script of the header replay -/


theorem get_delta_q_eq_run (K : cedrus_hdr) (hw : Engine) (d : cedrus_dev) :
    get_delta_q K hw d = get_delta_q_script.run K hw d := rfl

theorem process_segmentation_info_eq_run (K : cedrus_hdr) (hw : Engine) (d : cedrus_dev) :
    process_segmentation_info K hw d = process_segmentation_info_script.run K hw d := rfl

theorem process_ref_lf_delta_info_eq_run (K : cedrus_hdr) (hw : Engine) (d : cedrus_dev) :
    process_ref_lf_delta_info K hw d = process_ref_lf_delta_info_script.run K hw d := rfl

theorem process_ref_frame_info_eq_run (K : cedrus_hdr) (hw : Engine) (d : cedrus_dev) :
    process_ref_frame_info K hw d = process_ref_frame_info_script.run K hw d := by
  unfold process_ref_frame_info process_ref_frame_info_script
  simp only [Script.run]
  by_cases h1 : (read_bits K hw d 1 VP8_PROB_HALF).1 = 0 <;>
    by_cases h2 : (read_bits K hw (read_bits K hw d 1 VP8_PROB_HALF).2 1 VP8_PROB_HALF).1 = 0 <;>
    simp [h1, h2, Script.run]

set_option maxRecDepth 8000 in
theorem cedrus_read_header_eq_run (K : cedrus_hdr) (hw : Engine) (d : cedrus_dev)
    (slice : v4l2_ctrl_vp8_frame) :
    cedrus_read_header K hw d slice =
      (header_script (V4L2_VP8_FRAME_IS_KEY_FRAME K slice)).run K hw d := by
  unfold cedrus_read_header
  simp only [process_ref_frame_info_eq_run]
  cases V4L2_VP8_FRAME_IS_KEY_FRAME K slice
  · rfl
  · rfl

theorem read_bits_calls (K : cedrus_hdr) (hw : Engine) (d : cedrus_dev) (b p : Nat) :
    (read_bits K hw d b p).2.calls = d.calls ++ [(b, p)] := rfl

theorem read_bits_nread (K : cedrus_hdr) (hw : Engine) (d : cedrus_dev) (b p : Nat) :
    (read_bits K hw d b p).2.nread = d.nread + 1 := rfl

theorem read_bits_nwait (K : cedrus_hdr) (hw : Engine) (d : cedrus_dev) (b p : Nat) :
    (read_bits K hw d b p).2.nwait = d.nwait + 1 := rfl

theorem read_bits_log (K : cedrus_hdr) (hw : Engine) (d : cedrus_dev) (b p : Nat) :
    (read_bits K hw d b p).2.log = d.log ++ read_events K hw d.nread d.nwait b p := by
  simp [read_bits, cedrus_read, cedrus_wait_for, cedrus_write, read_events]

theorem read_bits_fst (K : cedrus_hdr) (hw : Engine) (d : cedrus_dev) (b p : Nat) :
    (read_bits K hw d b p).1 = u8 (u32 (hw.rd d.nread Reg.VE_H264_BASIC_BITS)) := rfl

theorem read_bits_nonzero (K : cedrus_hdr) (hw : Engine) (d : cedrus_dev) (b p : Nat) :
    (read_bits K hw d b p).1 ≠ 0 ↔ hw.nonzero d.nread = true := by
  rw [read_bits_fst]
  simp [Engine.nonzero]

theorem run_test (K : cedrus_hdr) (hw : Engine) (p : Nat) (k : Bool → Script)
    (d : cedrus_dev) :
    (Script.test p k).run K hw d =
      (k (hw.nonzero d.nread)).run K hw (read_bits K hw d 1 p).2 := by
  simp only [Script.run]
  by_cases h : (read_bits K hw d 1 p).1 ≠ 0
  · rw [if_pos h, (read_bits_nonzero K hw d 1 p).1 h]
  · rw [if_neg h]
    have : hw.nonzero d.nread = false := by
      cases hv : hw.nonzero d.nread
      · rfl
      · exact absurd ((read_bits_nonzero K hw d 1 p).2 hv) h
    rw [this]

theorem run_calls (K : cedrus_hdr) (hw : Engine) (s : Script) (d : cedrus_dev) :
    (s.run K hw d).calls = d.calls ++ (s.calls hw.nonzero d.nread).1 ∧
    (s.run K hw d).nread = (s.calls hw.nonzero d.nread).2 := by
  induction s generalizing d with
  | nop => simp [Script.run, Script.calls]
  | rd b p => exact ⟨rfl, rfl⟩
  | test p k ih =>
    rw [run_test]
    obtain ⟨h1, h2⟩ := ih (hw.nonzero d.nread) (read_bits K hw d 1 p).2
    rw [read_bits_calls, read_bits_nread] at h1
    rw [read_bits_nread] at h2
    constructor
    · rw [h1]
      simp [Script.calls]
    · rw [h2]
      simp [Script.calls]
  | seq s t ihs iht =>
    obtain ⟨a1, a2⟩ := ihs d
    obtain ⟨b1, b2⟩ := iht (s.run K hw d)
    constructor
    · show ((t.run K hw (s.run K hw d)).calls = _)
      rw [b1, a1, a2]
      simp [Script.calls]
    · show ((t.run K hw (s.run K hw d)).nread = _)
      rw [b2, a2]
      simp [Script.calls]
  | update => exact ⟨by simp [Script.run, Script.calls, cedrus_irq_clear, cedrus_wait_for,
      cedrus_write], rfl⟩

theorem calls_length (vals : Nat → Bool) (s : Script) (n : Nat) :
    (s.calls vals n).2 = n + (s.calls vals n).1.length := by
  induction s generalizing n with
  | nop => simp [Script.calls]
  | rd b p => simp [Script.calls]
  | test p k ih =>
    simp only [Script.calls, List.length_cons]
    rw [ih]
    omega
  | seq s t ihs iht =>
    simp only [Script.calls, List.length_append]
    rw [iht, ihs]
    omega
  | update => simp [Script.calls]

theorem reads_events_append (K : cedrus_hdr) (hw : Engine) (n w : Nat)
    (a b : List (Nat × Nat)) :
    reads_events K hw n w (a ++ b) =
      reads_events K hw n w a ++ reads_events K hw (n + a.length) (w + a.length) b := by
  induction a generalizing n w with
  | nil => simp [reads_events]
  | cons c cs ih =>
    have e1 : n + 1 + cs.length = n + (cs.length + 1) := by omega
    have e2 : w + 1 + cs.length = w + (cs.length + 1) := by omega
    show read_events K hw n w c.1 c.2 ++ reads_events K hw (n + 1) (w + 1) (cs ++ b) = _
    rw [ih, e1, e2]
    simp only [reads_events, List.length_cons, List.append_assoc]

theorem run_log_reads_only (K : cedrus_hdr) (hw : Engine) (s : Script) (d : cedrus_dev)
    (hs : s.reads_only = true) :
    (s.run K hw d).log =
      d.log ++ reads_events K hw d.nread d.nwait (s.calls hw.nonzero d.nread).1 ∧
    (s.run K hw d).nwait = d.nwait + (s.calls hw.nonzero d.nread).1.length := by
  induction s generalizing d with
  | nop => simp [Script.run, Script.calls, reads_events]
  | rd b p =>
    constructor
    · show (read_bits K hw d b p).2.log = _
      rw [read_bits_log]
      simp [Script.calls, reads_events]
    · rfl
  | test p k ih =>
    have hk : (k (hw.nonzero d.nread)).reads_only = true := by
      simp only [Script.reads_only, Bool.and_eq_true] at hs
      cases hw.nonzero d.nread
      · exact hs.2
      · exact hs.1
    rw [run_test]
    obtain ⟨h1, h2⟩ := ih (hw.nonzero d.nread) (read_bits K hw d 1 p).2 hk
    rw [read_bits_log, read_bits_nread, read_bits_nwait] at h1
    rw [read_bits_nread, read_bits_nwait] at h2
    constructor
    · rw [h1]
      simp [Script.calls, reads_events]
    · rw [h2]
      simp [Script.calls]
      omega
  | seq s t ihs iht =>
    simp only [Script.reads_only, Bool.and_eq_true] at hs
    obtain ⟨a1, a2⟩ := ihs d hs.1
    obtain ⟨b1, b2⟩ := iht (s.run K hw d) hs.2
    have hn := (run_calls K hw s d).2
    have hl := calls_length hw.nonzero s d.nread
    constructor
    · show ((t.run K hw (s.run K hw d)).log = _)
      rw [b1, a1, a2, hn]
      simp only [Script.calls, reads_events_append, List.append_assoc]
      rw [hl]
    · show ((t.run K hw (s.run K hw d)).nwait = _)
      rw [b2, a2, hn]
      simp only [Script.calls, List.length_append]
      omega
  | update => simp [Script.reads_only] at hs

theorem run_update (K : cedrus_hdr) (hw : Engine) (d : cedrus_dev) :
    (Script.update.run K hw d).log = d.log ++ update_events K hw d.nwait ∧
    (Script.update.run K hw d).nwait = d.nwait + 1 ∧
    (Script.update.run K hw d).nread = d.nread ∧
    (Script.update.run K hw d).calls = d.calls := by
  simp [Script.run, cedrus_irq_clear, cedrus_wait_for, cedrus_write, update_events]

/-! ## Lemmas on the read trace of the header replay -/


theorem read_header_calls (K : cedrus_hdr) (hw : Engine) (d : cedrus_dev)
    (slice : v4l2_ctrl_vp8_frame) :
    (cedrus_read_header K hw d slice).calls =
      d.calls ++
        ((header_script (V4L2_VP8_FRAME_IS_KEY_FRAME K slice)).calls hw.nonzero d.nread).1 := by
  rw [cedrus_read_header_eq_run]
  exact (run_calls K hw _ d).1

theorem calls_congr (v1 v2 : Nat → Bool) (h : ∀ n, v1 n = v2 n) (s : Script) (n : Nat) :
    s.calls v1 n = s.calls v2 n := by
  have : v1 = v2 := funext h
  rw [this]

theorem sample_engine_nonzero (n : Nat) : sample_engine.nonzero n = true := rfl

theorem zero_engine_nonzero (n : Nat) : zero_engine.nonzero n = false := rfl

theorem key_calls_all_one :
    ((header_script true).calls (fun _ => true) 0).1.length = 85 := by
  decide

theorem key_calls_all_zero :
    ((header_script true).calls (fun _ => false) 0).1.length = 16 := by
  decide

theorem all_half_calls (vals : Nat → Bool) (s : Script) (hs : s.all_half = true) (n : Nat) :
    ∀ c ∈ (s.calls vals n).1, c.2 = VP8_PROB_HALF := by
  induction s generalizing n with
  | nop => simp [Script.calls]
  | rd b p =>
    simp only [Script.all_half, beq_iff_eq] at hs
    simp [Script.calls, hs]
  | test p k ih =>
    simp only [Script.all_half, Bool.and_eq_true, beq_iff_eq] at hs
    intro c hc
    simp only [Script.calls, List.mem_cons] at hc
    rcases hc with rfl | hc
    · exact hs.1.1
    · have hk : (k (vals n)).all_half = true := by
        cases vals n
        · exact hs.2
        · exact hs.1.2
      exact ih (vals n) hk (n + 1) c hc
  | seq s t ihs iht =>
    simp only [Script.all_half, Bool.and_eq_true] at hs
    intro c hc
    simp only [Script.calls, List.mem_append] at hc
    rcases hc with hc | hc
    · exact ihs hs.1 n c hc
    · exact iht hs.2 _ c hc
  | update => simp [Script.calls]

theorem mv_flag_reads_cons_true (vals : Nat → Bool) (n p : Nat) (ps : List Nat)
    (h : vals n = true) :
    mv_flag_reads vals n (p :: ps) =
      (1, p) :: (7, VP8_PROB_HALF) :: mv_flag_reads vals (n + 2) ps := by
  simp [mv_flag_reads, h]

theorem mv_flag_reads_cons_false (vals : Nat → Bool) (n p : Nat) (ps : List Nat)
    (h : vals n = false) :
    mv_flag_reads vals n (p :: ps) = (1, p) :: mv_flag_reads vals (n + 1) ps := by
  simp [mv_flag_reads, h]

theorem mv_flag_reads_append (vals : Nat → Bool) (n : Nat) (a b : List Nat) :
    mv_flag_reads vals n (a ++ b) =
      mv_flag_reads vals n a ++
        mv_flag_reads vals (n + (mv_flag_reads vals n a).length) b := by
  induction a generalizing n with
  | nil => simp [mv_flag_reads]
  | cons p ps ih =>
    rw [List.cons_append]
    cases h : vals n
    · rw [mv_flag_reads_cons_false _ _ _ _ h, mv_flag_reads_cons_false _ _ _ _ h, ih,
        List.cons_append, List.length_cons]
      have e : n + 1 + (mv_flag_reads vals (n + 1) ps).length =
          n + ((mv_flag_reads vals (n + 1) ps).length + 1) := by omega
      rw [e]
    · rw [mv_flag_reads_cons_true _ _ _ _ h, mv_flag_reads_cons_true _ _ _ _ h, ih,
        List.cons_append, List.cons_append, List.length_cons, List.length_cons]
      have e : n + 2 + (mv_flag_reads vals (n + 2) ps).length =
          n + ((mv_flag_reads vals (n + 2) ps).length + 1 + 1) := by omega
      rw [e]

theorem flag_rd_calls (vals : Nat → Bool) (p n : Nat) :
    ((Script.flag p (.rd 7 VP8_PROB_HALF)).calls vals n).1 = mv_flag_reads vals n [p] := by
  unfold Script.flag
  simp only [Script.calls, mv_flag_reads]
  cases vals n <;> simp [Script.calls]

theorem seqN_calls (vals : Nat → Bool) (f : Nat → Script) (L : Nat → List Nat)
    (hf : ∀ i m, ((f i).calls vals m).1 = mv_flag_reads vals m (L i)) (k n : Nat) :
    ((Script.seqN k f).calls vals n).1 =
      mv_flag_reads vals n ((List.range k).flatMap L) := by
  induction k with
  | zero => simp [Script.seqN, Script.calls, mv_flag_reads]
  | succ k ih =>
    simp only [Script.seqN, Script.calls, List.range_succ, List.flatMap_append,
      List.flatMap_cons, List.flatMap_nil, List.append_nil]
    rw [mv_flag_reads_append, ih, hf, calls_length, ih]

theorem header_mv_calls (vals : Nat → Bool) (n : Nat) :
    (header_mv_script.calls vals n).1 =
      mv_flag_reads vals n k_mv_entropy_update_probs.flatten := by
  unfold header_mv_script
  rw [seqN_calls vals _
    (fun i => (List.range V4L2_VP8_MV_PROB_CNT).flatMap
      (fun j => [k_mv_entropy_update_probs_at i j]))]
  · rfl
  · intro i m
    rw [seqN_calls vals _ (fun j => [k_mv_entropy_update_probs_at i j])]
    intro j m'
    exact flag_rd_calls vals _ m'

/-! ## Lemmas on the phases of frame setup -/

theorem vp8_set_ref_eq (bufs : cedrus_bufs) (d : cedrus_dev) (ts : Nat) (luma chroma : Reg) :
    vp8_set_ref bufs d ts luma chroma = write_all d (ref_writes bufs ts luma chroma) := by
  unfold vp8_set_ref ref_writes write_all
  by_cases hq : bufs.vb2_find_timestamp ts ≥ 0
  · simp only [hq, if_true, List.foldl_cons, List.foldl_nil]
  · simp only [hq, if_false, List.foldl_cons, List.foldl_nil]

theorem write_all_append (d : cedrus_dev) (a b : List (Reg × Nat)) :
    write_all d (a ++ b) = write_all (write_all d a) b := by
  unfold write_all
  exact List.foldl_append _ _ _ _

/-- The function `cedrus_vp8_setup` fails exactly when the table update does,
and otherwise returns the saved hints and the device after the three phases
of bus traffic. -/
theorem setup_eq (K : cedrus_hdr) (bufs : cedrus_bufs) (hw : Engine)
    (ctx : cedrus_vp8_ctx) (run : cedrus_run) (dev : cedrus_dev) :
    cedrus_vp8_setup K bufs hw ctx run dev =
      (ctx.entropy_probs_buf.bind (cedrus_vp8_update_probs run.frame_params)).map
        (fun buf =>
          (vp8_save_hints K { ctx with entropy_probs_buf := some buf } run.frame_params,
            setup_dev K bufs hw { ctx with entropy_probs_buf := some buf } run dev)) := by
  unfold cedrus_vp8_setup setup_dev setup_back_writes
  simp only [write_all_append, ← vp8_set_ref_eq]
  cases ctx.entropy_probs_buf.bind (cedrus_vp8_update_probs run.frame_params) <;> rfl

theorem vp8_pps_congr (K : cedrus_hdr) (c1 c2 : cedrus_vp8_ctx) (slice : v4l2_ctrl_vp8_frame)
    (hp : c1.last_frame_p_type = c2.last_frame_p_type)
    (hf : c1.last_filter_type = c2.last_filter_type)
    (hs : c1.last_sharpness_level = c2.last_sharpness_level) :
    vp8_pps K c1 slice = vp8_pps K c2 slice := by
  unfold vp8_pps
  simp only [hp, hf, hs]

theorem setup_front_writes_congr (K : cedrus_hdr) (c1 c2 : cedrus_vp8_ctx) (run : cedrus_run)
    (hdma : c1.entropy_probs_buf_dma = c2.entropy_probs_buf_dma)
    (hp : c1.last_frame_p_type = c2.last_frame_p_type)
    (hf : c1.last_filter_type = c2.last_filter_type)
    (hs : c1.last_sharpness_level = c2.last_sharpness_level) :
    setup_front_writes K c1 run = setup_front_writes K c2 run := by
  unfold setup_front_writes
  simp only [vp8_pps_congr K c1 c2 run.frame_params hp hf hs, hdma]

/-- Success of `cedrus_vp8_setup` on a session whose table has the allocated
size, with the resulting session state and device. -/
theorem setup_some (K : cedrus_hdr) (bufs : cedrus_bufs) (hw : Engine)
    (ctx : cedrus_vp8_ctx) (run : cedrus_run) (dev : cedrus_dev) (buf : List Nat)
    (hb : ctx.entropy_probs_buf = some buf) (hl : buf.length = CEDRUS_ENTROPY_PROBS_SIZE) :
    ∃ buf', cedrus_vp8_update_probs run.frame_params buf = some buf' ∧
      cedrus_vp8_setup K bufs hw ctx run dev =
        some (vp8_save_hints K { ctx with entropy_probs_buf := some buf' } run.frame_params,
          setup_dev K bufs hw ctx run dev) := by
  obtain ⟨buf', hrun, -⟩ := update_probs_get run.frame_params buf (by rw [hl]; decide)
  refine ⟨buf', hrun, ?_⟩
  rw [setup_eq, hb, Option.some_bind, hrun, Option.map_some']
  unfold setup_dev
  rw [setup_front_writes_congr K { ctx with entropy_probs_buf := some buf' } ctx run
    rfl rfl rfl rfl]

theorem write_all_log (d : cedrus_dev) (ws : List (Reg × Nat)) :
    (write_all d ws).log = d.log ++ ws.map (fun w => Ev.write w.1 (u32 w.2)) := by
  induction ws generalizing d with
  | nil => simp [write_all]
  | cons w ws ih =>
    show (write_all (cedrus_write d w.1 w.2) ws).log = _
    rw [ih]
    simp [cedrus_write]

theorem write_all_calls (d : cedrus_dev) (ws : List (Reg × Nat)) :
    (write_all d ws).calls = d.calls ∧ (write_all d ws).nread = d.nread ∧
      (write_all d ws).nwait = d.nwait := by
  induction ws generalizing d with
  | nil => simp [write_all]
  | cons w ws ih => exact ih (cedrus_write d w.1 w.2)

/-- A register written by a list of writes ends with a value that does not
depend on the device the writes started from; any other register keeps its
value. -/
theorem write_all_regs_agree (d d' : cedrus_dev) (ws : List (Reg × Nat)) (r : Reg)
    (h : r ∈ ws.map Prod.fst ∨ d.regs r = d'.regs r) :
    (write_all d ws).regs r = (write_all d' ws).regs r := by
  induction ws generalizing d d' with
  | nil =>
    rcases h with h | h
    · simp at h
    · exact h
  | cons w ws ih =>
    show (write_all (cedrus_write d w.1 w.2) ws).regs r =
      (write_all (cedrus_write d' w.1 w.2) ws).regs r
    apply ih
    rcases h with h | h
    · simp only [List.map_cons, List.mem_cons] at h
      rcases h with h | h
      · right
        simp only [cedrus_write_regs, h, if_true]
      · left
        exact h
    · right
      simp only [cedrus_write_regs, h]

/-- Every register other than the trigger, status and bit-read registers is
written by `cedrus_vp8_setup` before or after the header replay. -/
theorem setup_writes_cover (K : cedrus_hdr) (bufs : cedrus_bufs) (ctx : cedrus_vp8_ctx)
    (run : cedrus_run) (r : Reg) (h1 : r ≠ Reg.VE_H264_TRIGGER_TYPE)
    (h2 : r ≠ Reg.VE_H264_STATUS) (h3 : r ≠ Reg.VE_H264_BASIC_BITS) :
    r ∈ (setup_back_writes K bufs run).map Prod.fst ∨
      r ∈ (setup_front_writes K ctx run).map Prod.fst := by
  cases r <;>
    first
    | exact absurd rfl h1
    | exact absurd rfl h2
    | exact absurd rfl h3
    | simp [setup_back_writes, setup_front_writes, ref_writes]

theorem setup_dev_regs_agree (K : cedrus_hdr) (bufs : cedrus_bufs) (hw1 hw2 : Engine)
    (c1 c2 : cedrus_vp8_ctx) (run : cedrus_run) (d1 d2 : cedrus_dev) (r : Reg)
    (hfront : setup_front_writes K c1 run = setup_front_writes K c2 run)
    (h1 : r ≠ Reg.VE_H264_TRIGGER_TYPE) (h2 : r ≠ Reg.VE_H264_STATUS)
    (h3 : r ≠ Reg.VE_H264_BASIC_BITS) :
    (setup_dev K bufs hw1 c1 run d1).regs r = (setup_dev K bufs hw2 c2 run d2).regs r := by
  unfold setup_dev
  apply write_all_regs_agree
  rcases setup_writes_cover K bufs c1 run r h1 h2 h3 with h | h
  · left
    exact h
  · right
    rw [cedrus_read_header_regs K hw1 _ _ r h1 h2, cedrus_read_header_regs K hw2 _ _ r h1 h2,
      ← hfront]
    exact write_all_regs_agree _ _ _ r (Or.inl h)
/-! ## Lemmas on the bus trace of the header replay -/

theorem front_reads_only (key : Bool) : (header_front_script key).reads_only = true := by
  cases key <;> rfl

theorem back_reads_only (key : Bool) : (header_back_script key).reads_only = true := by
  cases key <;> rfl

theorem seq_calls (vals : Nat → Bool) (s t : Script) (n : Nat) :
    (Script.seq s t).calls vals n =
      ((s.calls vals n).1 ++ (t.calls vals (s.calls vals n).2).1,
        (t.calls vals (s.calls vals n).2).2) := rfl

theorem run_seq (K : cedrus_hdr) (hw : Engine) (s t : Script) (d : cedrus_dev) :
    (Script.seq s t).run K hw d = t.run K hw (s.run K hw d) := rfl

theorem update_calls (vals : Nat → Bool) (n : Nat) : Script.update.calls vals n = ([], n) := rfl

theorem header_calls_split (vals : Nat → Bool) (key : Bool) (n : Nat) :
    ((header_script key).calls vals n).1 =
      header_front_calls vals key n ++ header_back_calls vals key n := by
  unfold header_back_calls header_front_calls header_script
  rw [seq_calls, seq_calls, update_calls, ← calls_length vals (header_front_script key) n]
  simp only [List.nil_append]

/-- The read calls of `cedrus_read_header`: those before and those after the
coefficient-update trigger. -/
theorem read_header_calls_split (K : cedrus_hdr) (hw : Engine) (d : cedrus_dev)
    (slice : v4l2_ctrl_vp8_frame) :
    (cedrus_read_header K hw d slice).calls =
      d.calls ++ header_front_calls hw.nonzero (V4L2_VP8_FRAME_IS_KEY_FRAME K slice) d.nread ++
        header_back_calls hw.nonzero (V4L2_VP8_FRAME_IS_KEY_FRAME K slice) d.nread := by
  rw [read_header_calls, header_calls_split, List.append_assoc]

/-- The bus trace of `cedrus_read_header`: the events of the reads before the
trigger, the three events of the coefficient update, the events of the reads
after it. -/
theorem read_header_log (K : cedrus_hdr) (hw : Engine) (d : cedrus_dev)
    (slice : v4l2_ctrl_vp8_frame) :
    (cedrus_read_header K hw d slice).log =
      d.log ++
        reads_events K hw d.nread d.nwait
          (header_front_calls hw.nonzero (V4L2_VP8_FRAME_IS_KEY_FRAME K slice) d.nread) ++
        update_events K hw
          (d.nwait +
            (header_front_calls hw.nonzero (V4L2_VP8_FRAME_IS_KEY_FRAME K slice)
              d.nread).length) ++
        reads_events K hw
          (d.nread +
            (header_front_calls hw.nonzero (V4L2_VP8_FRAME_IS_KEY_FRAME K slice)
              d.nread).length)
          (d.nwait +
            (header_front_calls hw.nonzero (V4L2_VP8_FRAME_IS_KEY_FRAME K slice)
              d.nread).length + 1)
          (header_back_calls hw.nonzero (V4L2_VP8_FRAME_IS_KEY_FRAME K slice) d.nread) := by
  rw [cedrus_read_header_eq_run]
  generalize V4L2_VP8_FRAME_IS_KEY_FRAME K slice = key
  unfold header_script header_back_calls header_front_calls
  rw [run_seq, run_seq]
  have hf := run_log_reads_only K hw (header_front_script key) d (front_reads_only key)
  have hc := run_calls K hw (header_front_script key) d
  have hu := run_update K hw ((header_front_script key).run K hw d)
  have hb := run_log_reads_only K hw (header_back_script key)
    (Script.update.run K hw ((header_front_script key).run K hw d)) (back_reads_only key)
  rw [hb.1, hu.1, hu.2.1, hu.2.2.1, hf.1, hf.2, hc.2, calls_length]

theorem reads_events_no_write (K : cedrus_hdr) (hw : Engine) (r : Reg)
    (h : r ≠ Reg.VE_H264_TRIGGER_TYPE) (n w : Nat) (cs : List (Nat × Nat)) :
    ∀ e ∈ reads_events K hw n w cs, Ev.is_write_to r e = false := by
  induction cs generalizing n w with
  | nil => simp [reads_events]
  | cons c cs ih =>
    intro e he
    simp only [reads_events, read_events, List.cons_append, List.nil_append,
      List.mem_cons] at he
    rcases he with rfl | rfl | rfl | he
    · simp only [Ev.is_write_to, beq_eq_false_iff_ne, ne_eq]
      exact fun hh => h hh.symm
    · rfl
    · rfl
    · exact ih _ _ e he

theorem update_events_no_write (K : cedrus_hdr) (hw : Engine) (r : Reg)
    (h1 : r ≠ Reg.VE_H264_TRIGGER_TYPE) (h2 : r ≠ Reg.VE_H264_STATUS) (w : Nat) :
    ∀ e ∈ update_events K hw w, Ev.is_write_to r e = false := by
  intro e he
  simp only [update_events, List.mem_cons, List.mem_singleton, List.not_mem_nil,
    or_false] at he
  rcases he with rfl | rfl | rfl
  · simp only [Ev.is_write_to, beq_eq_false_iff_ne, ne_eq]
    exact fun hh => h1 hh.symm
  · rfl
  · simp only [Ev.is_write_to, beq_eq_false_iff_ne, ne_eq]
    exact fun hh => h2 hh.symm

theorem reads_events_count (K : cedrus_hdr) (hw : Engine)
    (hK : ∀ b p, u32 (K.VE_H264_TRIGGER_TYPE_VP8_GET_BITS |||
        K.VE_H264_TRIGGER_TYPE_BIN_LENS b ||| K.VE_H264_TRIGGER_TYPE_PROBABILITY p) ≠
      u32 K.VE_H264_TRIGGER_TYPE_VP8_UPDATE_COEF)
    (n w : Nat) (cs : List (Nat × Nat)) :
    (reads_events K hw n w cs).count
      (Ev.write Reg.VE_H264_TRIGGER_TYPE (u32 K.VE_H264_TRIGGER_TYPE_VP8_UPDATE_COEF)) = 0 := by
  induction cs generalizing n w with
  | nil => simp [reads_events]
  | cons c cs ih =>
    simp only [reads_events, read_events, List.cons_append, List.nil_append]
    rw [List.count_cons_of_ne, List.count_cons_of_ne, List.count_cons_of_ne, ih]
    · intro hh
      cases hh
    · intro hh
      cases hh
    · intro hh
      injection hh with _ hv
      exact hK _ _ hv.symm

theorem update_events_count (K : cedrus_hdr) (hw : Engine) (w : Nat) :
    (update_events K hw w).count
      (Ev.write Reg.VE_H264_TRIGGER_TYPE (u32 K.VE_H264_TRIGGER_TYPE_VP8_UPDATE_COEF)) = 1 := by
  simp [update_events, List.count_cons]

theorem sample_trigger_words (b p : Nat) :
    u32 (sample_hdr.VE_H264_TRIGGER_TYPE_VP8_GET_BITS |||
        sample_hdr.VE_H264_TRIGGER_TYPE_BIN_LENS b |||
        sample_hdr.VE_H264_TRIGGER_TYPE_PROBABILITY p) ≠
      u32 sample_hdr.VE_H264_TRIGGER_TYPE_VP8_UPDATE_COEF := by
  intro h
  have h0 := congrArg (fun x => x.testBit 0) h
  simp only [u32_eq_and, Nat.testBit_and, Nat.testBit_or] at h0
  have e1 : sample_hdr.VE_H264_TRIGGER_TYPE_VP8_GET_BITS.testBit 0 = true := by decide
  have e2 : sample_hdr.VE_H264_TRIGGER_TYPE_VP8_UPDATE_COEF.testBit 0 = false := by decide
  rw [e1, e2] at h0
  simp at h0
/-! ## Lemmas on the trace of frame setup and on expired waits -/

theorem read_header_log_events (K : cedrus_hdr) (hw : Engine) (d : cedrus_dev)
    (slice : v4l2_ctrl_vp8_frame) :
    (cedrus_read_header K hw d slice).log =
      d.log ++ header_events K hw (V4L2_VP8_FRAME_IS_KEY_FRAME K slice) d.nread d.nwait := by
  rw [read_header_log]
  unfold header_events
  simp only [List.append_assoc]

/-- The bus trace of `cedrus_vp8_setup`: engine selection, the front writes,
the header replay, the back writes. -/
theorem setup_dev_log (K : cedrus_hdr) (bufs : cedrus_bufs) (hw : Engine)
    (ctx : cedrus_vp8_ctx) (run : cedrus_run) (dev : cedrus_dev) :
    (setup_dev K bufs hw ctx run dev).log =
      dev.log ++ [Ev.engine_enable] ++
        (setup_front_writes K ctx run).map (fun w => Ev.write w.1 (u32 w.2)) ++
        header_events K hw (V4L2_VP8_FRAME_IS_KEY_FRAME K run.frame_params)
          dev.nread dev.nwait ++
        (setup_back_writes K bufs run).map (fun w => Ev.write w.1 (u32 w.2)) := by
  unfold setup_dev
  rw [write_all_log, read_header_log_events, write_all_log,
    (write_all_calls _ _).2.1, (write_all_calls _ _).2.2]
  rfl

theorem header_events_no_write (K : cedrus_hdr) (hw : Engine) (key : Bool) (n w : Nat)
    (r : Reg) (h1 : r ≠ Reg.VE_H264_TRIGGER_TYPE) (h2 : r ≠ Reg.VE_H264_STATUS) :
    ∀ e ∈ header_events K hw key n w, Ev.is_write_to r e = false := by
  intro e he
  unfold header_events at he
  simp only [List.mem_append] at he
  rcases he with (he | he) | he
  · exact reads_events_no_write K hw r h1 _ _ _ e he
  · exact update_events_no_write K hw r h1 h2 _ e he
  · exact reads_events_no_write K hw r h1 _ _ _ e he

theorem reads_events_waits (K : cedrus_hdr) (hw : Engine) (n w : Nat)
    (cs : List (Nat × Nat)) (r : Reg) (f : Nat) (x : Bool)
    (h : Ev.wait r f x ∈ reads_events K hw n w cs) : ∃ i, x = hw.expired i := by
  induction cs generalizing n w with
  | nil => simp [reads_events] at h
  | cons c cs ih =>
    simp only [reads_events, read_events, List.cons_append, List.nil_append,
      List.mem_cons, reduceCtorEq, false_or] at h
    rcases h with h | h
    · injection h with _ _ hx
      exact ⟨w, hx⟩
    · exact ih _ _ h

theorem header_events_waits (K : cedrus_hdr) (hw : Engine) (key : Bool) (n w : Nat)
    (r : Reg) (f : Nat) (x : Bool) (h : Ev.wait r f x ∈ header_events K hw key n w) :
    ∃ i, x = hw.expired i := by
  unfold header_events at h
  simp only [List.mem_append] at h
  rcases h with (h | h) | h
  · exact reads_events_waits K hw _ _ _ r f x h
  · simp only [update_events, List.mem_cons, reduceCtorEq, false_or, List.mem_singleton,
      or_false, List.not_mem_nil] at h
    injection h with _ _ hx
    exact ⟨_, hx⟩
  · exact reads_events_waits K hw _ _ _ r f x h

theorem update_wait_mem (K : cedrus_hdr) (hw : Engine) (key : Bool) (n w : Nat) :
    Ev.wait Reg.VE_H264_STATUS K.VE_H264_STATUS_VP8_UPPROB_BUSY
        (hw.expired (w + (header_front_calls hw.nonzero key n).length)) ∈
      header_events K hw key n w := by
  unfold header_events
  simp [update_events]

theorem read_wait_mem (K : cedrus_hdr) (hw : Engine) (key : Bool) (n w : Nat)
    (c : Nat × Nat) (h : (header_front_calls hw.nonzero key n).head? = some c) :
    Ev.wait Reg.VE_H264_STATUS K.VE_H264_STATUS_VLD_BUSY (hw.expired w) ∈
      header_events K hw key n w := by
  unfold header_events
  cases hc : header_front_calls hw.nonzero key n with
  | nil => rw [hc] at h; cases h
  | cons a as => simp [reads_events, read_events]

theorem read_bits_indep (K : cedrus_hdr) (hw : Engine) (e : Nat → Bool) (d d' : cedrus_dev)
    (b p : Nat) (hr : d.regs = d'.regs) (hn : d.nread = d'.nread) (hc : d.calls = d'.calls) :
    (read_bits K hw d b p).1 = (read_bits K { hw with expired := e } d' b p).1 ∧
    (read_bits K hw d b p).2.regs = (read_bits K { hw with expired := e } d' b p).2.regs ∧
    (read_bits K hw d b p).2.nread = (read_bits K { hw with expired := e } d' b p).2.nread ∧
    (read_bits K hw d b p).2.calls = (read_bits K { hw with expired := e } d' b p).2.calls := by
  refine ⟨?_, ?_, ?_, ?_⟩
  · rw [read_bits_fst, read_bits_fst, hn]
  · show (cedrus_write d _ _).regs = (cedrus_write d' _ _).regs
    funext r
    simp only [cedrus_write_regs, hr]
  · rw [read_bits_nread, read_bits_nread, hn]
  · rw [read_bits_calls, read_bits_calls, hc]

/-- The registers, the read count and the read calls after a script do not
depend on which waits expire. -/
theorem run_expired_indep (K : cedrus_hdr) (hw : Engine) (e : Nat → Bool) (s : Script)
    (d d' : cedrus_dev) (hr : d.regs = d'.regs) (hn : d.nread = d'.nread)
    (hc : d.calls = d'.calls) :
    (s.run K hw d).regs = (s.run K { hw with expired := e } d').regs ∧
    (s.run K hw d).nread = (s.run K { hw with expired := e } d').nread ∧
    (s.run K hw d).calls = (s.run K { hw with expired := e } d').calls := by
  induction s generalizing d d' with
  | nop => exact ⟨hr, hn, hc⟩
  | rd b p => exact (read_bits_indep K hw e d d' b p hr hn hc).2
  | test p k ih =>
    obtain ⟨h1, h2, h3, h4⟩ := read_bits_indep K hw e d d' 1 p hr hn hc
    simp only [Script.run]
    rw [← h1]
    by_cases hz : (read_bits K hw d 1 p).1 ≠ 0
    · rw [if_pos hz, if_pos hz]
      exact ih true _ _ h2 h3 h4
    · rw [if_neg hz, if_neg hz]
      exact ih false _ _ h2 h3 h4
  | seq s t ihs iht =>
    obtain ⟨h2, h3, h4⟩ := ihs d d' hr hn hc
    exact iht _ _ h2 h3 h4
  | update =>
    refine ⟨?_, hn, hc⟩
    show (cedrus_write (cedrus_write d _ _) _ _).regs =
      (cedrus_write (cedrus_write d' _ _) _ _).regs
    funext r
    simp only [cedrus_write_regs, hr]

theorem setup_dev_expired_indep (K : cedrus_hdr) (bufs : cedrus_bufs) (hw : Engine)
    (e : Nat → Bool) (ctx : cedrus_vp8_ctx) (run : cedrus_run) (dev : cedrus_dev) :
    (setup_dev K bufs hw ctx run dev).regs =
      (setup_dev K bufs { hw with expired := e } ctx run dev).regs ∧
    (setup_dev K bufs hw ctx run dev).calls =
      (setup_dev K bufs { hw with expired := e } ctx run dev).calls := by
  unfold setup_dev
  rw [cedrus_read_header_eq_run, cedrus_read_header_eq_run]
  obtain ⟨h2, -, h4⟩ := run_expired_indep K hw e
    (header_script (V4L2_VP8_FRAME_IS_KEY_FRAME K run.frame_params))
    (write_all (cedrus_engine_enable dev) (setup_front_writes K ctx run))
    (write_all (cedrus_engine_enable dev) (setup_front_writes K ctx run)) rfl rfl rfl
  refine ⟨?_, ?_⟩
  · funext r
    exact write_all_regs_agree _ _ _ r (Or.inr (congrFun h2 r))
  · rw [(write_all_calls _ _).1, (write_all_calls _ _).1, h4]

theorem setup_dev_ctrl (K : cedrus_hdr) (bufs : cedrus_bufs) (hw : Engine)
    (ctx : cedrus_vp8_ctx) (run : cedrus_run) (dev : cedrus_dev) :
    (setup_dev K bufs hw ctx run dev).regs Reg.VE_H264_CTRL =
      u32 (K.VE_H264_CTRL_VP8 ||| K.VE_H264_CTRL_DECODE_ERR_INT |||
        K.VE_H264_CTRL_SLICE_DECODE_INT) := by
  unfold setup_dev setup_back_writes
  simp only [write_all_append]
  simp only [write_all, List.foldl_cons, List.foldl_nil, cedrus_write_regs, if_true]
/-! ## Shape of the bus trace of frame setup -/

theorem setup_front_head (K : cedrus_hdr) (ctx : cedrus_vp8_ctx) (run : cedrus_run) :
    setup_front_writes K ctx run =
      (Reg.VE_H264_CTRL, K.VE_H264_CTRL_VP8) :: (setup_front_writes K ctx run).tail := rfl

theorem setup_back_last (K : cedrus_hdr) (bufs : cedrus_bufs) (run : cedrus_run) :
    setup_back_writes K bufs run =
      (setup_back_writes K bufs run).dropLast ++
        [(Reg.VE_H264_CTRL,
          K.VE_H264_CTRL_VP8 ||| K.VE_H264_CTRL_DECODE_ERR_INT |||
            K.VE_H264_CTRL_SLICE_DECODE_INT)] := by
  unfold setup_back_writes
  simp only [List.dropLast_concat]

theorem setup_front_tail_regs (K : cedrus_hdr) (ctx : cedrus_vp8_ctx) (run : cedrus_run) :
    ∀ w ∈ (setup_front_writes K ctx run).tail, w.1 ≠ Reg.VE_H264_CTRL := by
  intro w hw
  simp only [setup_front_writes, List.tail_cons, List.mem_cons, List.mem_singleton,
    List.not_mem_nil, or_false] at hw
  rcases hw with h | h | h | h | h | h | h | h | h <;> rw [h] <;> simp

theorem setup_back_init_regs (K : cedrus_hdr) (bufs : cedrus_bufs) (run : cedrus_run) :
    ∀ w ∈ (setup_back_writes K bufs run).dropLast, w.1 ≠ Reg.VE_H264_CTRL := by
  intro w hw
  simp only [setup_back_writes, List.dropLast_concat, ref_writes, List.mem_append,
    List.mem_cons, List.mem_singleton, List.not_mem_nil, or_false] at hw
  rcases hw with
    (((h | h | h | h | h | h | h | h | h | h | h | h) | h | h) | h | h) | h | h <;>
    rw [h] <;> simp

theorem writes_no_write_to (ws : List (Reg × Nat)) (r : Reg) (h : ∀ w ∈ ws, w.1 ≠ r) :
    ∀ e ∈ ws.map (fun w => Ev.write w.1 (u32 w.2)), Ev.is_write_to r e = false := by
  intro e he
  obtain ⟨w, hw, rfl⟩ := List.mem_map.1 he
  simp only [Ev.is_write_to, beq_eq_false_iff_ne, ne_eq]
  exact h w hw

theorem writes_no_wait (ws : List (Reg × Nat)) (r : Reg) (f : Nat) (x : Bool) :
    Ev.wait r f x ∉ ws.map (fun w => Ev.write w.1 (u32 w.2)) := by
  intro he
  obtain ⟨w, _, hw⟩ := List.mem_map.1 he
  cases hw

/-- The bus trace of `cedrus_vp8_setup` starts with the engine selection and
the write of the VP8 mode bit to the control register, ends with the write
that arms the control register, writes the control register nowhere in
between, contains the events of the header replay, and its waits are those
of the header replay. -/
theorem setup_dev_log_shape (K : cedrus_hdr) (bufs : cedrus_bufs) (hw : Engine)
    (ctx : cedrus_vp8_ctx) (run : cedrus_run) (dev : cedrus_dev) :
    ∃ mid,
      (setup_dev K bufs hw ctx run dev).log =
        dev.log ++ [Ev.engine_enable, Ev.write Reg.VE_H264_CTRL (u32 K.VE_H264_CTRL_VP8)] ++
          mid ++
          [Ev.write Reg.VE_H264_CTRL
            (u32 (K.VE_H264_CTRL_VP8 ||| K.VE_H264_CTRL_DECODE_ERR_INT |||
              K.VE_H264_CTRL_SLICE_DECODE_INT))] ∧
      (∀ e ∈ mid, Ev.is_write_to Reg.VE_H264_CTRL e = false) ∧
      (∀ r f x, Ev.wait r f x ∈ mid → ∃ i, x = hw.expired i) ∧
      (∀ e ∈ header_events K hw (V4L2_VP8_FRAME_IS_KEY_FRAME K run.frame_params)
        dev.nread dev.nwait, e ∈ mid) := by
  refine ⟨(setup_front_writes K ctx run).tail.map (fun w => Ev.write w.1 (u32 w.2)) ++
    header_events K hw (V4L2_VP8_FRAME_IS_KEY_FRAME K run.frame_params) dev.nread dev.nwait ++
    (setup_back_writes K bufs run).dropLast.map (fun w => Ev.write w.1 (u32 w.2)),
    ?_, ?_, ?_, ?_⟩
  · rw [setup_dev_log]
    conv_lhs => rw [setup_front_head K ctx run, setup_back_last K bufs run]
    simp only [List.map_cons, List.map_append, List.map_nil, List.append_assoc,
      List.cons_append, List.nil_append]
  · intro e he
    simp only [List.mem_append] at he
    rcases he with (he | he) | he
    · exact writes_no_write_to _ _ (setup_front_tail_regs K ctx run) e he
    · exact header_events_no_write K hw _ _ _ _ (by simp) (by simp) e he
    · exact writes_no_write_to _ _ (setup_back_init_regs K bufs run) e he
  · intro r f x he
    simp only [List.mem_append] at he
    rcases he with (he | he) | he
    · exact absurd he (writes_no_wait _ r f x)
    · exact header_events_waits K hw _ _ _ r f x he
    · exact absurd he (writes_no_wait _ r f x)
  · intro e he
    simp only [List.mem_append]
    exact Or.inl (Or.inr he)
/-! ## Lemmas on the tail of the read trace -/

theorem seq_assoc_calls (vals : Nat → Bool) (a b c : Script) (n : Nat) :
    (Script.seq a (Script.seq b c)).calls vals n =
      (Script.seq (Script.seq a b) c).calls vals n := by
  simp only [seq_calls, List.append_assoc]

theorem seq_mv_calls (vals : Nat → Bool) (s : Script) (n : Nat) :
    ((Script.seq s header_mv_script).calls vals n).1 =
      (s.calls vals n).1 ++
        mv_flag_reads vals (n + (s.calls vals n).1.length)
          k_mv_entropy_update_probs.flatten := by
  rw [seq_calls]
  simp only
  rw [header_mv_calls, calls_length]

theorem inter_script_calls (vals : Nat → Bool) (n : Nat) :
    (header_script false).calls vals n =
      (Script.seq
        (Script.seq
          (Script.seq (Script.seq (Script.seq (header_front_script false) Script.update)
            header_skip_script) header_prob_script) header_mode_script)
        header_mv_script).calls vals n := by
  show (Script.seq (header_front_script false) (Script.seq Script.update
    (Script.seq header_skip_script (Script.seq header_prob_script
      (Script.seq header_mode_script header_mv_script))))).calls vals n = _
  rw [seq_assoc_calls, seq_assoc_calls, seq_assoc_calls, seq_assoc_calls]

theorem inter_pre_all_half :
    (Script.seq
      (Script.seq (Script.seq (Script.seq (header_front_script false) Script.update)
        header_skip_script) header_prob_script) header_mode_script).all_half = true := by
  decide

theorem key_all_half : (header_script true).all_half = true := by
  decide

theorem mv_probs_row_major :
    k_mv_entropy_update_probs.flatten =
      (List.range 2).flatMap (fun i =>
        (List.range V4L2_VP8_MV_PROB_CNT).map (fun j => k_mv_entropy_update_probs_at i j)) := by
  decide
/-! ## Lemmas on the number and the arguments of the reads -/

theorem calls_bounds (vals : Nat → Bool) (s : Script) (n : Nat) :
    s.min_reads ≤ (s.calls vals n).1.length ∧ (s.calls vals n).1.length ≤ s.max_reads := by
  induction s generalizing n with
  | nop => simp [Script.calls, Script.min_reads, Script.max_reads]
  | rd b p => simp [Script.calls, Script.min_reads, Script.max_reads]
  | test p k ih =>
    have h := ih (vals n) (n + 1)
    simp only [Script.calls, Script.min_reads, Script.max_reads, List.length_cons]
    generalize vals n = b at h ⊢
    cases b
    · have h1 := Nat.min_le_right (k true).min_reads (k false).min_reads
      have h2 := Nat.le_max_right (k true).max_reads (k false).max_reads
      omega
    · have h1 := Nat.min_le_left (k true).min_reads (k false).min_reads
      have h2 := Nat.le_max_left (k true).max_reads (k false).max_reads
      omega
  | seq s t ihs iht =>
    have h1 := ihs n
    have h2 := iht (s.calls vals n).2
    simp only [Script.calls, Script.min_reads, Script.max_reads, List.length_append]
    omega
  | update => simp [Script.calls, Script.min_reads, Script.max_reads]

theorem all_reads_calls (P : Nat → Nat → Bool) (vals : Nat → Bool) (s : Script)
    (hs : s.all_reads P = true) (n : Nat) :
    ∀ c ∈ (s.calls vals n).1, P c.1 c.2 = true := by
  induction s generalizing n with
  | nop => simp [Script.calls]
  | rd b p =>
    simp only [Script.all_reads] at hs
    simp [Script.calls, hs]
  | test p k ih =>
    simp only [Script.all_reads, Bool.and_eq_true] at hs
    intro c hc
    simp only [Script.calls, List.mem_cons] at hc
    rcases hc with rfl | hc
    · exact hs.1.1
    · have hk : (k (vals n)).all_reads P = true := by
        cases vals n
        · exact hs.2
        · exact hs.1.2
      exact ih (vals n) hk (n + 1) c hc
  | seq s t ihs iht =>
    simp only [Script.all_reads, Bool.and_eq_true] at hs
    intro c hc
    simp only [Script.calls, List.mem_append] at hc
    rcases hc with hc | hc
    · exact ihs hs.1 n c hc
    · exact iht hs.2 _ c hc
  | update => simp [Script.calls]

theorem calls_const (b : Bool) (s : Script) (n m : Nat) :
    (s.calls (fun _ => b) n).1 = (s.calls (fun _ => b) m).1 := by
  induction s generalizing n m with
  | nop => rfl
  | rd _ _ => rfl
  | test p k ih =>
    simp only [Script.calls]
    rw [ih b (n + 1) (m + 1)]
  | seq s t ihs iht =>
    simp only [Script.calls]
    rw [ihs n m, iht (s.calls (fun _ => b) n).2 (s.calls (fun _ => b) m).2]
  | update => rfl

theorem key_script_reads :
    (header_script true).min_reads = 16 ∧ (header_script true).max_reads = 85 := by
  decide

theorem inter_script_reads :
    (header_script false).min_reads = 62 ∧ (header_script false).max_reads = 178 := by
  decide

theorem inter_calls_all_zero :
    ((header_script false).calls (fun _ => false) 0).1.length = 64 := by
  decide

theorem header_script_valid (key : Bool) : (header_script key).all_reads valid_read = true := by
  cases key <;> decide

theorem mv_probs_range :
    ∀ p ∈ k_mv_entropy_update_probs.flatten, 231 ≤ p ∧ p ≤ 254 := by
  decide

theorem read_bits_lt (K : cedrus_hdr) (hw : Engine) (d : cedrus_dev) (b p : Nat) :
    (read_bits K hw d b p).1 < 256 := by
  rw [read_bits_fst]
  unfold u8
  exact Nat.mod_lt _ (by decide)
/-! ## Lemmas on the front registers, the segmentation bits and the interrupt mask -/

theorem write_all_regs_skip (d : cedrus_dev) (ws : List (Reg × Nat)) (r : Reg)
    (h : r ∉ ws.map Prod.fst) : (write_all d ws).regs r = d.regs r := by
  induction ws generalizing d with
  | nil => rfl
  | cons w ws ih =>
    simp only [List.map_cons, List.mem_cons, not_or] at h
    show (write_all (cedrus_write d w.1 w.2) ws).regs r = d.regs r
    rw [ih _ h.2, cedrus_write_regs, if_neg h.1]

theorem setup_back_regs (K : cedrus_hdr) (bufs : cedrus_bufs) (run : cedrus_run) :
    (setup_back_writes K bufs run).map Prod.fst =
      [Reg.VE_H264_CUR_MB_NUM, Reg.VE_H264_MB_ADDR, Reg.VE_H264_ERROR_CASE,
        Reg.VE_VP8_QP_INDEX_DELTA, Reg.VE_VP8_FSIZE, Reg.VE_VP8_PICSIZE,
        Reg.VE_VP8_SEGMENT_FEAT_MB_LV0, Reg.VE_VP8_SEGMENT_FEAT_MB_LV1,
        Reg.VE_VP8_REF_LF_DELTA, Reg.VE_VP8_MODE_LF_DELTA, Reg.VE_VP8_REC_LUMA,
        Reg.VE_VP8_REC_CHROMA, Reg.VE_VP8_FWD_LUMA, Reg.VE_VP8_FWD_CHROMA,
        Reg.VE_VP8_BWD_LUMA, Reg.VE_VP8_BWD_CHROMA, Reg.VE_VP8_ALT_LUMA,
        Reg.VE_VP8_ALT_CHROMA, Reg.VE_H264_CTRL] := rfl

/-- A register that the back writes and the header replay leave alone holds,
after `cedrus_vp8_setup`, what the front writes left in it. -/
theorem setup_dev_front_regs (K : cedrus_hdr) (bufs : cedrus_bufs) (hw : Engine)
    (ctx : cedrus_vp8_ctx) (run : cedrus_run) (dev : cedrus_dev) (r : Reg)
    (hr : r ∉ (setup_back_writes K bufs run).map Prod.fst)
    (h1 : r ≠ Reg.VE_H264_TRIGGER_TYPE) (h2 : r ≠ Reg.VE_H264_STATUS) :
    (setup_dev K bufs hw ctx run dev).regs r =
      (write_all (cedrus_engine_enable dev) (setup_front_writes K ctx run)).regs r := by
  unfold setup_dev
  rw [write_all_regs_skip _ _ r hr, cedrus_read_header_regs K hw _ _ r h1 h2]

theorem setup_dev_vld_len (K : cedrus_hdr) (bufs : cedrus_bufs) (hw : Engine)
    (ctx : cedrus_vp8_ctx) (run : cedrus_run) (dev : cedrus_dev) :
    (setup_dev K bufs hw ctx run dev).regs Reg.VE_H264_VLD_LEN =
      u32 (run.src_plane_size * 8) := by
  rw [setup_dev_front_regs K bufs hw ctx run dev _ (by rw [setup_back_regs]; decide)
    (by decide) (by decide)]
  simp only [setup_front_writes, write_all, List.foldl_cons, List.foldl_nil,
    cedrus_write_regs, reduceCtorEq, if_true, if_false, u32_u32]

theorem setup_dev_vld_end (K : cedrus_hdr) (bufs : cedrus_bufs) (hw : Engine)
    (ctx : cedrus_vp8_ctx) (run : cedrus_run) (dev : cedrus_dev) :
    (setup_dev K bufs hw ctx run dev).regs Reg.VE_H264_VLD_END =
      u32 (run.src_dma_addr + run.src_plane_payload) := by
  rw [setup_dev_front_regs K bufs hw ctx run dev _ (by rw [setup_back_regs]; decide)
    (by decide) (by decide)]
  simp only [setup_front_writes, write_all, List.foldl_cons, List.foldl_nil,
    cedrus_write_regs, reduceCtorEq, if_true, if_false]

theorem setup_dev_pps (K : cedrus_hdr) (bufs : cedrus_bufs) (hw : Engine)
    (ctx : cedrus_vp8_ctx) (run : cedrus_run) (dev : cedrus_dev) :
    (setup_dev K bufs hw ctx run dev).regs Reg.VE_VP8_PPS =
      u32 (vp8_pps K ctx run.frame_params) := by
  rw [setup_dev_front_regs K bufs hw ctx run dev _ (by rw [setup_back_regs]; decide)
    (by decide) (by decide)]
  simp only [setup_front_writes, write_all, List.foldl_cons, List.foldl_nil,
    cedrus_write_regs, reduceCtorEq, if_true, if_false]

theorem pps_segmentation_enable_bit (K : cedrus_hdr) (hK : pps_wf K) (ctx : cedrus_vp8_ctx)
    (slice : v4l2_ctrl_vp8_frame) :
    vp8_pps K ctx slice &&& K.VE_VP8_PPS_SEGMENTATION_ENABLE =
      if slice.segment.flags &&& K.V4L2_VP8_SEGMENT_FLAG_ENABLED ≠ 0 then
        K.VE_VP8_PPS_SEGMENTATION_ENABLE else 0 := by
  have hm : K.VE_VP8_PPS_SEGMENTATION_ENABLE < 2 ^ 32 :=
    (hK.1 _ (by simp [pps_masks])).2
  have H := disjoint_of_pairwise (pps_masks K) hK.2.1 14 (by show 14 < 21; decide)
  simp only [pps_masks, List.eraseIdx, List.mem_cons, forall_eq_or_imp, forall_eq,
    List.getElem_cons_succ, List.getElem_cons_zero, List.not_mem_nil, false_implies,
    implies_true, and_true] at H
  simp only [vp8_pps, or32_and _ _ _ hm, or32_if_and _ _ _ _ hm, ite_and, H,
    put_and_disjoint, Nat.zero_and, Nat.or_zero, Nat.zero_or, ite_self, Nat.and_self]

theorem pps_abs_delta_bit (K : cedrus_hdr) (hK : pps_wf K) (ctx : cedrus_vp8_ctx)
    (slice : v4l2_ctrl_vp8_frame) :
    vp8_pps K ctx slice &&& K.VE_VP8_PPS_MB_SEGMENT_ABS_DELTA =
      if ¬ (slice.segment.flags &&& K.V4L2_VP8_SEGMENT_FLAG_DELTA_VALUE_MODE ≠ 0) then
        K.VE_VP8_PPS_MB_SEGMENT_ABS_DELTA else 0 := by
  have hm : K.VE_VP8_PPS_MB_SEGMENT_ABS_DELTA < 2 ^ 32 :=
    (hK.1 _ (by simp [pps_masks])).2
  have H := disjoint_of_pairwise (pps_masks K) hK.2.1 15 (by show 15 < 21; decide)
  simp only [pps_masks, List.eraseIdx, List.mem_cons, forall_eq_or_imp, forall_eq,
    List.getElem_cons_succ, List.getElem_cons_zero, List.not_mem_nil, false_implies,
    implies_true, and_true] at H
  simp only [vp8_pps, or32_and _ _ _ hm, or32_if_and _ _ _ _ hm, ite_and, H,
    put_and_disjoint, Nat.zero_and, Nat.or_zero, Nat.zero_or, ite_self, Nat.and_self]

theorem pps_update_map_bit (K : cedrus_hdr) (hK : pps_wf K) (ctx : cedrus_vp8_ctx)
    (slice : v4l2_ctrl_vp8_frame) :
    vp8_pps K ctx slice &&& K.VE_VP8_PPS_UPDATE_MB_SEGMENTATION_MAP =
      if slice.segment.flags &&& K.V4L2_VP8_SEGMENT_FLAG_UPDATE_MAP ≠ 0 then
        K.VE_VP8_PPS_UPDATE_MB_SEGMENTATION_MAP else 0 := by
  have hm : K.VE_VP8_PPS_UPDATE_MB_SEGMENTATION_MAP < 2 ^ 32 :=
    (hK.1 _ (by simp [pps_masks])).2
  have H := disjoint_of_pairwise (pps_masks K) hK.2.1 16 (by show 16 < 21; decide)
  simp only [pps_masks, List.eraseIdx, List.mem_cons, forall_eq_or_imp, forall_eq,
    List.getElem_cons_succ, List.getElem_cons_zero, List.not_mem_nil, false_implies,
    implies_true, and_true] at H
  simp only [vp8_pps, or32_and _ _ _ hm, or32_if_and _ _ _ _ hm, ite_and, H,
    put_and_disjoint, Nat.zero_and, Nat.or_zero, Nat.zero_or, ite_self, Nat.and_self]
/-! ## Lemmas on the baseline span and on the interrupt mask -/

/-- An update changes nothing at or above offset 2048 outside the mode and
motion-vector span `0x1008..0x1052`, and nothing outside the two spans it
writes. -/
theorem update_probs_keeps_high (p : v4l2_ctrl_vp8_frame) (t : List Nat)
    (ht : t.length = CEDRUS_ENTROPY_PROBS_SIZE) :
    ∃ t', cedrus_vp8_update_probs p t = some t' ∧ t'.length = CEDRUS_ENTROPY_PROBS_SIZE ∧
      ∀ x, 2027 ≤ x → (x < 0x1008 ∨ 0x1052 < x) → t'[x]? = t[x]? := by
  obtain ⟨t', hrun, hl, hget⟩ := update_probs_get p t (by rw [ht]; decide)
  refine ⟨t', hrun, by rw [hl, ht], ?_⟩
  intro x hx hr
  have hw : ¬ coeff_written 96 x := by unfold coeff_written; omega
  rw [hget, if_neg hw]
  iterate 9 rw [if_neg (by omega)]

theorem update_many_keeps_high (frames : List v4l2_ctrl_vp8_frame) (t : List Nat)
    (ht : t.length = CEDRUS_ENTROPY_PROBS_SIZE) :
    ∃ t', frames.foldlM (fun t p => cedrus_vp8_update_probs p t) t = some t' ∧
      t'.length = CEDRUS_ENTROPY_PROBS_SIZE ∧
      ∀ x, 2027 ≤ x → (x < 0x1008 ∨ 0x1052 < x) → t'[x]? = t[x]? := by
  induction frames generalizing t with
  | nil => exact ⟨t, rfl, ht, fun _ _ _ => rfl⟩
  | cons p ps ih =>
    obtain ⟨t1, h1, l1, g1⟩ := update_probs_keeps_high p t ht
    obtain ⟨t2, h2, l2, g2⟩ := ih t1 l1
    refine ⟨t2, ?_, l2, fun x hx hr => (g2 x hx hr).trans (g1 x hx hr)⟩
    rw [List.foldlM_cons, h1]
    exact h2

set_option maxRecDepth 8000 in
theorem pti_kf_y_mode_probs_zero :
    ∀ j, j < 96 → 8 ≤ j → pti_kf_y_mode_probs[j]? = some 0 := by
  decide

/-- The baseline table is 0 at the indices 2056..2143, which include the
images 2056..2130 of the mode and motion-vector span of an update. -/
theorem prob_table_init_zero (i : Nat) (h1 : 2056 ≤ i) (h2 : i < 2144) :
    prob_table_init[i]? = some 0 := by
  unfold prob_table_init
  iterate 13 rw [List.getElem?_append_left (by
    simp only [List.length_append, pti_coeff_block0_length, pti_coeff_block1_length,
      pti_coeff_block2_length, pti_coeff_block3_length, pti_kf_y_mode_probs_length,
      pti_split_mv_probs_length, pti_bmode_prob_length, pti_sub_mv_ref_prob_length,
      pti_mv_counts_to_probs_length, pti_kf_y_mode_tree_length, pti_y_mode_tree_length,
      pti_uv_mode_tree_length, pti_small_mv_tree_length, pti_small_mv_tree_again_length,
      pti_split_mv_tree_length, pti_b_mode_tree_length, pti_submv_ref_tree_length]
    omega)]
  rw [List.getElem?_append_right (by
    simp only [List.length_append, pti_coeff_block0_length, pti_coeff_block1_length,
      pti_coeff_block2_length, pti_coeff_block3_length]
    omega)]
  simp only [List.length_append, pti_coeff_block0_length, pti_coeff_block1_length,
    pti_coeff_block2_length, pti_coeff_block3_length]
  exact pti_kf_y_mode_probs_zero _ (by omega) (by omega)

theorem testBit_not32 (m i : Nat) :
    (not32 m).testBit i = (decide (i < 32) && !m.testBit i) := by
  unfold not32
  rw [Nat.testBit_xor, Nat.testBit_two_pow_sub_one, u32, Nat.testBit_mod_two_pow]
  by_cases h : i < 32 <;> simp [h]

theorem testBit_u32 (x i : Nat) : (u32 x).testBit i = (decide (i < 32) && x.testBit i) := by
  rw [u32, Nat.testBit_mod_two_pow]

/-- The word written by `cedrus_vp8_irq_disable` when the control register
reads `c`: bit by bit, `c` with the bits of the interrupt mask cleared. -/
theorem irq_disable_word_bits (m x i : Nat) :
    (u32 (u32 x &&& not32 m)).testBit i = ((u32 x).testBit i && !m.testBit i) := by
  rw [testBit_u32, Nat.testBit_and, testBit_not32, testBit_u32]
  by_cases h : i < 32 <;> simp [h]

theorem irq_disable_word_mask (m x : Nat) : u32 (u32 x &&& not32 m) &&& m = 0 := by
  apply Nat.eq_of_testBit_eq
  intro i
  rw [Nat.testBit_and, irq_disable_word_bits, Nat.zero_testBit]
  cases (u32 x).testBit i <;> cases m.testBit i <;> rfl

theorem irq_disable_word_idem (m x : Nat) :
    u32 (u32 (u32 (u32 x &&& not32 m)) &&& not32 m) = u32 (u32 x &&& not32 m) := by
  apply Nat.eq_of_testBit_eq
  intro i
  rw [irq_disable_word_bits, u32_u32, irq_disable_word_bits]
  cases (u32 x).testBit i <;> cases m.testBit i <;> rfl

theorem irq_disable_regs (K : cedrus_hdr) (hw : Engine) (d : cedrus_dev) (r : Reg) :
    (cedrus_vp8_irq_disable K hw d).regs r =
      if r = Reg.VE_H264_CTRL then
        u32 (u32 (hw.rd d.nread Reg.VE_H264_CTRL) &&& not32 K.VE_H264_CTRL_INT_MASK)
      else d.regs r := rfl

theorem irq_disable_log (K : cedrus_hdr) (hw : Engine) (d : cedrus_dev) :
    (cedrus_vp8_irq_disable K hw d).log =
      d.log ++ [Ev.read Reg.VE_H264_CTRL (u32 (hw.rd d.nread Reg.VE_H264_CTRL)),
        Ev.write Reg.VE_H264_CTRL
          (u32 (u32 (hw.rd d.nread Reg.VE_H264_CTRL) &&& not32 K.VE_H264_CTRL_INT_MASK))] := by
  simp [cedrus_vp8_irq_disable, cedrus_read, cedrus_write]
/-! ## Lemmas on the tested reads -/

/-- The reads of a script are the same for two answer patterns that agree at
the reads the script tests. -/
theorem calls_congr_tested (v1 v2 : Nat → Bool) (s : Script) (n : Nat)
    (h : ∀ i ∈ s.tested v1 n, v1 i = v2 i) : s.calls v1 n = s.calls v2 n := by
  induction s generalizing n with
  | nop => rfl
  | rd _ _ => rfl
  | test p k ih =>
    simp only [Script.tested, List.mem_cons, forall_eq_or_imp] at h
    have e := ih (v1 n) (n + 1) h.2
    simp only [Script.calls]
    rw [← h.1, e]
  | seq s t ihs iht =>
    simp only [Script.tested, List.mem_append] at h
    have e1 := ihs n (fun i hi => h i (Or.inl hi))
    have e2 := iht (s.calls v1 n).2 (fun i hi => h i (Or.inr hi))
    simp only [Script.calls]
    rw [← e1, e2]
  | update => rfl

theorem fives_engine_differs : zero_engine.nonzero 0 ≠ fives_engine.nonzero 0 := by
  decide

theorem fives_engine_tested :
    ∀ n ∈ tested_reads sample_hdr zero_engine sample_dev sample_key_frame,
      zero_engine.nonzero n = fives_engine.nonzero n := by
  decide
/-! ## Probability table: per-frame update and baseline -/

/-- C1: for every frame `p` and every table `t` of 9216 bytes,
`cedrus_vp8_update_probs` succeeds and the resulting table holds, all at
once, the luma mode probabilities at 0x1008..0x100B, the chroma mode
probabilities at 0x1010..0x1012, the segment probabilities at 0x1018..0x101A,
`prob_skip_false`, `prob_intra`, `prob_last`, `prob_gf` at 0x101C..0x101F,
the two rows of motion-vector probabilities at 0x1020..0x1032 and
0x1040..0x1052, and `coeff_probs[i][j][k][l]` at `i*512 + j*64 + k*16 + l`.
As the frame is arbitrary, no copy is overwritten by a later one. -/
theorem update_probs_copies (p : v4l2_ctrl_vp8_frame) (t : List Nat)
    (ht : t.length = CEDRUS_ENTROPY_PROBS_SIZE) :
    ∃ t', cedrus_vp8_update_probs p t = some t' ∧
      (∀ n : Fin 4, t'[0x1008 + n.val]? = some (p.entropy.y_mode_probs n)) ∧
      (∀ n : Fin 3, t'[0x1010 + n.val]? = some (p.entropy.uv_mode_probs n)) ∧
      (∀ n : Fin 3, t'[0x1018 + n.val]? = some (p.segment.segment_probs n)) ∧
      t'[0x101C]? = some p.prob_skip_false ∧
      t'[0x101D]? = some p.prob_intra ∧
      t'[0x101E]? = some p.prob_last ∧
      t'[0x101F]? = some p.prob_gf ∧
      (∀ n : Fin 19, t'[0x1020 + n.val]? = some (p.entropy.mv_probs 0 n)) ∧
      (∀ n : Fin 19, t'[0x1040 + n.val]? = some (p.entropy.mv_probs 1 n)) ∧
      (∀ (i : Fin 4) (j : Fin 8) (k : Fin 3) (l : Fin 11),
        t'[i.val * 512 + j.val * 64 + k.val * 16 + l.val]? =
          some (p.entropy.coeff_probs i j k l)) := by
  have hlen : 0x1053 ≤ t.length := by rw [ht]; decide
  obtain ⟨t', hrun, -, hget⟩ := update_probs_get p t hlen
  refine ⟨t', hrun, ?_, ?_, ?_, ?_, ?_, ?_, ?_, ?_, ?_, ?_⟩
  · intro n
    have hn := n.isLt
    have hw : ¬ coeff_written 96 (0x1008 + n.val) := by unfold coeff_written; omega
    rw [hget, if_neg hw]
    iterate 8 rw [if_neg (by omega)]
    rw [if_pos (by omega), ofFn_get _ _ (by omega)]
    simp
  · intro n
    have hn := n.isLt
    have hw : ¬ coeff_written 96 (0x1010 + n.val) := by unfold coeff_written; omega
    rw [hget, if_neg hw]
    iterate 7 rw [if_neg (by omega)]
    rw [if_pos (by omega), ofFn_get _ _ (by omega)]
    simp
  · intro n
    have hn := n.isLt
    have hw : ¬ coeff_written 96 (0x1018 + n.val) := by unfold coeff_written; omega
    rw [hget, if_neg hw]
    iterate 6 rw [if_neg (by omega)]
    rw [if_pos (by omega), ofFn_get _ _ (by omega)]
    simp
  · have hw : ¬ coeff_written 96 0x101C := by unfold coeff_written; omega
    rw [hget, if_neg hw]
    simp
  · have hw : ¬ coeff_written 96 0x101D := by unfold coeff_written; omega
    rw [hget, if_neg hw]
    simp
  · have hw : ¬ coeff_written 96 0x101E := by unfold coeff_written; omega
    rw [hget, if_neg hw]
    simp
  · have hw : ¬ coeff_written 96 0x101F := by unfold coeff_written; omega
    rw [hget, if_neg hw]
    simp
  · intro n
    have hn := n.isLt
    have hw : ¬ coeff_written 96 (0x1020 + n.val) := by unfold coeff_written; omega
    rw [hget, if_neg hw]
    iterate 1 rw [if_neg (by omega)]
    rw [if_pos (by omega), ofFn_get _ _ (by omega)]
    simp
  · intro n
    have hn := n.isLt
    have hw : ¬ coeff_written 96 (0x1040 + n.val) := by unfold coeff_written; omega
    rw [hget, if_neg hw]
    rw [if_pos (by omega), ofFn_get _ _ (by omega)]
    simp
  · intro i j k l
    have hi := i.isLt
    have hj := j.isLt
    have hk := k.isLt
    have hl := l.isLt
    have hw : coeff_written 96 (i.val * 512 + j.val * 64 + k.val * 16 + l.val) := by
      unfold coeff_written; omega
    rw [hget, if_pos hw, coeff_at_eq]

/-- Witness of C1 on the sample key frame and a zero-filled table. -/
theorem update_probs_copies_witness :
    sample_table.length = CEDRUS_ENTROPY_PROBS_SIZE ∧
    ∃ t', cedrus_vp8_update_probs sample_key_frame sample_table = some t' ∧
      (∀ n : Fin 4, t'[0x1008 + n.val]? = some (sample_key_frame.entropy.y_mode_probs n)) ∧
      (∀ n : Fin 3, t'[0x1010 + n.val]? = some (sample_key_frame.entropy.uv_mode_probs n)) ∧
      (∀ n : Fin 3, t'[0x1018 + n.val]? = some (sample_key_frame.segment.segment_probs n)) ∧
      t'[0x101C]? = some sample_key_frame.prob_skip_false ∧
      t'[0x101D]? = some sample_key_frame.prob_intra ∧
      t'[0x101E]? = some sample_key_frame.prob_last ∧
      t'[0x101F]? = some sample_key_frame.prob_gf ∧
      (∀ n : Fin 19, t'[0x1020 + n.val]? = some (sample_key_frame.entropy.mv_probs 0 n)) ∧
      (∀ n : Fin 19, t'[0x1040 + n.val]? = some (sample_key_frame.entropy.mv_probs 1 n)) ∧
      (∀ (i : Fin 4) (j : Fin 8) (k : Fin 3) (l : Fin 11),
        t'[i.val * 512 + j.val * 64 + k.val * 16 + l.val]? =
          some (sample_key_frame.entropy.coeff_probs i j k l)) :=
  ⟨List.length_replicate _ _,
    update_probs_copies sample_key_frame sample_table (List.length_replicate _ _)⟩

/-- C2: for every frame `p` and every table `t` of 9216 bytes,
`cedrus_vp8_update_probs` keeps the length of the table and the value of
every byte outside the ranges 0x1008..0x100B, 0x1010..0x1012, 0x1018..0x101F,
0x1020..0x1032, 0x1040..0x1052 and the coefficient bytes
`i*512 + j*64 + k*16 + l` (i<4, j<8, k<3, l<11); in particular the padding
bytes 11..15 of every 16-byte row below 2048, the fourth 16-byte row of every
64-byte group below 2048, and every byte from 0x1053 on. -/
theorem update_probs_frame (p : v4l2_ctrl_vp8_frame) (t : List Nat)
    (ht : t.length = CEDRUS_ENTROPY_PROBS_SIZE) :
    ∃ t', cedrus_vp8_update_probs p t = some t' ∧ t'.length = t.length ∧
      (∀ x, ¬ (0x1008 ≤ x ∧ x ≤ 0x100B) → ¬ (0x1010 ≤ x ∧ x ≤ 0x1012) →
        ¬ (0x1018 ≤ x ∧ x ≤ 0x101F) → ¬ (0x1020 ≤ x ∧ x ≤ 0x1032) →
        ¬ (0x1040 ≤ x ∧ x ≤ 0x1052) →
        (¬ ∃ (i : Fin 4) (j : Fin 8) (k : Fin 3) (l : Fin 11),
          x = i.val * 512 + j.val * 64 + k.val * 16 + l.val) →
        t'[x]? = t[x]?) ∧
      (∀ x, x < 2048 → 11 ≤ x % 16 → t'[x]? = t[x]?) ∧
      (∀ x, x < 2048 → 48 ≤ x % 64 → t'[x]? = t[x]?) ∧
      (∀ x, 0x1053 ≤ x → t'[x]? = t[x]?) := by
  have hlen : 0x1053 ≤ t.length := by rw [ht]; decide
  obtain ⟨t', hrun, hl, hget⟩ := update_probs_get p t hlen
  have key : ∀ x, ¬ coeff_written 96 x → ¬ (0x1008 ≤ x ∧ x ≤ 0x100B) →
      ¬ (0x1010 ≤ x ∧ x ≤ 0x1012) → ¬ (0x1018 ≤ x ∧ x ≤ 0x101F) →
      ¬ (0x1020 ≤ x ∧ x ≤ 0x1032) → ¬ (0x1040 ≤ x ∧ x ≤ 0x1052) → t'[x]? = t[x]? := by
    intro x hw h1 h2 h3 h4 h5
    rw [hget, if_neg hw]
    iterate 9 rw [if_neg (by omega)]
  refine ⟨t', hrun, hl, ?_, ?_, ?_, ?_⟩
  · intro x h1 h2 h3 h4 h5 h6
    refine key x ?_ h1 h2 h3 h4 h5
    intro hw
    unfold coeff_written at hw
    apply h6
    refine ⟨⟨x / 512, by omega⟩, ⟨x % 512 / 64, by omega⟩, ⟨x % 64 / 16, by omega⟩,
      ⟨x % 16, by omega⟩, ?_⟩
    simp only
    omega
  · intro x hx hm
    exact key x (by unfold coeff_written; omega) (by omega) (by omega) (by omega) (by omega)
      (by omega)
  · intro x hx hm
    exact key x (by unfold coeff_written; omega) (by omega) (by omega) (by omega) (by omega)
      (by omega)
  · intro x hx
    exact key x (by unfold coeff_written; omega) (by omega) (by omega) (by omega) (by omega)
      (by omega)

/-- Witness of C2 on the sample key frame and a zero-filled table. -/
theorem update_probs_frame_witness :
    sample_table.length = CEDRUS_ENTROPY_PROBS_SIZE ∧
    ∃ t', cedrus_vp8_update_probs sample_key_frame sample_table = some t' ∧
      t'.length = sample_table.length ∧
      (∀ x, ¬ (0x1008 ≤ x ∧ x ≤ 0x100B) → ¬ (0x1010 ≤ x ∧ x ≤ 0x1012) →
        ¬ (0x1018 ≤ x ∧ x ≤ 0x101F) → ¬ (0x1020 ≤ x ∧ x ≤ 0x1032) →
        ¬ (0x1040 ≤ x ∧ x ≤ 0x1052) →
        (¬ ∃ (i : Fin 4) (j : Fin 8) (k : Fin 3) (l : Fin 11),
          x = i.val * 512 + j.val * 64 + k.val * 16 + l.val) →
        t'[x]? = sample_table[x]?) ∧
      (∀ x, x < 2048 → 11 ≤ x % 16 → t'[x]? = sample_table[x]?) ∧
      (∀ x, x < 2048 → 48 ≤ x % 64 → t'[x]? = sample_table[x]?) ∧
      (∀ x, 0x1053 ≤ x → t'[x]? = sample_table[x]?) :=
  ⟨List.length_replicate _ _,
    update_probs_frame sample_key_frame sample_table (List.length_replicate _ _)⟩

/-! ## Interrupt classification -/

/-- C3: with `s` the 32-bit value read from the status register,
`cedrus_vp8_irq_status` returns `CEDRUS_IRQ_ERROR` exactly when the
decode-error bit or the VLD-data-request bit is set in `s`, `CEDRUS_IRQ_OK`
exactly when neither is set and the slice-decode-complete bit is set, and
`CEDRUS_IRQ_NONE` exactly when none of the three is set; so an error bit
together with the complete bit gives `CEDRUS_IRQ_ERROR`. -/
theorem irq_status_classifies (K : cedrus_hdr) (hw : Engine) (dev : cedrus_dev) :
    ((cedrus_vp8_irq_status K hw dev).1 = cedrus_irq_status.CEDRUS_IRQ_ERROR ↔
      (u32 (hw.rd dev.nread Reg.VE_H264_STATUS) &&& K.VE_H264_STATUS_DECODE_ERR_INT ≠ 0 ∨
        u32 (hw.rd dev.nread Reg.VE_H264_STATUS) &&& K.VE_H264_STATUS_VLD_DATA_REQ_INT ≠ 0)) ∧
    ((cedrus_vp8_irq_status K hw dev).1 = cedrus_irq_status.CEDRUS_IRQ_OK ↔
      (u32 (hw.rd dev.nread Reg.VE_H264_STATUS) &&& K.VE_H264_STATUS_DECODE_ERR_INT = 0 ∧
        u32 (hw.rd dev.nread Reg.VE_H264_STATUS) &&& K.VE_H264_STATUS_VLD_DATA_REQ_INT = 0 ∧
        u32 (hw.rd dev.nread Reg.VE_H264_STATUS) &&& K.VE_H264_CTRL_SLICE_DECODE_INT ≠ 0)) ∧
    ((cedrus_vp8_irq_status K hw dev).1 = cedrus_irq_status.CEDRUS_IRQ_NONE ↔
      (u32 (hw.rd dev.nread Reg.VE_H264_STATUS) &&& K.VE_H264_STATUS_DECODE_ERR_INT = 0 ∧
        u32 (hw.rd dev.nread Reg.VE_H264_STATUS) &&& K.VE_H264_STATUS_VLD_DATA_REQ_INT = 0 ∧
        u32 (hw.rd dev.nread Reg.VE_H264_STATUS) &&& K.VE_H264_CTRL_SLICE_DECODE_INT = 0)) ∧
    ((u32 (hw.rd dev.nread Reg.VE_H264_STATUS) &&& K.VE_H264_STATUS_DECODE_ERR_INT ≠ 0 ∨
        u32 (hw.rd dev.nread Reg.VE_H264_STATUS) &&& K.VE_H264_STATUS_VLD_DATA_REQ_INT ≠ 0) →
      u32 (hw.rd dev.nread Reg.VE_H264_STATUS) &&& K.VE_H264_CTRL_SLICE_DECODE_INT ≠ 0 →
      (cedrus_vp8_irq_status K hw dev).1 = cedrus_irq_status.CEDRUS_IRQ_ERROR) := by
  have hor : u32 (hw.rd dev.nread Reg.VE_H264_STATUS) &&&
      (K.VE_H264_STATUS_DECODE_ERR_INT ||| K.VE_H264_STATUS_VLD_DATA_REQ_INT) = 0 ↔
      (u32 (hw.rd dev.nread Reg.VE_H264_STATUS) &&& K.VE_H264_STATUS_DECODE_ERR_INT = 0 ∧
        u32 (hw.rd dev.nread Reg.VE_H264_STATUS) &&& K.VE_H264_STATUS_VLD_DATA_REQ_INT = 0) := by
    rw [Nat.and_or_distrib_left, or_eq_zero]
  unfold cedrus_vp8_irq_status cedrus_read
  simp only []
  by_cases he : u32 (hw.rd dev.nread Reg.VE_H264_STATUS) &&&
      (K.VE_H264_STATUS_DECODE_ERR_INT ||| K.VE_H264_STATUS_VLD_DATA_REQ_INT) = 0
  · have he' := hor.1 he
    by_cases hc : u32 (hw.rd dev.nread Reg.VE_H264_STATUS) &&&
        K.VE_H264_CTRL_SLICE_DECODE_INT = 0
    · simp [he, hc, he'.1, he'.2]
    · simp [he, hc, he'.1, he'.2]
  · have he' : ¬ (u32 (hw.rd dev.nread Reg.VE_H264_STATUS) &&&
          K.VE_H264_STATUS_DECODE_ERR_INT = 0 ∧
        u32 (hw.rd dev.nread Reg.VE_H264_STATUS) &&&
          K.VE_H264_STATUS_VLD_DATA_REQ_INT = 0) := fun h => he (hor.2 h)
    have he2 : u32 (hw.rd dev.nread Reg.VE_H264_STATUS) &&&
          K.VE_H264_STATUS_DECODE_ERR_INT ≠ 0 ∨
        u32 (hw.rd dev.nread Reg.VE_H264_STATUS) &&&
          K.VE_H264_STATUS_VLD_DATA_REQ_INT ≠ 0 := by
      by_contra hcon
      push_neg at hcon
      exact he' hcon
    rw [if_pos he]
    refine ⟨⟨fun _ => he2, fun _ => rfl⟩, ⟨fun h => (by cases h), fun h => (he' ⟨h.1, h.2.1⟩).elim⟩,
      ⟨fun h => (by cases h), fun h => (he' ⟨h.1, h.2.1⟩).elim⟩, fun _ _ => rfl⟩

/-! ## Session hints -/

/-- C4: on a session whose table is allocated, for every frame with
loop-filter level 0, `cedrus_vp8_setup` succeeds and leaves the three hints
`last_filter_type`, `last_frame_p_type`, `last_sharpness_level` as they were,
whatever the other frame fields, the device state and the engine's answers
during the header replay. -/
theorem setup_level_zero_keeps_hints (K : cedrus_hdr) (bufs : cedrus_bufs) (hw : Engine)
    (ctx : cedrus_vp8_ctx) (run : cedrus_run) (dev : cedrus_dev) (buf : List Nat)
    (hb : ctx.entropy_probs_buf = some buf) (hl : buf.length = CEDRUS_ENTROPY_PROBS_SIZE)
    (hz : run.frame_params.lf.level = 0) :
    ∃ ctx' dev', cedrus_vp8_setup K bufs hw ctx run dev = some (ctx', dev') ∧
      ctx'.last_filter_type = ctx.last_filter_type ∧
      ctx'.last_frame_p_type = ctx.last_frame_p_type ∧
      ctx'.last_sharpness_level = ctx.last_sharpness_level := by
  obtain ⟨buf', dev', -, -, hs, -⟩ := setup_outcome K bufs hw ctx run dev buf hb hl
  refine ⟨_, dev', hs, ?_⟩
  unfold vp8_save_hints
  rw [if_neg (by rw [hz]; exact fun h => h rfl)]
  exact ⟨rfl, rfl, rfl⟩

/-- Witness of C4: the sample key frame (level 0) on a session with hints
(1, 1, 5). -/
theorem setup_level_zero_keeps_hints_witness :
    (sample_ctx 1 1 5).entropy_probs_buf = some sample_table ∧
    sample_table.length = CEDRUS_ENTROPY_PROBS_SIZE ∧
    (sample_run sample_key_frame).frame_params.lf.level = 0 ∧
    ∃ ctx' dev',
      cedrus_vp8_setup sample_hdr sample_bufs sample_engine (sample_ctx 1 1 5)
        (sample_run sample_key_frame) sample_dev = some (ctx', dev') ∧
      ctx'.last_filter_type = (sample_ctx 1 1 5).last_filter_type ∧
      ctx'.last_frame_p_type = (sample_ctx 1 1 5).last_frame_p_type ∧
      ctx'.last_sharpness_level = (sample_ctx 1 1 5).last_sharpness_level :=
  ⟨rfl, List.length_replicate _ _, rfl,
    setup_level_zero_keeps_hints sample_hdr sample_bufs sample_engine (sample_ctx 1 1 5)
      (sample_run sample_key_frame) sample_dev sample_table rfl (List.length_replicate _ _) rfl⟩

/-- C5: on a session whose table is allocated, for every frame with non-zero
loop-filter level, `cedrus_vp8_setup` succeeds and leaves
`last_filter_type` = 1 if the loop-filter flags contain `FILTER_TYPE_SIMPLE`
and 0 otherwise, `last_frame_p_type` = 0 for a key frame and 1 otherwise, and
`last_sharpness_level` = the frame's `lf.sharpness_level`: values that depend
on the frame alone, not on the previous hints. -/
theorem setup_level_nonzero_sets_hints (K : cedrus_hdr) (bufs : cedrus_bufs) (hw : Engine)
    (ctx : cedrus_vp8_ctx) (run : cedrus_run) (dev : cedrus_dev) (buf : List Nat)
    (hb : ctx.entropy_probs_buf = some buf) (hl : buf.length = CEDRUS_ENTROPY_PROBS_SIZE)
    (hnz : run.frame_params.lf.level ≠ 0) :
    ∃ ctx' dev', cedrus_vp8_setup K bufs hw ctx run dev = some (ctx', dev') ∧
      ctx'.last_filter_type =
        (if run.frame_params.lf.flags &&& K.V4L2_VP8_LF_FILTER_TYPE_SIMPLE ≠ 0 then 1 else 0) ∧
      ctx'.last_frame_p_type =
        (if run.frame_params.flags &&& K.V4L2_VP8_FRAME_FLAG_KEY_FRAME ≠ 0 then 0 else 1) ∧
      ctx'.last_sharpness_level = run.frame_params.lf.sharpness_level := by
  obtain ⟨buf', dev', -, -, hs, -⟩ := setup_outcome K bufs hw ctx run dev buf hb hl
  refine ⟨_, dev', hs, ?_⟩
  unfold vp8_save_hints
  rw [if_pos hnz]
  refine ⟨rfl, ?_, rfl⟩
  by_cases hk : run.frame_params.flags &&& K.V4L2_VP8_FRAME_FLAG_KEY_FRAME ≠ 0
  · rw [if_pos hk]
    simp only [(is_key_frame_iff K run.frame_params).2 hk, if_true]
  · have hb' : V4L2_VP8_FRAME_IS_KEY_FRAME K run.frame_params = false := by
      cases h : V4L2_VP8_FRAME_IS_KEY_FRAME K run.frame_params
      · rfl
      · exact absurd ((is_key_frame_iff K run.frame_params).1 h) hk
    rw [if_neg hk]
    simp only [hb', if_false, Bool.false_eq_true]

/-- Witness of C5: the sample inter frame (level 20, simple filter,
sharpness 3) on a session with hints (0, 0, 5). -/
theorem setup_level_nonzero_sets_hints_witness :
    (sample_ctx 0 0 5).entropy_probs_buf = some sample_table ∧
    sample_table.length = CEDRUS_ENTROPY_PROBS_SIZE ∧
    (sample_run sample_inter_frame).frame_params.lf.level ≠ 0 ∧
    ∃ ctx' dev',
      cedrus_vp8_setup sample_hdr sample_bufs sample_engine (sample_ctx 0 0 5)
        (sample_run sample_inter_frame) sample_dev = some (ctx', dev') ∧
      ctx'.last_filter_type =
        (if (sample_run sample_inter_frame).frame_params.lf.flags &&&
          sample_hdr.V4L2_VP8_LF_FILTER_TYPE_SIMPLE ≠ 0 then 1 else 0) ∧
      ctx'.last_frame_p_type =
        (if (sample_run sample_inter_frame).frame_params.flags &&&
          sample_hdr.V4L2_VP8_FRAME_FLAG_KEY_FRAME ≠ 0 then 0 else 1) ∧
      ctx'.last_sharpness_level = (sample_run sample_inter_frame).frame_params.lf.sharpness_level :=
  ⟨rfl, List.length_replicate _ _, by decide,
    setup_level_nonzero_sets_hints sample_hdr sample_bufs sample_engine (sample_ctx 0 0 5)
      (sample_run sample_inter_frame) sample_dev sample_table rfl (List.length_replicate _ _)
      (by decide)⟩

/-! ## Picture-parameter word and the previous hints -/

/-- C6 (amended): with a well-formed picture-parameter layout, for every
initial hint triple, every key frame `f1` with loop-filter level 0 and every
inter frame `f2`, running `cedrus_vp8_setup` on `f1` and then on `f2` leaves in
`VE_VP8_PPS` a word whose last-loop-filter-simple bit is set iff the initial
`last_filter_type` is non-zero, whose last-picture-type-P bit is set iff the
initial `last_frame_p_type` is non-zero, and whose last-sharpness field holds
the initial `last_sharpness_level` reduced modulo 2^width of the field, hence
the hint itself whenever it fits the field. -/
theorem setup_pps_uses_previous_hints (K : cedrus_hdr) (bufs : cedrus_bufs)
    (hw1 hw2 : Engine) (ctx : cedrus_vp8_ctx) (run1 run2 : cedrus_run) (dev : cedrus_dev)
    (buf : List Nat) (hK : pps_wf K)
    (hb : ctx.entropy_probs_buf = some buf) (hl : buf.length = CEDRUS_ENTROPY_PROBS_SIZE)
    (_hkey : V4L2_VP8_FRAME_IS_KEY_FRAME K run1.frame_params = true)
    (hz : run1.frame_params.lf.level = 0)
    (_hinter : V4L2_VP8_FRAME_IS_KEY_FRAME K run2.frame_params = false) :
    ∃ ctx1 dev1 ctx2 dev2,
      cedrus_vp8_setup K bufs hw1 ctx run1 dev = some (ctx1, dev1) ∧
      cedrus_vp8_setup K bufs hw2 ctx1 run2 dev1 = some (ctx2, dev2) ∧
      (dev2.regs Reg.VE_VP8_PPS &&& K.VE_VP8_PPS_LAST_LOOP_FILTER_SIMPLE ≠ 0 ↔
        ctx.last_filter_type ≠ 0) ∧
      (dev2.regs Reg.VE_VP8_PPS &&& K.VE_VP8_PPS_LAST_PIC_TYPE_P_FRAME ≠ 0 ↔
        ctx.last_frame_p_type ≠ 0) ∧
      K.VE_VP8_PPS_LAST_SHARPNESS_LEVEL.get (dev2.regs Reg.VE_VP8_PPS) =
        ctx.last_sharpness_level % 2 ^ K.VE_VP8_PPS_LAST_SHARPNESS_LEVEL.width ∧
      (ctx.last_sharpness_level < 2 ^ K.VE_VP8_PPS_LAST_SHARPNESS_LEVEL.width →
        K.VE_VP8_PPS_LAST_SHARPNESS_LEVEL.get (dev2.regs Reg.VE_VP8_PPS) =
          ctx.last_sharpness_level) := by
  obtain ⟨ctx1, dev1, ctx2, dev2, h1, h2, hp⟩ :=
    setup_twice_pps K bufs hw1 hw2 ctx run1 run2 dev buf hb hl hz
  have hm1 := hK.1 K.VE_VP8_PPS_LAST_LOOP_FILTER_SIMPLE (by simp [pps_masks])
  have hm2 := hK.1 K.VE_VP8_PPS_LAST_PIC_TYPE_P_FRAME (by simp [pps_masks])
  have hf := pps_last_sharpness_field K hK ctx run2.frame_params
  refine ⟨ctx1, dev1, ctx2, dev2, h1, h2, ?_, ?_, ?_, ?_⟩
  · rw [hp, u32_and _ _ hm1.2]
    exact and_mask_ne_zero_iff _ _ _ hm1.1 (pps_last_filter_bit K hK ctx run2.frame_params)
  · rw [hp, u32_and _ _ hm2.2]
    exact and_mask_ne_zero_iff _ _ _ hm2.1 (pps_last_p_type_bit K hK ctx run2.frame_params)
  · rw [hp, hf]
  · intro hfit
    rw [hp, hf, Nat.mod_eq_of_lt hfit]

/-- Witness of C6 (amended): the sample key frame followed by the sample inter
frame on a session with hints (1, 1, 5). -/
theorem setup_pps_uses_previous_hints_witness :
    pps_wf sample_hdr ∧
    (sample_ctx 1 1 5).entropy_probs_buf = some sample_table ∧
    sample_table.length = CEDRUS_ENTROPY_PROBS_SIZE ∧
    V4L2_VP8_FRAME_IS_KEY_FRAME sample_hdr (sample_run sample_key_frame).frame_params = true ∧
    (sample_run sample_key_frame).frame_params.lf.level = 0 ∧
    V4L2_VP8_FRAME_IS_KEY_FRAME sample_hdr (sample_run sample_inter_frame).frame_params = false ∧
    ∃ ctx1 dev1 ctx2 dev2,
      cedrus_vp8_setup sample_hdr sample_bufs sample_engine (sample_ctx 1 1 5)
        (sample_run sample_key_frame) sample_dev = some (ctx1, dev1) ∧
      cedrus_vp8_setup sample_hdr sample_bufs sample_engine ctx1
        (sample_run sample_inter_frame) dev1 = some (ctx2, dev2) ∧
      (dev2.regs Reg.VE_VP8_PPS &&& sample_hdr.VE_VP8_PPS_LAST_LOOP_FILTER_SIMPLE ≠ 0 ↔
        (sample_ctx 1 1 5).last_filter_type ≠ 0) ∧
      (dev2.regs Reg.VE_VP8_PPS &&& sample_hdr.VE_VP8_PPS_LAST_PIC_TYPE_P_FRAME ≠ 0 ↔
        (sample_ctx 1 1 5).last_frame_p_type ≠ 0) ∧
      sample_hdr.VE_VP8_PPS_LAST_SHARPNESS_LEVEL.get (dev2.regs Reg.VE_VP8_PPS) =
        (sample_ctx 1 1 5).last_sharpness_level %
          2 ^ sample_hdr.VE_VP8_PPS_LAST_SHARPNESS_LEVEL.width ∧
      ((sample_ctx 1 1 5).last_sharpness_level <
          2 ^ sample_hdr.VE_VP8_PPS_LAST_SHARPNESS_LEVEL.width →
        sample_hdr.VE_VP8_PPS_LAST_SHARPNESS_LEVEL.get (dev2.regs Reg.VE_VP8_PPS) =
          (sample_ctx 1 1 5).last_sharpness_level) :=
  ⟨by decide, rfl, List.length_replicate _ _, by decide, rfl, by decide,
    setup_pps_uses_previous_hints sample_hdr sample_bufs sample_engine sample_engine
      (sample_ctx 1 1 5) (sample_run sample_key_frame) (sample_run sample_inter_frame)
      sample_dev sample_table (by decide) rfl (List.length_replicate _ _) (by decide) rfl
      (by decide)⟩

/-- Counterexample to C6 as stated: with the sample layout (a 3-bit
last-sharpness field) and the initial hint `last_sharpness_level = 8`, the
sample key frame (level 0) followed by the sample inter frame leaves 0, not 8,
in the last-sharpness field of `VE_VP8_PPS`. -/
theorem setup_pps_last_sharpness_truncated :
    V4L2_VP8_FRAME_IS_KEY_FRAME sample_hdr sample_key_frame = true ∧
    sample_key_frame.lf.level = 0 ∧
    V4L2_VP8_FRAME_IS_KEY_FRAME sample_hdr sample_inter_frame = false ∧
    (sample_ctx 0 0 8).last_sharpness_level = 8 ∧
    ∃ ctx1 dev1 ctx2 dev2,
      cedrus_vp8_setup sample_hdr sample_bufs sample_engine (sample_ctx 0 0 8)
        (sample_run sample_key_frame) sample_dev = some (ctx1, dev1) ∧
      cedrus_vp8_setup sample_hdr sample_bufs sample_engine ctx1
        (sample_run sample_inter_frame) dev1 = some (ctx2, dev2) ∧
      sample_hdr.VE_VP8_PPS_LAST_SHARPNESS_LEVEL.get (dev2.regs Reg.VE_VP8_PPS) = 0 ∧
      sample_hdr.VE_VP8_PPS_LAST_SHARPNESS_LEVEL.get (dev2.regs Reg.VE_VP8_PPS) ≠
        (sample_ctx 0 0 8).last_sharpness_level := by
  refine ⟨by decide, rfl, by decide, rfl, ?_⟩
  obtain ⟨ctx1, dev1, ctx2, dev2, h1, h2, hp⟩ :=
    setup_twice_pps sample_hdr sample_bufs sample_engine sample_engine (sample_ctx 0 0 8)
      (sample_run sample_key_frame) (sample_run sample_inter_frame) sample_dev sample_table
      rfl (List.length_replicate _ _) rfl
  have hf := pps_last_sharpness_field sample_hdr (by decide) (sample_ctx 0 0 8)
    (sample_run sample_inter_frame).frame_params
  have h0 : sample_hdr.VE_VP8_PPS_LAST_SHARPNESS_LEVEL.get (dev2.regs Reg.VE_VP8_PPS) = 0 := by
    rw [hp, hf]
    decide
  refine ⟨ctx1, dev1, ctx2, dev2, h1, h2, h0, ?_⟩
  rw [h0]
  decide

/-! ## Bitstream window, reference addresses, quantizer word -/

/-- C7: on a session whose table is allocated, `cedrus_vp8_setup` uses one
header size, 10 when the frame's `KEY_FRAME` flag is set and 3 otherwise, in
both places: `VE_H264_VLD_OFFSET` ends as `header_size * 8` (80 or 24) and
`VE_VP8_PART_SIZE_OFFSET` as `first_part_size + header_size` in 32-bit
arithmetic. -/
theorem setup_header_size (K : cedrus_hdr) (bufs : cedrus_bufs) (hw : Engine)
    (ctx : cedrus_vp8_ctx) (run : cedrus_run) (dev : cedrus_dev) (buf : List Nat)
    (hb : ctx.entropy_probs_buf = some buf) (hl : buf.length = CEDRUS_ENTROPY_PROBS_SIZE) :
    ∃ ctx' dev' header_size,
      cedrus_vp8_setup K bufs hw ctx run dev = some (ctx', dev') ∧
      (run.frame_params.flags &&& K.V4L2_VP8_FRAME_FLAG_KEY_FRAME ≠ 0 → header_size = 10) ∧
      (¬ run.frame_params.flags &&& K.V4L2_VP8_FRAME_FLAG_KEY_FRAME ≠ 0 → header_size = 3) ∧
      dev'.regs Reg.VE_H264_VLD_OFFSET = header_size * 8 ∧
      dev'.regs Reg.VE_VP8_PART_SIZE_OFFSET =
        (run.frame_params.first_part_size + header_size) % 2 ^ 32 := by
  obtain ⟨buf', dev', -, -, hs, -, -, hoff, hpart, -⟩ :=
    setup_outcome K bufs hw ctx run dev buf hb hl
  refine ⟨_, dev', if V4L2_VP8_FRAME_IS_KEY_FRAME K run.frame_params then 10 else 3, hs,
    ?_, ?_, ?_, hpart⟩
  · intro hk
    rw [if_pos ((is_key_frame_iff K run.frame_params).2 hk)]
  · intro hk
    rw [if_neg (fun h => hk ((is_key_frame_iff K run.frame_params).1 h))]
  · rw [hoff]
    split <;> rfl

/-- Witness of C7 on the sample key frame. -/
theorem setup_header_size_witness :
    (sample_ctx 1 1 5).entropy_probs_buf = some sample_table ∧
    sample_table.length = CEDRUS_ENTROPY_PROBS_SIZE ∧
    ∃ ctx' dev' header_size,
      cedrus_vp8_setup sample_hdr sample_bufs sample_engine (sample_ctx 1 1 5)
        (sample_run sample_key_frame) sample_dev = some (ctx', dev') ∧
      ((sample_run sample_key_frame).frame_params.flags &&&
          sample_hdr.V4L2_VP8_FRAME_FLAG_KEY_FRAME ≠ 0 → header_size = 10) ∧
      (¬ (sample_run sample_key_frame).frame_params.flags &&&
          sample_hdr.V4L2_VP8_FRAME_FLAG_KEY_FRAME ≠ 0 → header_size = 3) ∧
      dev'.regs Reg.VE_H264_VLD_OFFSET = header_size * 8 ∧
      dev'.regs Reg.VE_VP8_PART_SIZE_OFFSET =
        ((sample_run sample_key_frame).frame_params.first_part_size + header_size) % 2 ^ 32 :=
  ⟨rfl, List.length_replicate _ _,
    setup_header_size sample_hdr sample_bufs sample_engine (sample_ctx 1 1 5)
      (sample_run sample_key_frame) sample_dev sample_table rfl (List.length_replicate _ _)⟩

/-- C8: on a session whose table is allocated and whatever the registers held
before, after `cedrus_vp8_setup` each reference slot (last: `VE_VP8_FWD_*`,
golden: `VE_VP8_BWD_*`, alt-ref: `VE_VP8_ALT_*`) holds the luma and chroma
addresses of buffer `k`, as 32-bit register words, when the timestamp lookup
returns `k ≥ 0`, and the pair (0, 0) when the lookup returns a negative
value. -/
theorem setup_reference_addresses (K : cedrus_hdr) (bufs : cedrus_bufs) (hw : Engine)
    (ctx : cedrus_vp8_ctx) (run : cedrus_run) (dev : cedrus_dev) (buf : List Nat)
    (hb : ctx.entropy_probs_buf = some buf) (hl : buf.length = CEDRUS_ENTROPY_PROBS_SIZE) :
    ∃ ctx' dev', cedrus_vp8_setup K bufs hw ctx run dev = some (ctx', dev') ∧
      (∀ k, bufs.vb2_find_timestamp run.frame_params.last_frame_ts = k → 0 ≤ k →
        dev'.regs Reg.VE_VP8_FWD_LUMA = u32 (bufs.cedrus_dst_buf_addr k 0) ∧
        dev'.regs Reg.VE_VP8_FWD_CHROMA = u32 (bufs.cedrus_dst_buf_addr k 1)) ∧
      (bufs.vb2_find_timestamp run.frame_params.last_frame_ts < 0 →
        dev'.regs Reg.VE_VP8_FWD_LUMA = 0 ∧ dev'.regs Reg.VE_VP8_FWD_CHROMA = 0) ∧
      (∀ k, bufs.vb2_find_timestamp run.frame_params.golden_frame_ts = k → 0 ≤ k →
        dev'.regs Reg.VE_VP8_BWD_LUMA = u32 (bufs.cedrus_dst_buf_addr k 0) ∧
        dev'.regs Reg.VE_VP8_BWD_CHROMA = u32 (bufs.cedrus_dst_buf_addr k 1)) ∧
      (bufs.vb2_find_timestamp run.frame_params.golden_frame_ts < 0 →
        dev'.regs Reg.VE_VP8_BWD_LUMA = 0 ∧ dev'.regs Reg.VE_VP8_BWD_CHROMA = 0) ∧
      (∀ k, bufs.vb2_find_timestamp run.frame_params.alt_frame_ts = k → 0 ≤ k →
        dev'.regs Reg.VE_VP8_ALT_LUMA = u32 (bufs.cedrus_dst_buf_addr k 0) ∧
        dev'.regs Reg.VE_VP8_ALT_CHROMA = u32 (bufs.cedrus_dst_buf_addr k 1)) ∧
      (bufs.vb2_find_timestamp run.frame_params.alt_frame_ts < 0 →
        dev'.regs Reg.VE_VP8_ALT_LUMA = 0 ∧ dev'.regs Reg.VE_VP8_ALT_CHROMA = 0) := by
  obtain ⟨buf', dev', -, -, hs, -, -, -, -, f1, f2, b1, b2, a1, a2⟩ :=
    setup_outcome K bufs hw ctx run dev buf hb hl
  rw [vp8_set_ref_regs] at f1 f2 b1 b2 a1 a2
  simp only [ne_eq, reduceCtorEq, if_true, if_false] at f1 f2 b1 b2 a1 a2
  refine ⟨_, dev', hs, ?_, ?_, ?_, ?_, ?_, ?_⟩
  · intro k hk hpos
    subst hk
    rw [f1, f2, if_pos hpos, if_pos hpos]
    exact ⟨rfl, rfl⟩
  · intro hneg
    rw [f1, f2, if_neg (not_le.2 hneg), if_neg (not_le.2 hneg)]
    exact ⟨rfl, rfl⟩
  · intro k hk hpos
    subst hk
    rw [b1, b2, if_pos hpos, if_pos hpos]
    exact ⟨rfl, rfl⟩
  · intro hneg
    rw [b1, b2, if_neg (not_le.2 hneg), if_neg (not_le.2 hneg)]
    exact ⟨rfl, rfl⟩
  · intro k hk hpos
    subst hk
    rw [a1, a2, if_pos hpos, if_pos hpos]
    exact ⟨rfl, rfl⟩
  · intro hneg
    rw [a1, a2, if_neg (not_le.2 hneg), if_neg (not_le.2 hneg)]
    exact ⟨rfl, rfl⟩

/-- Witness of C8 on the sample inter frame: its last and golden timestamps
are in the sample pool, its alt-ref timestamp is not. -/
theorem setup_reference_addresses_witness :
    (sample_ctx 1 1 5).entropy_probs_buf = some sample_table ∧
    sample_table.length = CEDRUS_ENTROPY_PROBS_SIZE ∧
    ∃ ctx' dev',
      cedrus_vp8_setup sample_hdr sample_bufs sample_engine (sample_ctx 1 1 5)
        (sample_run sample_inter_frame) sample_dev = some (ctx', dev') ∧
      (∀ k, sample_bufs.vb2_find_timestamp
          (sample_run sample_inter_frame).frame_params.last_frame_ts = k → 0 ≤ k →
        dev'.regs Reg.VE_VP8_FWD_LUMA = u32 (sample_bufs.cedrus_dst_buf_addr k 0) ∧
        dev'.regs Reg.VE_VP8_FWD_CHROMA = u32 (sample_bufs.cedrus_dst_buf_addr k 1)) ∧
      (sample_bufs.vb2_find_timestamp
          (sample_run sample_inter_frame).frame_params.last_frame_ts < 0 →
        dev'.regs Reg.VE_VP8_FWD_LUMA = 0 ∧ dev'.regs Reg.VE_VP8_FWD_CHROMA = 0) ∧
      (∀ k, sample_bufs.vb2_find_timestamp
          (sample_run sample_inter_frame).frame_params.golden_frame_ts = k → 0 ≤ k →
        dev'.regs Reg.VE_VP8_BWD_LUMA = u32 (sample_bufs.cedrus_dst_buf_addr k 0) ∧
        dev'.regs Reg.VE_VP8_BWD_CHROMA = u32 (sample_bufs.cedrus_dst_buf_addr k 1)) ∧
      (sample_bufs.vb2_find_timestamp
          (sample_run sample_inter_frame).frame_params.golden_frame_ts < 0 →
        dev'.regs Reg.VE_VP8_BWD_LUMA = 0 ∧ dev'.regs Reg.VE_VP8_BWD_CHROMA = 0) ∧
      (∀ k, sample_bufs.vb2_find_timestamp
          (sample_run sample_inter_frame).frame_params.alt_frame_ts = k → 0 ≤ k →
        dev'.regs Reg.VE_VP8_ALT_LUMA = u32 (sample_bufs.cedrus_dst_buf_addr k 0) ∧
        dev'.regs Reg.VE_VP8_ALT_CHROMA = u32 (sample_bufs.cedrus_dst_buf_addr k 1)) ∧
      (sample_bufs.vb2_find_timestamp
          (sample_run sample_inter_frame).frame_params.alt_frame_ts < 0 →
        dev'.regs Reg.VE_VP8_ALT_LUMA = 0 ∧ dev'.regs Reg.VE_VP8_ALT_CHROMA = 0) :=
  ⟨rfl, List.length_replicate _ _,
    setup_reference_addresses sample_hdr sample_bufs sample_engine (sample_ctx 1 1 5)
      (sample_run sample_inter_frame) sample_dev sample_table rfl (List.length_replicate _ _)⟩

/-- C9: for a quantizer-delta layout of six fields in pairwise disjoint bit
ranges of one 32-bit word, the word built by `cedrus_vp8_setup` is a 32-bit
word that holds each value in its own range, and for in-range values (each
signed delta representable in its field, the base index below 2^width of its
field) reading the six ranges back, with sign extension for the deltas,
recovers `uv_ac_delta`, `uv_dc_delta`, `y2_ac_delta`, `y2_dc_delta`,
`y_dc_delta` and `y_ac_qi` exactly. -/
theorem qp_index_delta_roundtrip (K : cedrus_hdr) (q : v4l2_vp8_quantization)
    (hK : qp_wf K)
    (h1 : K.VE_VP8_QP_INDEX_DELTA_UVAC.fits_signed q.uv_ac_delta)
    (h2 : K.VE_VP8_QP_INDEX_DELTA_UVDC.fits_signed q.uv_dc_delta)
    (h3 : K.VE_VP8_QP_INDEX_DELTA_Y2AC.fits_signed q.y2_ac_delta)
    (h4 : K.VE_VP8_QP_INDEX_DELTA_Y2DC.fits_signed q.y2_dc_delta)
    (h5 : K.VE_VP8_QP_INDEX_DELTA_Y1DC.fits_signed q.y_dc_delta)
    (h6 : q.y_ac_qi < 2 ^ K.VE_VP8_QP_INDEX_DELTA_BASE_QINDEX.width) :
    vp8_qp_index_delta K q < 2 ^ 32 ∧
    vp8_qp_index_delta K q &&& K.VE_VP8_QP_INDEX_DELTA_UVAC.mask =
      K.VE_VP8_QP_INDEX_DELTA_UVAC.put q.uv_ac_delta ∧
    vp8_qp_index_delta K q &&& K.VE_VP8_QP_INDEX_DELTA_UVDC.mask =
      K.VE_VP8_QP_INDEX_DELTA_UVDC.put q.uv_dc_delta ∧
    vp8_qp_index_delta K q &&& K.VE_VP8_QP_INDEX_DELTA_Y2AC.mask =
      K.VE_VP8_QP_INDEX_DELTA_Y2AC.put q.y2_ac_delta ∧
    vp8_qp_index_delta K q &&& K.VE_VP8_QP_INDEX_DELTA_Y2DC.mask =
      K.VE_VP8_QP_INDEX_DELTA_Y2DC.put q.y2_dc_delta ∧
    vp8_qp_index_delta K q &&& K.VE_VP8_QP_INDEX_DELTA_Y1DC.mask =
      K.VE_VP8_QP_INDEX_DELTA_Y1DC.put q.y_dc_delta ∧
    vp8_qp_index_delta K q &&& K.VE_VP8_QP_INDEX_DELTA_BASE_QINDEX.mask =
      K.VE_VP8_QP_INDEX_DELTA_BASE_QINDEX.put q.y_ac_qi ∧
    K.VE_VP8_QP_INDEX_DELTA_UVAC.get_signed (vp8_qp_index_delta K q) = q.uv_ac_delta ∧
    K.VE_VP8_QP_INDEX_DELTA_UVDC.get_signed (vp8_qp_index_delta K q) = q.uv_dc_delta ∧
    K.VE_VP8_QP_INDEX_DELTA_Y2AC.get_signed (vp8_qp_index_delta K q) = q.y2_ac_delta ∧
    K.VE_VP8_QP_INDEX_DELTA_Y2DC.get_signed (vp8_qp_index_delta K q) = q.y2_dc_delta ∧
    K.VE_VP8_QP_INDEX_DELTA_Y1DC.get_signed (vp8_qp_index_delta K q) = q.y_dc_delta ∧
    K.VE_VP8_QP_INDEX_DELTA_BASE_QINDEX.get (vp8_qp_index_delta K q) = q.y_ac_qi := by
  obtain ⟨w0, w1, w2, w3, w4, w5⟩ := qp_field_word K hK q
  have hv := hK.1
  simp only [qp_fields, List.mem_cons, forall_eq_or_imp, forall_eq, List.not_mem_nil,
    false_implies, implies_true, and_true] at hv
  obtain ⟨v0, v1, v2, v3, v4, v5⟩ := hv
  exact ⟨or32_lt _ _, w0, w1, w2, w3, w4, w5,
    get_signed_of_word _ v0 _ _ w0 h1, get_signed_of_word _ v1 _ _ w1 h2,
    get_signed_of_word _ v2 _ _ w2 h3, get_signed_of_word _ v3 _ _ w3 h4,
    get_signed_of_word _ v4 _ _ w4 h5, get_of_word _ v5 _ _ w5 h6⟩

/-- Witness of C9: the sample layout (five 5-bit deltas at bits 31..7, a 7-bit
base index at bits 6..0) with deltas -1, 15, -15, 2, -3 and base index 100. -/
theorem qp_index_delta_roundtrip_witness :
    qp_wf sample_hdr ∧
    sample_hdr.VE_VP8_QP_INDEX_DELTA_UVAC.fits_signed sample_key_frame.quant.uv_ac_delta ∧
    sample_hdr.VE_VP8_QP_INDEX_DELTA_UVDC.fits_signed sample_key_frame.quant.uv_dc_delta ∧
    sample_hdr.VE_VP8_QP_INDEX_DELTA_Y2AC.fits_signed sample_key_frame.quant.y2_ac_delta ∧
    sample_hdr.VE_VP8_QP_INDEX_DELTA_Y2DC.fits_signed sample_key_frame.quant.y2_dc_delta ∧
    sample_hdr.VE_VP8_QP_INDEX_DELTA_Y1DC.fits_signed sample_key_frame.quant.y_dc_delta ∧
    sample_key_frame.quant.y_ac_qi < 2 ^ sample_hdr.VE_VP8_QP_INDEX_DELTA_BASE_QINDEX.width ∧
    sample_hdr.VE_VP8_QP_INDEX_DELTA_UVAC.get_signed
      (vp8_qp_index_delta sample_hdr sample_key_frame.quant) = -1 ∧
    sample_hdr.VE_VP8_QP_INDEX_DELTA_UVDC.get_signed
      (vp8_qp_index_delta sample_hdr sample_key_frame.quant) = 15 ∧
    sample_hdr.VE_VP8_QP_INDEX_DELTA_Y2AC.get_signed
      (vp8_qp_index_delta sample_hdr sample_key_frame.quant) = -15 ∧
    sample_hdr.VE_VP8_QP_INDEX_DELTA_Y2DC.get_signed
      (vp8_qp_index_delta sample_hdr sample_key_frame.quant) = 2 ∧
    sample_hdr.VE_VP8_QP_INDEX_DELTA_Y1DC.get_signed
      (vp8_qp_index_delta sample_hdr sample_key_frame.quant) = -3 ∧
    sample_hdr.VE_VP8_QP_INDEX_DELTA_BASE_QINDEX.get
      (vp8_qp_index_delta sample_hdr sample_key_frame.quant) = 100 :=
  ⟨by decide, by decide, by decide, by decide, by decide, by decide, by decide,
    (qp_index_delta_roundtrip sample_hdr sample_key_frame.quant (by decide) (by decide)
      (by decide) (by decide) (by decide) (by decide) (by decide)).2.2.2.2.2.2.2⟩

/-! ## Baseline table -/

/-- C10: there is one table `buf` of 9216 bytes, holding `prob_table_init`
(2480 bytes) byte for byte at offsets 2048..4527 and 0 everywhere else, such
that every successful `cedrus_vp8_start` (whatever the previous session state
and the DMA address) returns 0 and leaves exactly `buf` as the session's
table; two allocations therefore yield identical tables. -/
theorem start_writes_baseline :
    ∃ buf : List Nat,
      buf.length = 0x2400 ∧ prob_table_init.length = 2480 ∧
      (∀ i, i < 2480 → buf[2048 + i]? = prob_table_init[i]?) ∧
      (∀ x, x < 0x2400 → (x < 2048 ∨ 4528 ≤ x) → buf[x]? = some 0) ∧
      ∀ (ctx : cedrus_vp8_ctx) (dma : Nat),
        ∃ ctx', cedrus_vp8_start ctx (some dma) = some (0, ctx') ∧
          ctx'.entropy_probs_buf = some buf := by
  obtain ⟨buf, hb, hlen, hget⟩ := start_table
  refine ⟨buf, hlen, prob_table_init_length, ?_, ?_, ?_⟩
  · intro i hi
    have e : 2048 + i - 2048 = i := by omega
    rw [hget, if_pos (by omega), e]
  · intro x hx hr
    rw [hget, if_neg (by omega), if_pos hx]
  · intro ctx dma
    refine ⟨{ ctx with entropy_probs_buf := some buf, entropy_probs_buf_dma := dma }, ?_, rfl⟩
    unfold cedrus_vp8_start
    simp only [hb, Option.map_some']

/-! ## Session start, table invariant, interrupt status footprint -/

/-- C11: `cedrus_vp8_start` returns `-ENOMEM` exactly when the allocation
fails and 0 exactly when it succeeds; when it fails the session has no table
(nothing is written to one) and the three hints and the table address are as
before. -/
theorem start_fails_iff_alloc_fails (ctx : cedrus_vp8_ctx) (alloc : Option Nat) :
    ∃ ret ctx', cedrus_vp8_start ctx alloc = some (ret, ctx') ∧
      (ret = -ENOMEM ↔ alloc = none) ∧
      (ret = 0 ↔ alloc ≠ none) ∧
      (alloc = none →
        ctx'.entropy_probs_buf = none ∧
        ctx'.last_filter_type = ctx.last_filter_type ∧
        ctx'.last_frame_p_type = ctx.last_frame_p_type ∧
        ctx'.last_sharpness_level = ctx.last_sharpness_level ∧
        ctx'.entropy_probs_buf_dma = ctx.entropy_probs_buf_dma) := by
  cases alloc with
  | none =>
    refine ⟨-ENOMEM, { ctx with entropy_probs_buf := none }, rfl, ?_, ?_, ?_⟩
    · exact ⟨fun _ => rfl, fun _ => rfl⟩
    · constructor
      · intro h
        exact absurd h (by decide)
      · intro h
        exact absurd rfl h
    · intro _
      exact ⟨rfl, rfl, rfl, rfl, rfl⟩
  | some dma =>
    obtain ⟨buf, hb, -, -⟩ := start_table
    refine ⟨0, { ctx with entropy_probs_buf := some buf, entropy_probs_buf_dma := dma }, ?_,
      ?_, ?_, ?_⟩
    · unfold cedrus_vp8_start
      simp only [hb, Option.map_some']
    · constructor
      · intro h
        exact absurd h (by decide)
      · intro h
        cases h
    · exact ⟨fun _ h => (by cases h), fun _ => rfl⟩
    · intro h
      cases h

/-- C12: after a successful `cedrus_vp8_start` followed by any finite
sequence of `cedrus_vp8_update_probs` calls with arbitrary frames, the table
still has 9216 bytes and every byte at an offset from 4528 on, every byte
below 2048 whose offset mod 16 is at least 11, and every byte below 2048
whose offset mod 64 is at least 48 is 0. -/
theorem unrepresented_positions_stay_zero (ctx : cedrus_vp8_ctx) (dma : Nat)
    (frames : List v4l2_ctrl_vp8_frame) :
    ∃ ctx' buf t,
      cedrus_vp8_start ctx (some dma) = some (0, ctx') ∧
      ctx'.entropy_probs_buf = some buf ∧
      frames.foldlM (fun t p => cedrus_vp8_update_probs p t) buf = some t ∧
      t.length = 0x2400 ∧
      (∀ x, 4528 ≤ x → x < 0x2400 → t[x]? = some 0) ∧
      (∀ x, x < 2048 → 11 ≤ x % 16 → t[x]? = some 0) ∧
      (∀ x, x < 2048 → 48 ≤ x % 64 → t[x]? = some 0) := by
  obtain ⟨buf, hb, hlen, hget⟩ := start_table
  obtain ⟨t, hrun, hl, hkeep⟩ := update_many_keeps frames buf hlen
  have hz : ∀ x, x < 0x2400 → (x < 2048 ∨ 4528 ≤ x) → buf[x]? = some 0 := by
    intro x hx hr
    rw [hget, if_neg (by omega), if_pos hx]
  refine ⟨{ ctx with entropy_probs_buf := some buf, entropy_probs_buf_dma := dma }, buf, t,
    ?_, rfl, hrun, hl, ?_, ?_, ?_⟩
  · unfold cedrus_vp8_start
    simp only [hb, Option.map_some']
  · intro x h1 h2
    rw [hkeep x (Or.inl h1)]
    exact hz x h2 (Or.inr h1)
  · intro x h1 h2
    rw [hkeep x (Or.inr (Or.inl ⟨h1, h2⟩))]
    exact hz x (by omega) (Or.inl h1)
  · intro x h1 h2
    rw [hkeep x (Or.inr (Or.inr ⟨h1, h2⟩))]
    exact hz x (by omega) (Or.inl h1)

/-- C13: `cedrus_vp8_irq_status` receives the device only (it reads nothing
of the session but `ctx->dev`), writes no register and adds exactly one
event, the read of the status register, to the bus trace; the register
contents, the wait count and the `read_bits` record are as before; and its
result is a function of the value read alone: two calls, on any engines and
devices, that read the same value return the same result. -/
theorem irq_status_changes_no_state (K : cedrus_hdr) (hw : Engine) (dev : cedrus_dev) :
    (cedrus_vp8_irq_status K hw dev).2.regs = dev.regs ∧
    (cedrus_vp8_irq_status K hw dev).2.log =
      dev.log ++ [Ev.read Reg.VE_H264_STATUS (u32 (hw.rd dev.nread Reg.VE_H264_STATUS))] ∧
    (∀ r v, Ev.write r v ∉ [Ev.read Reg.VE_H264_STATUS
      (u32 (hw.rd dev.nread Reg.VE_H264_STATUS))]) ∧
    (cedrus_vp8_irq_status K hw dev).2.nwait = dev.nwait ∧
    (cedrus_vp8_irq_status K hw dev).2.calls = dev.calls ∧
    (∀ (hw2 : Engine) (dev2 : cedrus_dev),
      u32 (hw2.rd dev2.nread Reg.VE_H264_STATUS) = u32 (hw.rd dev.nread Reg.VE_H264_STATUS) →
      (cedrus_vp8_irq_status K hw2 dev2).1 = (cedrus_vp8_irq_status K hw dev).1) ∧
    (u32 (hw.rd dev.nread Reg.VE_H264_STATUS) &&&
        (K.VE_H264_STATUS_DECODE_ERR_INT ||| K.VE_H264_STATUS_VLD_DATA_REQ_INT) = 0 →
      u32 (hw.rd dev.nread Reg.VE_H264_STATUS) &&& K.VE_H264_CTRL_SLICE_DECODE_INT = 0 →
      (cedrus_vp8_irq_status K hw dev).1 = cedrus_irq_status.CEDRUS_IRQ_NONE) := by
  refine ⟨?_, ?_, ?_, ?_, ?_, ?_, ?_⟩
  · unfold cedrus_vp8_irq_status cedrus_read
    simp only []
    split_ifs <;> rfl
  · unfold cedrus_vp8_irq_status cedrus_read
    simp only []
    split_ifs <;> rfl
  · intro r v h
    simp at h
  · unfold cedrus_vp8_irq_status cedrus_read
    simp only []
    split_ifs <;> rfl
  · unfold cedrus_vp8_irq_status cedrus_read
    simp only []
    split_ifs <;> rfl
  · intro hw2 dev2 h
    unfold cedrus_vp8_irq_status cedrus_read
    simp only [h]
    split_ifs <;> rfl
  · intro h1 h2
    unfold cedrus_vp8_irq_status cedrus_read
    simp only [h1, h2, ne_eq, not_true_eq_false, if_false]

/-! ## Version bits of the picture-parameter word -/

/-- C14: with a well-formed picture-parameter layout, the word left in
`VE_VP8_PPS` by `cedrus_vp8_setup` has `FILTER_TYPE_SIMPLE` set iff the frame
version is 1, `LPF_DISABLE` set iff the version is 2 or 3,
`BILINEAR_MC_FILTER` set iff the version is 1 or 2, and `FULL_PIXEL` set iff
the version is 3; so version 0 sets none of the four, and nothing but the
version (no other frame field, hint or engine answer) decides them. -/
theorem setup_pps_version_bits (K : cedrus_hdr) (bufs : cedrus_bufs) (hw : Engine)
    (ctx : cedrus_vp8_ctx) (run : cedrus_run) (dev : cedrus_dev) (buf : List Nat)
    (hK : pps_wf K)
    (hb : ctx.entropy_probs_buf = some buf) (hl : buf.length = CEDRUS_ENTROPY_PROBS_SIZE) :
    ∃ ctx' dev', cedrus_vp8_setup K bufs hw ctx run dev = some (ctx', dev') ∧
      (dev'.regs Reg.VE_VP8_PPS &&& K.VE_VP8_PPS_FILTER_TYPE_SIMPLE ≠ 0 ↔
        run.frame_params.version = 1) ∧
      (dev'.regs Reg.VE_VP8_PPS &&& K.VE_VP8_PPS_LPF_DISABLE ≠ 0 ↔
        (run.frame_params.version = 2 ∨ run.frame_params.version = 3)) ∧
      (dev'.regs Reg.VE_VP8_PPS &&& K.VE_VP8_PPS_BILINEAR_MC_FILTER ≠ 0 ↔
        (run.frame_params.version = 1 ∨ run.frame_params.version = 2)) ∧
      (dev'.regs Reg.VE_VP8_PPS &&& K.VE_VP8_PPS_FULL_PIXEL ≠ 0 ↔
        run.frame_params.version = 3) := by
  obtain ⟨buf', dev', -, -, hs, hp, -⟩ := setup_outcome K bufs hw ctx run dev buf hb hl
  have m1 := hK.1 K.VE_VP8_PPS_FILTER_TYPE_SIMPLE (by simp [pps_masks])
  have m2 := hK.1 K.VE_VP8_PPS_LPF_DISABLE (by simp [pps_masks])
  have m3 := hK.1 K.VE_VP8_PPS_BILINEAR_MC_FILTER (by simp [pps_masks])
  have m4 := hK.1 K.VE_VP8_PPS_FULL_PIXEL (by simp [pps_masks])
  refine ⟨_, dev', hs, ?_, ?_, ?_, ?_⟩
  · rw [hp, u32_and _ _ m1.2]
    exact and_mask_ne_zero_iff _ _ _ m1.1 (pps_filter_type_simple_bit K hK ctx run.frame_params)
  · rw [hp, u32_and _ _ m2.2]
    exact and_mask_ne_zero_iff _ _ _ m2.1 (pps_lpf_disable_bit K hK ctx run.frame_params)
  · rw [hp, u32_and _ _ m3.2]
    exact and_mask_ne_zero_iff _ _ _ m3.1 (pps_bilinear_bit K hK ctx run.frame_params)
  · rw [hp, u32_and _ _ m4.2]
    exact and_mask_ne_zero_iff _ _ _ m4.1 (pps_full_pixel_bit K hK ctx run.frame_params)

/-- Witness of C14: the sample layout and the sample key frame with its
version set to 3. -/
theorem setup_pps_version_bits_witness :
    pps_wf sample_hdr ∧
    (sample_ctx 1 1 5).entropy_probs_buf = some sample_table ∧
    sample_table.length = CEDRUS_ENTROPY_PROBS_SIZE ∧
    ∃ ctx' dev',
      cedrus_vp8_setup sample_hdr sample_bufs sample_engine (sample_ctx 1 1 5)
        (sample_run { sample_key_frame with version := 3 }) sample_dev = some (ctx', dev') ∧
      (dev'.regs Reg.VE_VP8_PPS &&& sample_hdr.VE_VP8_PPS_FILTER_TYPE_SIMPLE ≠ 0 ↔
        (sample_run { sample_key_frame with version := 3 }).frame_params.version = 1) ∧
      (dev'.regs Reg.VE_VP8_PPS &&& sample_hdr.VE_VP8_PPS_LPF_DISABLE ≠ 0 ↔
        ((sample_run { sample_key_frame with version := 3 }).frame_params.version = 2 ∨
          (sample_run { sample_key_frame with version := 3 }).frame_params.version = 3)) ∧
      (dev'.regs Reg.VE_VP8_PPS &&& sample_hdr.VE_VP8_PPS_BILINEAR_MC_FILTER ≠ 0 ↔
        ((sample_run { sample_key_frame with version := 3 }).frame_params.version = 1 ∨
          (sample_run { sample_key_frame with version := 3 }).frame_params.version = 2)) ∧
      (dev'.regs Reg.VE_VP8_PPS &&& sample_hdr.VE_VP8_PPS_FULL_PIXEL ≠ 0 ↔
        (sample_run { sample_key_frame with version := 3 }).frame_params.version = 3) :=
  ⟨by decide, rfl, List.length_replicate _ _,
    setup_pps_version_bits sample_hdr sample_bufs sample_engine (sample_ctx 1 1 5)
      (sample_run { sample_key_frame with version := 3 }) sample_dev sample_table (by decide)
      rfl (List.length_replicate _ _)⟩

/-! ## Read trace of the header replay -/

/-- C15 (amended): for a given frame type, `cedrus_read_header` issues the
same sequence of (bit count, probability) reads for any two read oracles
whose answers agree, on being zero or non-zero, at the reads whose result the
code tests (the flag reads); the values returned by all the other reads are
discarded, a flag read matters only through being zero or not, and no frame
field other than the key-frame flag matters. -/
theorem read_header_trace_depends_on_flags (K : cedrus_hdr) (hw1 hw2 : Engine)
    (d : cedrus_dev) (s1 s2 : v4l2_ctrl_vp8_frame)
    (hkey : V4L2_VP8_FRAME_IS_KEY_FRAME K s1 = V4L2_VP8_FRAME_IS_KEY_FRAME K s2)
    (hv : ∀ n ∈ tested_reads K hw1 d s1, hw1.nonzero n = hw2.nonzero n) :
    (cedrus_read_header K hw1 d s1).calls = (cedrus_read_header K hw2 d s2).calls := by
  rw [read_header_calls, read_header_calls, ← hkey,
    calls_congr_tested hw1.nonzero hw2.nonzero _ d.nread hv]

/-- Witness of C15 (amended): on the sample key frame, and on the same frame
with another version, an engine whose reads all return 0 and an engine whose
untested reads number 0, 1, 3, 4, 5 and 8 return 5: the two differ at read 0
and agree at every tested read, and the traces are equal. -/
theorem read_header_trace_depends_on_flags_witness :
    V4L2_VP8_FRAME_IS_KEY_FRAME sample_hdr sample_key_frame =
      V4L2_VP8_FRAME_IS_KEY_FRAME sample_hdr { sample_key_frame with version := 3 } ∧
    zero_engine.nonzero 0 ≠ fives_engine.nonzero 0 ∧
    (∀ n ∈ tested_reads sample_hdr zero_engine sample_dev sample_key_frame,
      zero_engine.nonzero n = fives_engine.nonzero n) ∧
    (cedrus_read_header sample_hdr zero_engine sample_dev sample_key_frame).calls =
      (cedrus_read_header sample_hdr fives_engine sample_dev
        { sample_key_frame with version := 3 }).calls :=
  ⟨rfl, fives_engine_differs, fives_engine_tested,
    read_header_trace_depends_on_flags sample_hdr zero_engine fives_engine sample_dev
      sample_key_frame { sample_key_frame with version := 3 } rfl fives_engine_tested⟩

/-- Counterexample to C15 as stated: on the sample key frame, from the same
device state, an engine whose reads all return 1 makes `cedrus_read_header`
issue 85 reads and an engine whose reads all return 0 makes it issue 16, so
the two read traces differ. -/
theorem read_header_trace_depends_on_values :
    V4L2_VP8_FRAME_IS_KEY_FRAME sample_hdr sample_key_frame = true ∧
    sample_dev.calls = [] ∧
    (cedrus_read_header sample_hdr sample_engine sample_dev sample_key_frame).calls.length
      = 85 ∧
    (cedrus_read_header sample_hdr zero_engine sample_dev sample_key_frame).calls.length
      = 16 ∧
    (cedrus_read_header sample_hdr sample_engine sample_dev sample_key_frame).calls ≠
      (cedrus_read_header sample_hdr zero_engine sample_dev sample_key_frame).calls := by
  have hk : V4L2_VP8_FRAME_IS_KEY_FRAME sample_hdr sample_key_frame = true := by decide
  have h1 : (cedrus_read_header sample_hdr sample_engine sample_dev
      sample_key_frame).calls.length = 85 := by
    rw [read_header_calls, hk, calls_congr _ (fun _ => true) sample_engine_nonzero]
    exact key_calls_all_one
  have h0 : (cedrus_read_header sample_hdr zero_engine sample_dev
      sample_key_frame).calls.length = 16 := by
    rw [read_header_calls, hk, calls_congr _ (fun _ => false) zero_engine_nonzero]
    exact key_calls_all_zero
  refine ⟨hk, rfl, h1, h0, ?_⟩
  intro h
  rw [h, h0] at h1
  exact absurd h1 (by decide)

/-! ## Expired waits, reprogramming, interrupt enables -/

/-- C16 (amended): the outcome of `cedrus_vp8_setup` on a session with an
allocated table does not depend on whether the bounded waits of the header
replay expire: with any engine, and with the same engine whose waits expire
as an arbitrary `e` says, setup succeeds with the same session state, leaves
the same value in every register and issues the same reads, and the control
register ends armed with the two interrupt enables. -/
theorem setup_ignores_expired_waits (K : cedrus_hdr) (bufs : cedrus_bufs) (hw : Engine)
    (e : Nat → Bool) (ctx : cedrus_vp8_ctx) (run : cedrus_run) (dev : cedrus_dev)
    (buf : List Nat)
    (hb : ctx.entropy_probs_buf = some buf) (hl : buf.length = CEDRUS_ENTROPY_PROBS_SIZE) :
    ∃ c d d',
      cedrus_vp8_setup K bufs hw ctx run dev = some (c, d) ∧
      cedrus_vp8_setup K bufs { hw with expired := e } ctx run dev = some (c, d') ∧
      d.regs = d'.regs ∧ d.calls = d'.calls ∧
      d'.regs Reg.VE_H264_CTRL =
        u32 (K.VE_H264_CTRL_VP8 ||| K.VE_H264_CTRL_DECODE_ERR_INT |||
          K.VE_H264_CTRL_SLICE_DECODE_INT) := by
  obtain ⟨b1, hr1, h1⟩ := setup_some K bufs hw ctx run dev buf hb hl
  obtain ⟨b2, hr2, h2⟩ := setup_some K bufs { hw with expired := e } ctx run dev buf hb hl
  have hbb : b2 = b1 := Option.some.inj (hr2.symm.trans hr1)
  rw [hbb] at h2
  exact ⟨_, _, _, h1, h2, (setup_dev_expired_indep K bufs hw e ctx run dev).1,
    (setup_dev_expired_indep K bufs hw e ctx run dev).2, setup_dev_ctrl K bufs _ ctx run dev⟩

/-- Witness of C16 (amended): the sample key frame on the sample engine, and
on the same engine with every wait expiring. -/
theorem setup_ignores_expired_waits_witness :
    (sample_ctx 0 0 0).entropy_probs_buf = some sample_table ∧
    sample_table.length = CEDRUS_ENTROPY_PROBS_SIZE ∧
    ∃ c d d',
      cedrus_vp8_setup sample_hdr sample_bufs sample_engine (sample_ctx 0 0 0)
        (sample_run sample_key_frame) sample_dev = some (c, d) ∧
      cedrus_vp8_setup sample_hdr sample_bufs { sample_engine with expired := fun _ => true }
        (sample_ctx 0 0 0) (sample_run sample_key_frame) sample_dev = some (c, d') ∧
      d.regs = d'.regs ∧ d.calls = d'.calls ∧
      d'.regs Reg.VE_H264_CTRL =
        u32 (sample_hdr.VE_H264_CTRL_VP8 ||| sample_hdr.VE_H264_CTRL_DECODE_ERR_INT |||
          sample_hdr.VE_H264_CTRL_SLICE_DECODE_INT) :=
  ⟨rfl, List.length_replicate _ _,
    setup_ignores_expired_waits sample_hdr sample_bufs sample_engine (fun _ => true)
      (sample_ctx 0 0 0) (sample_run sample_key_frame) sample_dev sample_table rfl
      (List.length_replicate _ _)⟩

/-- Counterexample to C16 as stated: on the sample key frame, with an engine
whose every wait expires, `cedrus_vp8_setup` still returns its normal
outcome; the trace contains an expired wait for the parser and the expired
wait for the probability update, every wait in it expired, and yet the last
event is the write that arms the control register with both interrupt
enables (`0x20000003`). -/
theorem setup_succeeds_on_expired_waits :
    sample_dev.log = [] ∧
    (∀ i, stuck_engine.expired i = true) ∧
    ∃ c d,
      cedrus_vp8_setup sample_hdr sample_bufs stuck_engine (sample_ctx 0 0 0)
        (sample_run sample_key_frame) sample_dev = some (c, d) ∧
      Ev.wait Reg.VE_H264_STATUS sample_hdr.VE_H264_STATUS_VLD_BUSY true ∈ d.log ∧
      Ev.wait Reg.VE_H264_STATUS sample_hdr.VE_H264_STATUS_VP8_UPPROB_BUSY true ∈ d.log ∧
      (∀ r f x, Ev.wait r f x ∈ d.log → x = true) ∧
      d.log.getLast? = some (Ev.write Reg.VE_H264_CTRL 0x20000003) ∧
      d.regs Reg.VE_H264_CTRL = 0x20000003 := by
  refine ⟨rfl, fun _ => rfl, ?_⟩
  obtain ⟨b, -, hs⟩ := setup_some sample_hdr sample_bufs stuck_engine (sample_ctx 0 0 0)
    (sample_run sample_key_frame) sample_dev sample_table rfl (List.length_replicate _ _)
  obtain ⟨mid, hlog, -, hwaits, hsub⟩ := setup_dev_log_shape sample_hdr sample_bufs
    stuck_engine (sample_ctx 0 0 0) (sample_run sample_key_frame) sample_dev
  have harm : u32 (sample_hdr.VE_H264_CTRL_VP8 ||| sample_hdr.VE_H264_CTRL_DECODE_ERR_INT |||
      sample_hdr.VE_H264_CTRL_SLICE_DECODE_INT) = 0x20000003 := by decide
  rw [harm] at hlog
  refine ⟨_, _, hs, ?_, ?_, ?_, ?_, ?_⟩
  · rw [hlog]
    have hm := hsub _ (read_wait_mem sample_hdr stuck_engine
      (V4L2_VP8_FRAME_IS_KEY_FRAME sample_hdr (sample_run sample_key_frame).frame_params)
      sample_dev.nread sample_dev.nwait (1, VP8_PROB_HALF) (by decide))
    simp only [List.mem_append]
    exact Or.inl (Or.inr hm)
  · rw [hlog]
    have hm := hsub _ (update_wait_mem sample_hdr stuck_engine
      (V4L2_VP8_FRAME_IS_KEY_FRAME sample_hdr (sample_run sample_key_frame).frame_params)
      sample_dev.nread sample_dev.nwait)
    simp only [List.mem_append]
    exact Or.inl (Or.inr hm)
  · intro r f x hx
    rw [hlog] at hx
    simp only [List.mem_append] at hx
    rcases hx with ((hx | hx) | hx) | hx
    · exact absurd hx (List.not_mem_nil _)
    · simp at hx
    · obtain ⟨i, hi⟩ := hwaits r f x hx
      rw [hi]
      rfl
    · simp at hx
  · rw [hlog, List.getLast?_concat]
  · rw [setup_dev_ctrl]
    exact harm
/-- C17: two runs of `cedrus_vp8_setup` on the same request (frame
parameters, source and destination buffers) with the same buffer pool, the
same three hints and the same table address, but arbitrary prior device
states, engine answers and table contents, both succeed and end with the same
value in every register other than the trigger, status and bit-read
registers, that is in each of the 27 configuration registers that setup
writes. -/
theorem setup_reprograms_registers (K : cedrus_hdr) (bufs : cedrus_bufs)
    (hw1 hw2 : Engine) (ctx1 ctx2 : cedrus_vp8_ctx) (run : cedrus_run)
    (dev1 dev2 : cedrus_dev) (buf1 buf2 : List Nat)
    (hb1 : ctx1.entropy_probs_buf = some buf1) (hl1 : buf1.length = CEDRUS_ENTROPY_PROBS_SIZE)
    (hb2 : ctx2.entropy_probs_buf = some buf2) (hl2 : buf2.length = CEDRUS_ENTROPY_PROBS_SIZE)
    (hdma : ctx1.entropy_probs_buf_dma = ctx2.entropy_probs_buf_dma)
    (hp : ctx1.last_frame_p_type = ctx2.last_frame_p_type)
    (hf : ctx1.last_filter_type = ctx2.last_filter_type)
    (hs : ctx1.last_sharpness_level = ctx2.last_sharpness_level) :
    ∃ c1 d1 c2 d2,
      cedrus_vp8_setup K bufs hw1 ctx1 run dev1 = some (c1, d1) ∧
      cedrus_vp8_setup K bufs hw2 ctx2 run dev2 = some (c2, d2) ∧
      ∀ r, r ≠ Reg.VE_H264_TRIGGER_TYPE → r ≠ Reg.VE_H264_STATUS →
        r ≠ Reg.VE_H264_BASIC_BITS → d1.regs r = d2.regs r := by
  obtain ⟨b1, -, h1⟩ := setup_some K bufs hw1 ctx1 run dev1 buf1 hb1 hl1
  obtain ⟨b2, -, h2⟩ := setup_some K bufs hw2 ctx2 run dev2 buf2 hb2 hl2
  exact ⟨_, _, _, _, h1, h2, fun r r1 r2 r3 =>
    setup_dev_regs_agree K bufs hw1 hw2 ctx1 ctx2 run dev1 dev2 r
      (setup_front_writes_congr K ctx1 ctx2 run hdma hp hf hs) r1 r2 r3⟩

/-- Witness of C17: the sample inter frame on the sample device with the
sample engine, and on a device whose registers all hold 7 with an engine
whose reads return 0 and whose waits expire, the table holding 9 everywhere. -/
theorem setup_reprograms_registers_witness :
    (sample_ctx 1 1 5).entropy_probs_buf = some sample_table ∧
    sample_table.length = CEDRUS_ENTROPY_PROBS_SIZE ∧
    ({ sample_ctx 1 1 5 with
        entropy_probs_buf := some (List.replicate CEDRUS_ENTROPY_PROBS_SIZE 9) } :
      cedrus_vp8_ctx).entropy_probs_buf = some (List.replicate CEDRUS_ENTROPY_PROBS_SIZE 9) ∧
    (List.replicate CEDRUS_ENTROPY_PROBS_SIZE 9).length = CEDRUS_ENTROPY_PROBS_SIZE ∧
    ∃ c1 d1 c2 d2,
      cedrus_vp8_setup sample_hdr sample_bufs sample_engine (sample_ctx 1 1 5)
        (sample_run sample_inter_frame) sample_dev = some (c1, d1) ∧
      cedrus_vp8_setup sample_hdr sample_bufs { rd := fun _ _ => 0, expired := fun _ => true }
        { sample_ctx 1 1 5 with
          entropy_probs_buf := some (List.replicate CEDRUS_ENTROPY_PROBS_SIZE 9) }
        (sample_run sample_inter_frame) { sample_dev with regs := fun _ => 7 } =
          some (c2, d2) ∧
      ∀ r, r ≠ Reg.VE_H264_TRIGGER_TYPE → r ≠ Reg.VE_H264_STATUS →
        r ≠ Reg.VE_H264_BASIC_BITS → d1.regs r = d2.regs r :=
  ⟨rfl, List.length_replicate _ _, rfl, List.length_replicate _ _,
    setup_reprograms_registers sample_hdr sample_bufs sample_engine
      { rd := fun _ _ => 0, expired := fun _ => true } (sample_ctx 1 1 5)
      { sample_ctx 1 1 5 with
        entropy_probs_buf := some (List.replicate CEDRUS_ENTROPY_PROBS_SIZE 9) }
      (sample_run sample_inter_frame) sample_dev { sample_dev with regs := fun _ => 7 }
      sample_table (List.replicate CEDRUS_ENTROPY_PROBS_SIZE 9) rfl (List.length_replicate _ _)
      rfl (List.length_replicate _ _) rfl rfl rfl rfl⟩

/-- C18: with a control-register layout whose VP8 mode bit lies outside the
interrupt-enable mask, every run of `cedrus_vp8_setup` on a session with an
allocated table has a bus trace that starts with the engine selection and the
write of the VP8 mode bit alone to the control register (a word with no
interrupt-enable bit), ends with the write of VP8 mode plus the decode-error
and slice-decode interrupt enables to the control register, and writes the
control register nowhere in between. -/
theorem setup_enables_interrupts_last (K : cedrus_hdr) (bufs : cedrus_bufs) (hw : Engine)
    (ctx : cedrus_vp8_ctx) (run : cedrus_run) (dev : cedrus_dev) (buf : List Nat)
    (hb : ctx.entropy_probs_buf = some buf) (hl : buf.length = CEDRUS_ENTROPY_PROBS_SIZE)
    (hK : K.VE_H264_CTRL_VP8 &&& K.VE_H264_CTRL_INT_MASK = 0) :
    ∃ c d mid,
      cedrus_vp8_setup K bufs hw ctx run dev = some (c, d) ∧
      d.log =
        dev.log ++ [Ev.engine_enable, Ev.write Reg.VE_H264_CTRL (u32 K.VE_H264_CTRL_VP8)] ++
          mid ++
          [Ev.write Reg.VE_H264_CTRL
            (u32 (K.VE_H264_CTRL_VP8 ||| K.VE_H264_CTRL_DECODE_ERR_INT |||
              K.VE_H264_CTRL_SLICE_DECODE_INT))] ∧
      (∀ e ∈ mid, Ev.is_write_to Reg.VE_H264_CTRL e = false) ∧
      u32 K.VE_H264_CTRL_VP8 &&& K.VE_H264_CTRL_INT_MASK = 0 := by
  obtain ⟨b, -, hs⟩ := setup_some K bufs hw ctx run dev buf hb hl
  obtain ⟨mid, hlog, hmid, -, -⟩ := setup_dev_log_shape K bufs hw ctx run dev
  refine ⟨_, _, mid, hs, hlog, hmid, ?_⟩
  rw [u32_eq_and, Nat.land_assoc, Nat.land_comm (2 ^ 32 - 1), ← Nat.land_assoc, hK,
    Nat.zero_and]

/-- Witness of C18: the sample inter frame on the sample device; in the
sample layout the VP8 mode bit is bit 29 and the interrupt-enable mask is 7. -/
theorem setup_enables_interrupts_last_witness :
    (sample_ctx 1 1 5).entropy_probs_buf = some sample_table ∧
    sample_table.length = CEDRUS_ENTROPY_PROBS_SIZE ∧
    sample_hdr.VE_H264_CTRL_VP8 &&& sample_hdr.VE_H264_CTRL_INT_MASK = 0 ∧
    ∃ c d mid,
      cedrus_vp8_setup sample_hdr sample_bufs sample_engine (sample_ctx 1 1 5)
        (sample_run sample_inter_frame) sample_dev = some (c, d) ∧
      d.log =
        sample_dev.log ++
          [Ev.engine_enable, Ev.write Reg.VE_H264_CTRL (u32 sample_hdr.VE_H264_CTRL_VP8)] ++
          mid ++
          [Ev.write Reg.VE_H264_CTRL
            (u32 (sample_hdr.VE_H264_CTRL_VP8 ||| sample_hdr.VE_H264_CTRL_DECODE_ERR_INT |||
              sample_hdr.VE_H264_CTRL_SLICE_DECODE_INT))] ∧
      (∀ e ∈ mid, Ev.is_write_to Reg.VE_H264_CTRL e = false) ∧
      u32 sample_hdr.VE_H264_CTRL_VP8 &&& sample_hdr.VE_H264_CTRL_INT_MASK = 0 :=
  ⟨rfl, List.length_replicate _ _, by decide,
    setup_enables_interrupts_last sample_hdr sample_bufs sample_engine (sample_ctx 1 1 5)
      (sample_run sample_inter_frame) sample_dev sample_table rfl (List.length_replicate _ _)
      (by decide)⟩
/-! ## Order of the reads of the header replay -/

/-- C19: for every frame, engine and device state, the reads issued by
`cedrus_read_header` are a list `pre` of reads that all use probability 128,
followed for an inter frame (and by nothing for a key frame) by the
motion-vector reads: for each of the 38 entries of
`k_mv_entropy_update_probs` in row-major order one single-bit read at that
probability, immediately followed by one 7-bit read at probability 128
exactly when that flag read returned non-zero. -/
theorem mv_probability_replay (K : cedrus_hdr) (hw : Engine) (d : cedrus_dev)
    (slice : v4l2_ctrl_vp8_frame) :
    ∃ pre,
      (cedrus_read_header K hw d slice).calls =
        d.calls ++ pre ++
          (if V4L2_VP8_FRAME_IS_KEY_FRAME K slice = true then []
          else mv_flag_reads hw.nonzero (d.nread + pre.length)
            k_mv_entropy_update_probs.flatten) ∧
      (∀ c ∈ pre, c.2 = VP8_PROB_HALF) ∧
      k_mv_entropy_update_probs.flatten.length = 38 ∧
      k_mv_entropy_update_probs.flatten =
        (List.range 2).flatMap (fun i =>
          (List.range 19).map (fun j => k_mv_entropy_update_probs_at i j)) := by
  rw [read_header_calls]
  cases V4L2_VP8_FRAME_IS_KEY_FRAME K slice
  · refine ⟨_, ?_, all_half_calls hw.nonzero _ inter_pre_all_half d.nread, by decide,
      mv_probs_row_major⟩
    rw [inter_script_calls, seq_mv_calls, if_neg (by decide), List.append_assoc]
  · refine ⟨_, ?_, all_half_calls hw.nonzero _ key_all_half d.nread, by decide,
      mv_probs_row_major⟩
    rw [if_pos rfl, List.append_nil]

/-- C20: with trigger words that tell a bit read from the coefficient update,
the bus trace added by `cedrus_read_header` is: the events of the reads of
the front script (frame-header, quantizer, reference-refresh and
entropy-refresh reads), then the coefficient-update trigger, the wait on the
update-busy flag and the write of the interrupt mask to the status register,
then the events of the reads of the back script (skip, intra/last/golden,
mode and motion-vector probability reads); the trigger word occurs exactly
once in it. -/
theorem update_trigger_once (K : cedrus_hdr) (hw : Engine) (d : cedrus_dev)
    (slice : v4l2_ctrl_vp8_frame)
    (hK : ∀ b p, u32 (K.VE_H264_TRIGGER_TYPE_VP8_GET_BITS |||
        K.VE_H264_TRIGGER_TYPE_BIN_LENS b ||| K.VE_H264_TRIGGER_TYPE_PROBABILITY p) ≠
      u32 K.VE_H264_TRIGGER_TYPE_VP8_UPDATE_COEF) :
    ∃ front back new,
      front = header_front_calls hw.nonzero (V4L2_VP8_FRAME_IS_KEY_FRAME K slice) d.nread ∧
      back = header_back_calls hw.nonzero (V4L2_VP8_FRAME_IS_KEY_FRAME K slice) d.nread ∧
      (cedrus_read_header K hw d slice).calls = d.calls ++ front ++ back ∧
      (cedrus_read_header K hw d slice).log = d.log ++ new ∧
      new =
        reads_events K hw d.nread d.nwait front ++
          [Ev.write Reg.VE_H264_TRIGGER_TYPE (u32 K.VE_H264_TRIGGER_TYPE_VP8_UPDATE_COEF),
            Ev.wait Reg.VE_H264_STATUS K.VE_H264_STATUS_VP8_UPPROB_BUSY
              (hw.expired (d.nwait + front.length)),
            Ev.write Reg.VE_H264_STATUS (u32 K.VE_H264_STATUS_INT_MASK)] ++
          reads_events K hw (d.nread + front.length) (d.nwait + front.length + 1) back ∧
      new.count
        (Ev.write Reg.VE_H264_TRIGGER_TYPE (u32 K.VE_H264_TRIGGER_TYPE_VP8_UPDATE_COEF)) = 1 := by
  refine ⟨_, _, _, rfl, rfl, read_header_calls_split K hw d slice, ?_, rfl, ?_⟩
  · rw [read_header_log]
    simp only [List.append_assoc, update_events]
  · rw [List.count_append, List.count_append, reads_events_count K hw hK,
      reads_events_count K hw hK, Nat.zero_add, Nat.add_zero]
    exact update_events_count K hw _

/-- Witness of C20: the sample inter frame on the sample device and engine;
in the sample layout the bit-read trigger code is 15 and the coefficient-update
code is 14. -/
theorem update_trigger_once_witness :
    (∀ b p, u32 (sample_hdr.VE_H264_TRIGGER_TYPE_VP8_GET_BITS |||
        sample_hdr.VE_H264_TRIGGER_TYPE_BIN_LENS b |||
        sample_hdr.VE_H264_TRIGGER_TYPE_PROBABILITY p) ≠
      u32 sample_hdr.VE_H264_TRIGGER_TYPE_VP8_UPDATE_COEF) ∧
    ∃ front back new,
      front = header_front_calls sample_engine.nonzero
        (V4L2_VP8_FRAME_IS_KEY_FRAME sample_hdr sample_inter_frame) sample_dev.nread ∧
      back = header_back_calls sample_engine.nonzero
        (V4L2_VP8_FRAME_IS_KEY_FRAME sample_hdr sample_inter_frame) sample_dev.nread ∧
      (cedrus_read_header sample_hdr sample_engine sample_dev sample_inter_frame).calls =
        sample_dev.calls ++ front ++ back ∧
      (cedrus_read_header sample_hdr sample_engine sample_dev sample_inter_frame).log =
        sample_dev.log ++ new ∧
      new =
        reads_events sample_hdr sample_engine sample_dev.nread sample_dev.nwait front ++
          [Ev.write Reg.VE_H264_TRIGGER_TYPE
              (u32 sample_hdr.VE_H264_TRIGGER_TYPE_VP8_UPDATE_COEF),
            Ev.wait Reg.VE_H264_STATUS sample_hdr.VE_H264_STATUS_VP8_UPPROB_BUSY
              (sample_engine.expired (sample_dev.nwait + front.length)),
            Ev.write Reg.VE_H264_STATUS (u32 sample_hdr.VE_H264_STATUS_INT_MASK)] ++
          reads_events sample_hdr sample_engine (sample_dev.nread + front.length)
            (sample_dev.nwait + front.length + 1) back ∧
      new.count
        (Ev.write Reg.VE_H264_TRIGGER_TYPE
          (u32 sample_hdr.VE_H264_TRIGGER_TYPE_VP8_UPDATE_COEF)) = 1 :=
  ⟨sample_trigger_words,
    update_trigger_once sample_hdr sample_engine sample_dev sample_inter_frame
      sample_trigger_words⟩
/-! ## Bitstream window, segmentation bits, interrupt disable -/

/-- C21 (amended): on a session with an allocated table, `cedrus_vp8_setup`
leaves in `VE_H264_VLD_LEN` eight times the plane size (the capacity) of the
source buffer and in `VE_H264_VLD_END` the start address plus the payload
(the bytes used), both as 32-bit words; the two registers describe the same
byte length when the payload fills the plane and neither word wraps. -/
theorem setup_bitstream_window (K : cedrus_hdr) (bufs : cedrus_bufs) (hw : Engine)
    (ctx : cedrus_vp8_ctx) (run : cedrus_run) (dev : cedrus_dev) (buf : List Nat)
    (hb : ctx.entropy_probs_buf = some buf) (hl : buf.length = CEDRUS_ENTROPY_PROBS_SIZE) :
    ∃ c d,
      cedrus_vp8_setup K bufs hw ctx run dev = some (c, d) ∧
      d.regs Reg.VE_H264_VLD_LEN = u32 (run.src_plane_size * 8) ∧
      d.regs Reg.VE_H264_VLD_END = u32 (run.src_dma_addr + run.src_plane_payload) ∧
      (run.src_plane_payload = run.src_plane_size → run.src_plane_size * 8 < 2 ^ 32 →
        run.src_dma_addr + run.src_plane_payload < 2 ^ 32 →
        d.regs Reg.VE_H264_VLD_LEN = 8 * (d.regs Reg.VE_H264_VLD_END - run.src_dma_addr)) := by
  obtain ⟨b, -, hs⟩ := setup_some K bufs hw ctx run dev buf hb hl
  refine ⟨_, _, hs, setup_dev_vld_len K bufs hw ctx run dev,
    setup_dev_vld_end K bufs hw ctx run dev, ?_⟩
  intro h1 h2 h3
  rw [setup_dev_vld_len, setup_dev_vld_end]
  unfold u32
  rw [Nat.mod_eq_of_lt h2, Nat.mod_eq_of_lt h3, h1]
  omega

/-- Witness of C21 (amended): the sample key frame in a source buffer whose
payload of 65536 bytes fills its plane. -/
theorem setup_bitstream_window_witness :
    (sample_ctx 0 0 0).entropy_probs_buf = some sample_table ∧
    sample_table.length = CEDRUS_ENTROPY_PROBS_SIZE ∧
    ∃ c d,
      cedrus_vp8_setup sample_hdr sample_bufs sample_engine (sample_ctx 0 0 0)
        { sample_run sample_key_frame with src_plane_payload := 65536 } sample_dev =
          some (c, d) ∧
      d.regs Reg.VE_H264_VLD_LEN = u32 (65536 * 8) ∧
      d.regs Reg.VE_H264_VLD_END = u32 (0x48000000 + 65536) ∧
      ((65536 : Nat) = 65536 → 65536 * 8 < 2 ^ 32 → 0x48000000 + 65536 < 2 ^ 32 →
        d.regs Reg.VE_H264_VLD_LEN = 8 * (d.regs Reg.VE_H264_VLD_END - 0x48000000)) :=
  ⟨rfl, List.length_replicate _ _,
    setup_bitstream_window sample_hdr sample_bufs sample_engine (sample_ctx 0 0 0)
      { sample_run sample_key_frame with src_plane_payload := 65536 } sample_dev sample_table
      rfl (List.length_replicate _ _)⟩

/-- Counterexample to C21 as stated: for the sample request (a source plane
of 65536 bytes holding a payload of 5000 bytes at `0x48000000`) setup leaves
524288 in `VE_H264_VLD_LEN` and `0x48001388` in `VE_H264_VLD_END`: the length
register is 8 times the plane size, not 8 times the 5000 bytes that determine
the end address. -/
theorem setup_window_length_is_plane_size :
    (sample_run sample_key_frame).src_plane_size = 65536 ∧
    (sample_run sample_key_frame).src_plane_payload = 5000 ∧
    (sample_run sample_key_frame).src_dma_addr = 0x48000000 ∧
    ∃ c d,
      cedrus_vp8_setup sample_hdr sample_bufs sample_engine (sample_ctx 0 0 0)
        (sample_run sample_key_frame) sample_dev = some (c, d) ∧
      d.regs Reg.VE_H264_VLD_LEN = 524288 ∧
      d.regs Reg.VE_H264_VLD_END = 0x48000000 + 5000 ∧
      d.regs Reg.VE_H264_VLD_LEN ≠ 8 * (d.regs Reg.VE_H264_VLD_END - 0x48000000) := by
  refine ⟨rfl, rfl, rfl, ?_⟩
  obtain ⟨b, -, hs⟩ := setup_some sample_hdr sample_bufs sample_engine (sample_ctx 0 0 0)
    (sample_run sample_key_frame) sample_dev sample_table rfl (List.length_replicate _ _)
  have h1 := setup_dev_vld_len sample_hdr sample_bufs sample_engine (sample_ctx 0 0 0)
    (sample_run sample_key_frame) sample_dev
  have h2 := setup_dev_vld_end sample_hdr sample_bufs sample_engine (sample_ctx 0 0 0)
    (sample_run sample_key_frame) sample_dev
  have e1 : u32 ((sample_run sample_key_frame).src_plane_size * 8) = 524288 := by decide
  have e2 : u32 ((sample_run sample_key_frame).src_dma_addr +
      (sample_run sample_key_frame).src_plane_payload) = 0x48000000 + 5000 := by decide
  rw [e1] at h1
  rw [e2] at h2
  refine ⟨_, _, hs, h1, h2, ?_⟩
  rw [h1, h2]
  decide

/-- C22: with a well-formed picture-parameter layout, the word left in
`VE_VP8_PPS` by `cedrus_vp8_setup` has `SEGMENTATION_ENABLE` set iff the
frame's segment flags have `ENABLED`, `UPDATE_MB_SEGMENTATION_MAP` set iff
they have `UPDATE_MAP`, and `MB_SEGMENT_ABS_DELTA` set iff they do not have
`DELTA_VALUE_MODE`; nothing else (no other frame field, hint or engine
answer) decides any of the three bits. -/
theorem setup_pps_segmentation_bits (K : cedrus_hdr) (bufs : cedrus_bufs) (hw : Engine)
    (ctx : cedrus_vp8_ctx) (run : cedrus_run) (dev : cedrus_dev) (buf : List Nat)
    (hK : pps_wf K)
    (hb : ctx.entropy_probs_buf = some buf) (hl : buf.length = CEDRUS_ENTROPY_PROBS_SIZE) :
    ∃ c d, cedrus_vp8_setup K bufs hw ctx run dev = some (c, d) ∧
      (d.regs Reg.VE_VP8_PPS &&& K.VE_VP8_PPS_SEGMENTATION_ENABLE ≠ 0 ↔
        run.frame_params.segment.flags &&& K.V4L2_VP8_SEGMENT_FLAG_ENABLED ≠ 0) ∧
      (d.regs Reg.VE_VP8_PPS &&& K.VE_VP8_PPS_UPDATE_MB_SEGMENTATION_MAP ≠ 0 ↔
        run.frame_params.segment.flags &&& K.V4L2_VP8_SEGMENT_FLAG_UPDATE_MAP ≠ 0) ∧
      (d.regs Reg.VE_VP8_PPS &&& K.VE_VP8_PPS_MB_SEGMENT_ABS_DELTA ≠ 0 ↔
        ¬ (run.frame_params.segment.flags &&&
          K.V4L2_VP8_SEGMENT_FLAG_DELTA_VALUE_MODE ≠ 0)) := by
  obtain ⟨b, -, hs⟩ := setup_some K bufs hw ctx run dev buf hb hl
  have hp := setup_dev_pps K bufs hw ctx run dev
  have m1 := hK.1 K.VE_VP8_PPS_SEGMENTATION_ENABLE (by simp [pps_masks])
  have m2 := hK.1 K.VE_VP8_PPS_UPDATE_MB_SEGMENTATION_MAP (by simp [pps_masks])
  have m3 := hK.1 K.VE_VP8_PPS_MB_SEGMENT_ABS_DELTA (by simp [pps_masks])
  refine ⟨_, _, hs, ?_, ?_, ?_⟩
  · rw [hp, u32_and _ _ m1.2]
    exact and_mask_ne_zero_iff _ _ _ m1.1 (pps_segmentation_enable_bit K hK ctx run.frame_params)
  · rw [hp, u32_and _ _ m2.2]
    exact and_mask_ne_zero_iff _ _ _ m2.1 (pps_update_map_bit K hK ctx run.frame_params)
  · rw [hp, u32_and _ _ m3.2]
    exact and_mask_ne_zero_iff _ _ _ m3.1 (pps_abs_delta_bit K hK ctx run.frame_params)

/-- Witness of C22: the sample layout and the sample inter frame on the
sample device. -/
theorem setup_pps_segmentation_bits_witness :
    pps_wf sample_hdr ∧
    (sample_ctx 1 1 5).entropy_probs_buf = some sample_table ∧
    sample_table.length = CEDRUS_ENTROPY_PROBS_SIZE ∧
    ∃ c d,
      cedrus_vp8_setup sample_hdr sample_bufs sample_engine (sample_ctx 1 1 5)
        (sample_run sample_inter_frame) sample_dev = some (c, d) ∧
      (d.regs Reg.VE_VP8_PPS &&& sample_hdr.VE_VP8_PPS_SEGMENTATION_ENABLE ≠ 0 ↔
        (sample_run sample_inter_frame).frame_params.segment.flags &&&
          sample_hdr.V4L2_VP8_SEGMENT_FLAG_ENABLED ≠ 0) ∧
      (d.regs Reg.VE_VP8_PPS &&& sample_hdr.VE_VP8_PPS_UPDATE_MB_SEGMENTATION_MAP ≠ 0 ↔
        (sample_run sample_inter_frame).frame_params.segment.flags &&&
          sample_hdr.V4L2_VP8_SEGMENT_FLAG_UPDATE_MAP ≠ 0) ∧
      (d.regs Reg.VE_VP8_PPS &&& sample_hdr.VE_VP8_PPS_MB_SEGMENT_ABS_DELTA ≠ 0 ↔
        ¬ ((sample_run sample_inter_frame).frame_params.segment.flags &&&
          sample_hdr.V4L2_VP8_SEGMENT_FLAG_DELTA_VALUE_MODE ≠ 0)) :=
  ⟨by decide, rfl, List.length_replicate _ _,
    setup_pps_segmentation_bits sample_hdr sample_bufs sample_engine (sample_ctx 1 1 5)
      (sample_run sample_inter_frame) sample_dev sample_table (by decide) rfl
      (List.length_replicate _ _)⟩

/-- C23: `cedrus_vp8_irq_disable` reads the control register and writes it
back with the bits of the interrupt mask cleared: whatever value the read
returns, each bit of the word written is the bit read, cleared when it lies
in the mask; no other register changes; the trace grows by that read and that
write; no bit of the mask is set in the result; a second call that reads back
the value just written writes the same value; and called on the device left
by `cedrus_vp8_setup`, reading back the armed control word, it leaves that
word with the mask bits cleared, so no interrupt-enable bit is set. -/
theorem irq_disable_clears_enables (K : cedrus_hdr) (hw : Engine) (dev : cedrus_dev)
    (bufs : cedrus_bufs) (hw0 : Engine) (ctx : cedrus_vp8_ctx) (run : cedrus_run)
    (dev0 : cedrus_dev) (buf : List Nat)
    (hb : ctx.entropy_probs_buf = some buf) (hl : buf.length = CEDRUS_ENTROPY_PROBS_SIZE) :
    (∀ i, ((cedrus_vp8_irq_disable K hw dev).regs Reg.VE_H264_CTRL).testBit i =
      ((u32 (hw.rd dev.nread Reg.VE_H264_CTRL)).testBit i &&
        !K.VE_H264_CTRL_INT_MASK.testBit i)) ∧
    (∀ r, r ≠ Reg.VE_H264_CTRL → (cedrus_vp8_irq_disable K hw dev).regs r = dev.regs r) ∧
    (cedrus_vp8_irq_disable K hw dev).log =
      dev.log ++ [Ev.read Reg.VE_H264_CTRL (u32 (hw.rd dev.nread Reg.VE_H264_CTRL)),
        Ev.write Reg.VE_H264_CTRL
          ((cedrus_vp8_irq_disable K hw dev).regs Reg.VE_H264_CTRL)] ∧
    (cedrus_vp8_irq_disable K hw dev).regs Reg.VE_H264_CTRL &&& K.VE_H264_CTRL_INT_MASK = 0 ∧
    (cedrus_vp8_irq_disable K (readback_engine (cedrus_vp8_irq_disable K hw dev))
        (cedrus_vp8_irq_disable K hw dev)).regs Reg.VE_H264_CTRL =
      (cedrus_vp8_irq_disable K hw dev).regs Reg.VE_H264_CTRL ∧
    ∃ c d,
      cedrus_vp8_setup K bufs hw0 ctx run dev0 = some (c, d) ∧
      (cedrus_vp8_irq_disable K (readback_engine d) d).regs Reg.VE_H264_CTRL =
        u32 (u32 (K.VE_H264_CTRL_VP8 ||| K.VE_H264_CTRL_DECODE_ERR_INT |||
          K.VE_H264_CTRL_SLICE_DECODE_INT) &&& not32 K.VE_H264_CTRL_INT_MASK) ∧
      (cedrus_vp8_irq_disable K (readback_engine d) d).regs Reg.VE_H264_CTRL &&&
        K.VE_H264_CTRL_INT_MASK = 0 := by
  obtain ⟨b, -, hs⟩ := setup_some K bufs hw0 ctx run dev0 buf hb hl
  refine ⟨?_, ?_, ?_, ?_, ?_, _, _, hs, ?_, ?_⟩
  · intro i
    rw [irq_disable_regs, if_pos rfl, irq_disable_word_bits]
  · intro r hr
    rw [irq_disable_regs, if_neg hr]
  · rw [irq_disable_log, irq_disable_regs, if_pos rfl]
  · rw [irq_disable_regs, if_pos rfl]
    exact irq_disable_word_mask _ _
  · rw [irq_disable_regs, if_pos rfl]
    show u32 (u32 ((cedrus_vp8_irq_disable K hw dev).regs Reg.VE_H264_CTRL) &&&
      not32 K.VE_H264_CTRL_INT_MASK) = _
    rw [irq_disable_regs, if_pos rfl]
    exact irq_disable_word_idem _ _
  · rw [irq_disable_regs, if_pos rfl]
    show u32 (u32 ((setup_dev K bufs hw0 ctx run dev0).regs Reg.VE_H264_CTRL) &&&
      not32 K.VE_H264_CTRL_INT_MASK) = _
    rw [setup_dev_ctrl, u32_u32]
  · rw [irq_disable_regs, if_pos rfl]
    exact irq_disable_word_mask _ _

/-- Witness of C23: the sample layout, a control register that reads
`0x20000003`, and the sample inter frame on the sample device. -/
theorem irq_disable_clears_enables_witness :
    (sample_ctx 1 1 5).entropy_probs_buf = some sample_table ∧
    sample_table.length = CEDRUS_ENTROPY_PROBS_SIZE ∧
    (cedrus_vp8_irq_disable sample_hdr { rd := fun _ _ => 0x20000003, expired := fun _ => false }
      sample_dev).regs Reg.VE_H264_CTRL &&& sample_hdr.VE_H264_CTRL_INT_MASK = 0 ∧
    ∃ c d,
      cedrus_vp8_setup sample_hdr sample_bufs sample_engine (sample_ctx 1 1 5)
        (sample_run sample_inter_frame) sample_dev = some (c, d) ∧
      (cedrus_vp8_irq_disable sample_hdr (readback_engine d) d).regs Reg.VE_H264_CTRL =
        u32 (u32 (sample_hdr.VE_H264_CTRL_VP8 ||| sample_hdr.VE_H264_CTRL_DECODE_ERR_INT |||
          sample_hdr.VE_H264_CTRL_SLICE_DECODE_INT) &&&
            not32 sample_hdr.VE_H264_CTRL_INT_MASK) ∧
      (cedrus_vp8_irq_disable sample_hdr (readback_engine d) d).regs Reg.VE_H264_CTRL &&&
        sample_hdr.VE_H264_CTRL_INT_MASK = 0 :=
  ⟨rfl, List.length_replicate _ _,
    (irq_disable_clears_enables sample_hdr
      { rd := fun _ _ => 0x20000003, expired := fun _ => false } sample_dev sample_bufs
      sample_engine (sample_ctx 1 1 5) (sample_run sample_inter_frame) sample_dev sample_table
      rfl (List.length_replicate _ _)).2.2.2.1,
    (irq_disable_clears_enables sample_hdr
      { rd := fun _ _ => 0x20000003, expired := fun _ => false } sample_dev sample_bufs
      sample_engine (sample_ctx 1 1 5) (sample_run sample_inter_frame) sample_dev sample_table
      rfl (List.length_replicate _ _)).2.2.2.2.2⟩
/-! ## Number and arguments of the reads of the header replay -/

/-- C24: `cedrus_read_header` is a total function, and for every engine and
device state the reads it adds number between 16 and 85 for a key frame and
between 62 and 178 for an inter frame; with an engine whose every read
returns 0 they number exactly 16 for a key frame and 64 for an inter frame. -/
theorem read_header_read_count (K : cedrus_hdr) (hw : Engine) (d : cedrus_dev)
    (slice : v4l2_ctrl_vp8_frame) :
    (∃ new, (cedrus_read_header K hw d slice).calls = d.calls ++ new ∧
      if V4L2_VP8_FRAME_IS_KEY_FRAME K slice = true then 16 ≤ new.length ∧ new.length ≤ 85
      else 62 ≤ new.length ∧ new.length ≤ 178) ∧
    ∃ new0,
      (cedrus_read_header K { hw with rd := fun _ _ => 0 } d slice).calls = d.calls ++ new0 ∧
      new0.length = if V4L2_VP8_FRAME_IS_KEY_FRAME K slice = true then 16 else 64 := by
  refine ⟨⟨_, read_header_calls K hw d slice, ?_⟩, ⟨_, read_header_calls K _ d slice, ?_⟩⟩
  · cases V4L2_VP8_FRAME_IS_KEY_FRAME K slice
    · have hb := calls_bounds hw.nonzero (header_script false) d.nread
      rw [inter_script_reads.1, inter_script_reads.2] at hb
      rw [if_neg (by decide)]
      exact hb
    · have hb := calls_bounds hw.nonzero (header_script true) d.nread
      rw [key_script_reads.1, key_script_reads.2] at hb
      rw [if_pos rfl]
      exact hb
  · have hz : Engine.nonzero { hw with rd := fun _ _ => 0 } = fun _ => false := rfl
    rw [hz, calls_const false _ d.nread 0]
    cases V4L2_VP8_FRAME_IS_KEY_FRAME K slice
    · rw [if_neg (by decide)]
      exact inter_calls_all_zero
    · rw [if_pos rfl]
      exact key_calls_all_zero

/-- C25: for every frame, engine and device state, each `read_bits` call
added by `cedrus_read_header` asks for a bit count between 1 and 8 at a
probability between 1 and 255, which is 128 or an entry of
`k_mv_entropy_update_probs`; these entries all lie in 231..254; and the
result of any `read_bits` call is below 256. -/
theorem read_header_valid_reads (K : cedrus_hdr) (hw : Engine) (d : cedrus_dev)
    (slice : v4l2_ctrl_vp8_frame) :
    (∃ new, (cedrus_read_header K hw d slice).calls = d.calls ++ new ∧
      ∀ c ∈ new, 1 ≤ c.1 ∧ c.1 ≤ 8 ∧ 1 ≤ c.2 ∧ c.2 ≤ 255 ∧
        (c.2 = 128 ∨ c.2 ∈ k_mv_entropy_update_probs.flatten)) ∧
    (∀ p ∈ k_mv_entropy_update_probs.flatten, 231 ≤ p ∧ p ≤ 254) ∧
    ∀ d0 b p, (read_bits K hw d0 b p).1 < 256 := by
  refine ⟨⟨_, read_header_calls K hw d slice, ?_⟩, mv_probs_range,
    fun d0 b p => read_bits_lt K hw d0 b p⟩
  intro c hc
  have hv := all_reads_calls valid_read hw.nonzero _
    (header_script_valid (V4L2_VP8_FRAME_IS_KEY_FRAME K slice)) d.nread c hc
  simp only [valid_read, decide_eq_true_eq, VP8_PROB_HALF] at hv
  obtain ⟨h1, h2, h3⟩ := hv
  refine ⟨h1, h2, ?_, ?_, ?_⟩
  · rcases h3 with h3 | h3 <;> omega
  · rcases h3 with h3 | h3 <;> omega
  · rcases h3 with h3 | h3
    · exact Or.inl h3
    · exact Or.inr h3.1
/-! ## Bounds of the table writes and survival of the baseline -/

/-- C26: the table has 9216 bytes; `cedrus_vp8_start` with a successful
allocation never takes an out-of-range branch and changes the zero-filled
buffer only at offsets 2048..4527; `cedrus_vp8_update_probs` on a table of
9216 bytes never takes an out-of-range branch either, for any frame, and
changes the table only at offsets up to 2026 (the coefficient region) or in
`0x1008..0x1052` (the mode and motion-vector region); all of these offsets
are below 9216. -/
theorem table_writes_in_bounds (slice : v4l2_ctrl_vp8_frame) (buf : List Nat)
    (ctx : cedrus_vp8_ctx) (dma : Nat) (hl : buf.length = CEDRUS_ENTROPY_PROBS_SIZE) :
    CEDRUS_ENTROPY_PROBS_SIZE = 9216 ∧
    2048 + prob_table_init.length - 1 = 4527 ∧ 4527 < CEDRUS_ENTROPY_PROBS_SIZE ∧
    0x1052 = 4178 ∧ 4178 < CEDRUS_ENTROPY_PROBS_SIZE ∧
    3 * 512 + 7 * 64 + 2 * 16 + 10 = 2026 ∧ 2026 < CEDRUS_ENTROPY_PROBS_SIZE ∧
    (∃ ctx' buf0, cedrus_vp8_start ctx (some dma) = some (0, ctx') ∧
      ctx'.entropy_probs_buf = some buf0 ∧ buf0.length = CEDRUS_ENTROPY_PROBS_SIZE ∧
      ∀ x, buf0[x]? ≠ (List.replicate CEDRUS_ENTROPY_PROBS_SIZE 0)[x]? →
        2048 ≤ x ∧ x ≤ 4527) ∧
    ∃ buf', cedrus_vp8_update_probs slice buf = some buf' ∧
      buf'.length = CEDRUS_ENTROPY_PROBS_SIZE ∧
      ∀ x, buf'[x]? ≠ buf[x]? → x ≤ 2026 ∨ (0x1008 ≤ x ∧ x ≤ 0x1052) := by
  refine ⟨rfl, by rw [prob_table_init_length], by decide, rfl, by decide, rfl, by decide,
    ?_, ?_⟩
  · obtain ⟨buf0, hb, hlen, hget⟩ := start_table
    refine ⟨{ ctx with entropy_probs_buf := some buf0, entropy_probs_buf_dma := dma }, buf0,
      ?_, rfl, hlen, ?_⟩
    · unfold cedrus_vp8_start
      simp only [hb, Option.map_some']
    · intro x hx
      by_contra hc
      apply hx
      rw [hget, if_neg (by omega), List.getElem?_replicate]
      rfl
  · obtain ⟨t', hrun, hlen, hkeep⟩ := update_probs_keeps_high slice buf hl
    refine ⟨t', hrun, hlen, ?_⟩
    intro x hx
    by_contra hc
    exact hx (hkeep x (by omega) (by omega))

/-- Witness of C26: the sample key frame on the zero-filled sample table. -/
theorem table_writes_in_bounds_witness :
    sample_table.length = CEDRUS_ENTROPY_PROBS_SIZE ∧
    (∃ ctx' buf0, cedrus_vp8_start (sample_ctx 0 0 0) (some 0x40000000) = some (0, ctx') ∧
      ctx'.entropy_probs_buf = some buf0 ∧ buf0.length = CEDRUS_ENTROPY_PROBS_SIZE ∧
      ∀ x, buf0[x]? ≠ (List.replicate CEDRUS_ENTROPY_PROBS_SIZE 0)[x]? →
        2048 ≤ x ∧ x ≤ 4527) ∧
    ∃ buf', cedrus_vp8_update_probs sample_key_frame sample_table = some buf' ∧
      buf'.length = CEDRUS_ENTROPY_PROBS_SIZE ∧
      ∀ x, buf'[x]? ≠ sample_table[x]? → x ≤ 2026 ∨ (0x1008 ≤ x ∧ x ≤ 0x1052) :=
  ⟨List.length_replicate _ _,
    (table_writes_in_bounds sample_key_frame sample_table (sample_ctx 0 0 0) 0x40000000
      (List.length_replicate _ _)).2.2.2.2.2.2.2⟩

/-- C27: an update changes the table at or above offset 2048 only inside
`0x1008..0x1052`, where the baseline `prob_table_init` (at index offset −
2048) is 0; hence after a successful `cedrus_vp8_start` followed by the
updates of any list of frames, which all succeed, every non-zero byte of
`prob_table_init` is still at offset 2048 plus its index. -/
theorem baseline_survives_updates (ctx : cedrus_vp8_ctx) (dma : Nat)
    (frames : List v4l2_ctrl_vp8_frame) :
    (∀ x, 0x1008 ≤ x → x ≤ 0x1052 → prob_table_init[x - 2048]? = some 0) ∧
    (∀ (p : v4l2_ctrl_vp8_frame) (t : List Nat), t.length = CEDRUS_ENTROPY_PROBS_SIZE →
      ∃ t', cedrus_vp8_update_probs p t = some t' ∧
        ∀ x, 2048 ≤ x → t'[x]? ≠ t[x]? → 0x1008 ≤ x ∧ x ≤ 0x1052) ∧
    ∃ ctx0 buf0 t',
      cedrus_vp8_start ctx (some dma) = some (0, ctx0) ∧
      ctx0.entropy_probs_buf = some buf0 ∧
      frames.foldlM (fun t p => cedrus_vp8_update_probs p t) buf0 = some t' ∧
      ∀ i, i < 2480 → prob_table_init[i]? ≠ some 0 →
        t'[2048 + i]? = prob_table_init[i]? := by
  refine ⟨?_, ?_, ?_⟩
  · intro x h1 h2
    exact prob_table_init_zero _ (by omega) (by omega)
  · intro p t ht
    obtain ⟨t', hrun, -, hkeep⟩ := update_probs_keeps_high p t ht
    refine ⟨t', hrun, ?_⟩
    intro x hx hne
    by_contra hc
    exact hne (hkeep x (by omega) (by omega))
  · obtain ⟨buf0, hb, hlen, hget⟩ := start_table
    obtain ⟨t', hrun, -, hkeep⟩ := update_many_keeps_high frames buf0 hlen
    refine ⟨{ ctx with entropy_probs_buf := some buf0, entropy_probs_buf_dma := dma }, buf0,
      t', ?_, rfl, hrun, ?_⟩
    · unfold cedrus_vp8_start
      simp only [hb, Option.map_some']
    · intro i hi hnz
      have hout : i < 2056 ∨ 2144 ≤ i := by
        by_contra hc
        exact hnz (prob_table_init_zero i (by omega) (by omega))
      have e : 2048 + i - 2048 = i := by omega
      rw [hkeep (2048 + i) (by omega) (by omega), hget, if_pos (by omega), e]
end Cedrus
